import Mathlib

/-! # in3-c : request execution (`core/client/execute.c`)

A shallow embedding of the request-execution state machine of the Incubed
client and of the functions it is built from.  C pointers become `Option`
values or list indices, linked lists become `List`s, machine integers become
`Nat`/`Int` with the wrap-around written out, and the plug-ins the executor
calls (verifier, node selector, parser, clock) are fields of an `environment`.
-/

set_option autoImplicit false

/-! ## Status codes -/

/-- The C enum `in3_ret_t`.  A C enum is an `int`: plug-ins may hand back any value. -/
abbrev in3_ret_t := Int

/-- Modelled from the spec: `error.h` is not among the sources.  §6 lists the
kinds; success is `0`, every error kind is negative (`res < 0` is the failure test
used throughout `execute.c`). -/
abbrev IN3_OK : in3_ret_t := 0
/-- Modelled from the spec: the `unknown` kind of §6. -/
abbrev IN3_EUNKNOWN : in3_ret_t := -1
/-- Modelled from the spec: the `out-of-memory` kind of §6. -/
abbrev IN3_ENOMEM : in3_ret_t := -2
/-- Modelled from the spec: the `not-supported` kind of §6. -/
abbrev IN3_ENOTSUP : in3_ret_t := -3
/-- Modelled from the spec: the `invalid-arg` kind of §6 (`invalid` in §4.F). -/
abbrev IN3_EINVAL : in3_ret_t := -4
/-- Modelled from the spec: the `not-found` kind of §6. -/
abbrev IN3_EFIND : in3_ret_t := -5
/-- Modelled from the spec: the `config` kind of §6. -/
abbrev IN3_ECONFIG : in3_ret_t := -6
/-- Modelled from the spec: the `limit` kind of §6 (max attempts reached). -/
abbrev IN3_ELIMIT : in3_ret_t := -7
/-- Modelled from the spec: the `version` kind of §6 (cache). -/
abbrev IN3_EVERS : in3_ret_t := -8
/-- Modelled from the spec: the `invalid-data` kind of §6. -/
abbrev IN3_EINVALDT : in3_ret_t := -9
/-- Modelled from the spec: the `rpc` kind of §6. -/
abbrev IN3_ERPC : in3_ret_t := -11
/-- Modelled from the spec: the `waiting` kind of §6 (not terminal). -/
abbrev IN3_WAITING : in3_ret_t := -16
/-- Modelled from the spec: the `ignore` kind of §6 (allowed-to-fail). -/
abbrev IN3_EIGNORE : in3_ret_t := -17

/-- The macro `WAIT_TIME_CAP`, 3600 seconds. -/
abbrev WAIT_TIME_CAP : Nat := 3600
/-- The macro `BLACKLISTTIME`, `24 * 3600` seconds. -/
abbrev BLACKLISTTIME : Nat := 24 * 3600

/-! ## JSON tokens (`d_token_t`) -/

/-- A parsed token.  Object members are kept in document order; a member name
stands for the 16-bit key the C code derives from it. -/
inductive d_token_t where
  | null
  | boolean (b : Bool)
  | integer (n : Nat)
  | string (s : String)
  | bytes (b : List Nat)
  | array (items : List d_token_t)
  | object (props : List (String × d_token_t))

/-- The token kinds tested by `d_type`. -/
inductive d_type_t where
  | T_BYTES | T_STRING | T_ARRAY | T_OBJECT | T_BOOLEAN | T_INTEGER | T_NULL
  deriving DecidableEq, Repr

/-- Modelled from the spec: `util/data.c` is not among the sources.  `d_type`
of a missing token is `T_NULL`. -/
def d_type : Option d_token_t → d_type_t
  | some (.bytes _) => .T_BYTES
  | some (.string _) => .T_STRING
  | some (.array _) => .T_ARRAY
  | some (.object _) => .T_OBJECT
  | some (.boolean _) => .T_BOOLEAN
  | some (.integer _) => .T_INTEGER
  | some .null => .T_NULL
  | none => .T_NULL

/-- Modelled from the spec: `util/data.c` is not among the sources.  `d_get`
returns the first member of an object with the given key, and nothing for a
missing token or a token that is not an object. -/
def d_get (item : Option d_token_t) (key : String) : Option d_token_t :=
  match item with
  | some (.object props) => (props.find? (fun p => p.1 == key)).map (fun p => p.2)
  | _ => none

/-- Modelled from the spec: `util/data.c` is not among the sources.  The text
of a string token; no text for any other token. -/
def d_string : Option d_token_t → Option String
  | some (.string s) => some s
  | _ => none

/-- The text of member `k` of `t`: `d_string(d_get(t, k))`. -/
def d_get_stringk (item : Option d_token_t) (key : String) : Option String :=
  d_string (d_get item key)

/-- Big-endian value of a byte string. -/
def bytes_to_long (b : List Nat) : Nat :=
  b.foldl (fun acc x => acc * 256 + x % 256) 0

/-- Modelled from the spec: `util/data.c` is not among the sources.  The
unsigned 64-bit value of a numeric token, `0` when the token is missing or not
numeric. -/
def d_long : Option d_token_t → Nat
  | some (.integer n) => n % 2 ^ 64
  | some (.bytes b) => bytes_to_long b % 2 ^ 64
  | _ => 0

/-- The 64-bit value of member `k` of `t`: `d_long(d_get(t, k))`. -/
def d_get_longk (item : Option d_token_t) (key : String) : Nat :=
  d_long (d_get item key)

/-- Modelled from the spec: `util/data.c` is not among the sources.  Number of
elements of an array, of members of an object; `0` otherwise. -/
def d_len : Option d_token_t → Nat
  | some (.array items) => items.length
  | some (.object props) => props.length
  | _ => 0

/-- Keys of `keys.h` (`K_METHOD` and the others), by member name. -/
abbrev K_METHOD : String := "method"
abbrev K_RESULT : String := "result"
abbrev K_ERROR : String := "error"
abbrev K_IN3 : String := "in3"
abbrev K_PROOF : String := "proof"
abbrev K_MESSAGE : String := "message"
abbrev K_PARAMS : String := "params"
abbrev K_ID : String := "id"
abbrev K_LAST_NODE_LIST : String := "lastNodeList"
abbrev K_CURRENT_BLOCK : String := "currentBlock"
abbrev K_LAST_WHITE_LIST : String := "lastWhiteList"
abbrev K_LAST_VALIDATOR_CHANGE : String := "lastValidatorChange"
abbrev K_DATA_NODES : String := "dataNodes"
abbrev K_SIGNER_NODES : String := "signerNodes"

/-- A parsed document (`json_ctx_t`): its root token and whether it came from
the binary format. -/
structure json_ctx_t where
  result : d_token_t
  is_binary : Bool

/-! ## Client, chain, nodes -/

/-- Mutable reputation of a node (`in3_node_weight_t`): two 32-bit counters and
a 64-bit timestamp. -/
structure in3_node_weight_t where
  response_count : Nat
  total_response_time : Nat
  blacklisted_until : Nat
  deriving DecidableEq, Repr

/-- A node of the node list (`in3_node_t`). -/
structure in3_node_t where
  capacity : Nat
  index : Nat
  deposit : Nat
  props : Nat
  address : List Nat
  url : String
  whitelisted : Bool
  deriving DecidableEq, Repr

/-- A picked node (`node_match_t`, one cell of the linked list).  `weight` is
the pointer into the chain's weights table, kept as the index of the entry;
`none` is the NULL pointer, i.e. the node is rejected in this context. -/
structure node_match_t where
  node : in3_node_t
  weight : Option Nat
  deriving DecidableEq, Repr

/-- The scheduled node-list update (`nodelist_upd8_params`). -/
structure nodelist_upd8_params_t where
  node : List Nat
  exp_last_block : Nat
  timestamp : Nat
  deriving DecidableEq, Repr

/-- The whitelist of a chain, as far as `execute.c` reads and writes it. -/
structure in3_whitelist_t where
  contract : List Nat
  last_block : Nat
  needs_update : Bool
  deriving DecidableEq, Repr

/-- A verified block hash kept by the chain. -/
structure in3_verified_hash_t where
  block_number : Nat
  hash : List Nat
  deriving DecidableEq, Repr

/-- A chain (`in3_chain_t`). -/
structure in3_chain_t where
  chain_id : Nat
  type : Nat
  last_block : Nat
  avg_block_time : Nat
  nodelist : List in3_node_t
  weights : List in3_node_weight_t
  nodelist_upd8_params : Option nodelist_upd8_params_t
  whitelist : Option in3_whitelist_t
  verified_hashes : Option (List in3_verified_hash_t)
  deriving DecidableEq, Repr

/-- The proof level `in3_proof_t`. -/
inductive in3_proof_t where
  | PROOF_NONE | PROOF_STANDARD | PROOF_FULL
  deriving DecidableEq, Repr

/-- The client (`in3_t`).  `cache` says whether a storage handler is
configured, `key` is the optional request-signing key. -/
structure in3_t where
  chain_id : Nat
  flags : Nat
  max_attempts : Nat
  request_count : Nat
  signature_count : Nat
  replace_latest_block : Nat
  finality : Nat
  node_props : Nat
  proof : in3_proof_t
  key : Option (List Nat)
  max_verified_hashes : Nat
  cache : Bool
  timeout : Nat
  chains : List in3_chain_t
  deriving DecidableEq, Repr

/-- Modelled from the spec: `client.h` is not among the sources; the flag bits
are those of its `in3_flags_type_t`. -/
abbrev FLAGS_AUTO_UPDATE_LIST : Nat := 0x2
abbrev FLAGS_INCLUDE_CODE : Nat := 0x4
abbrev FLAGS_BINARY : Nat := 0x8
abbrev FLAGS_HTTP : Nat := 0x10
abbrev FLAGS_STATS : Nat := 0x20
abbrev FLAGS_NODE_LIST_NO_SIG : Nat := 0x40

/-- Modelled from the spec: `client.h` is not among the sources; the node
property bits are those of its `in3_node_props_type_t`. -/
abbrev NODE_PROP_PROOF : Nat := 0x1
abbrev NODE_PROP_MULTICHAIN : Nat := 0x2
abbrev NODE_PROP_HTTP : Nat := 0x8
abbrev NODE_PROP_SIGNER : Nat := 0x40
abbrev NODE_PROP_DATA : Nat := 0x80

/-- Modelled from the spec: `client.h` is not among the sources; the ids of the
local chain and of Bitcoin. -/
abbrev ETH_CHAIN_ID_LOCAL : Nat := 0xFFFF
abbrev ETH_CHAIN_ID_BTC : Nat := 0x99

/-! ## Request context -/

/-- One raw response slot (`in3_response_t`): its state and its buffer.  The
buffer is `none` for a NULL data pointer; its `len` is the length of the text. -/
structure in3_response_t where
  state : in3_ret_t
  data : Option String
  deriving DecidableEq, Repr

/-- The context type `ctx_type_t`; `CT_OTHER` stands for any value outside the enum, which the
`switch` of `in3_ctx_execute` sends to `default`. -/
inductive ctx_type_t where
  | CT_RPC | CT_SIGN | CT_OTHER
  deriving DecidableEq, Repr

/-- A request context (`in3_ctx_t`) without its `required` link: a context
pointer is a `List in3_ctx_t`, `[]` for NULL and `c :: rest` for a context `c`
with `c->required = rest`.  The client is shared and passed alongside. -/
structure in3_ctx_t where
  type : ctx_type_t
  error : Option String
  verification_state : in3_ret_t
  request_context : Option json_ctx_t
  requests : List d_token_t
  len : Nat
  attempt : Nat
  response_context : Option json_ctx_t
  responses : Option (List d_token_t)
  raw_response : Option (List in3_response_t)
  nodes : List node_match_t
  times : Option (List Nat)
  signers : Option (List (List Nat))
  signers_length : Nat

/-! ## Collaborators -/

/-- Steps of one `in3_ctx_execute` call that reach outside the context, in the
order they happen.  The list is bookkeeping of the model: it lets a theorem say
that a collaborator was, or was not, called. -/
inductive exec_event where
  | find_chain (chain_id : Nat)
  | get_verifier (chain_type : Nat)
  | pre_handle
  | pick_nodes (count : Nat) (props : Nat)
  | matcher (nodes_count : Nat)
  | verify (n : Nat) (i : Nat)
  | cache_store (chain_id : Nat)
  deriving DecidableEq, Repr

/-- The verifier's view of one request (`in3_vctx_t`). -/
structure in3_vctx_t where
  ctx : in3_ctx_t
  required : List in3_ctx_t
  chain : in3_chain_t
  client : in3_t
  request : Option d_token_t
  result : Option d_token_t
  proof : Option d_token_t
  last_validator_change : Nat
  currentBlock : Nat

/-- What `verify` hands back: its status, and the two fields of the context a
verifier writes (the error message, and the sub-context chain when it attaches
a context it needs resolved). -/
structure verify_result where
  ret : in3_ret_t
  error : Option String
  required : List in3_ctx_t

/-- What `pre_handle(ctx, &ctx->raw_response)` hands back: its status, the raw
response it may have filled in, and the error and sub-context chain it left. -/
structure pre_handle_result where
  ret : in3_ret_t
  raw_response : Option (List in3_response_t)
  error : Option String
  required : List in3_ctx_t

/-- Modelled from the spec: the verifiers are plug-ins outside the sources.
§4.C/D/E: `verify(vctx)` yields a status; `pre_handle` is optional. -/
structure in3_verifier_t where
  pre_handle : Option (in3_t → in3_ctx_t → List in3_ctx_t → pre_handle_result)
  verify : in3_vctx_t → verify_result

/-- The filter given to the node selector (`in3_node_filter_t`). -/
structure in3_node_filter_t where
  nodes : Option d_token_t
  props : Nat

/-- What `in3_node_list_pick_nodes(ctx, &out, n, filter)` hands back: its
status, the list written to `out`, and the error and sub-context chain it left
on the context. -/
structure pick_result where
  ret : in3_ret_t
  nodes : List node_match_t
  error : Option String
  required : List in3_ctx_t

/-- Everything `execute.c` calls but does not define.  `now` is the value of
`in3_time(NULL)` during the call. -/
structure environment where
  now : Nat
  in3_get_verifier : Nat → Option in3_verifier_t
  in3_node_list_pick_nodes :
    in3_t → in3_ctx_t → List in3_ctx_t → Nat → in3_node_filter_t → pick_result
  in3_ctx_get_proof : in3_t → in3_ctx_t → in3_proof_t
  parse_json : String → Option json_ctx_t
  parse_binary_str : String → Nat → Option json_ctx_t
  str_remove_html : String → String

/-! ## Small helpers -/

/-- Write through a pointer to element `n` of a table: apply `f` there, leave
the table alone when `n` is outside it. -/
def update_at {α : Type} (l : List α) (n : Nat) (f : α → α) : List α :=
  match l, n with
  | [], _ => []
  | x :: xs, 0 => f x :: xs
  | x :: xs, n + 1 => x :: update_at xs n f

/-- Modelled from the spec: `ctx_set_error` is defined in `context.c`, which is
not among the sources.  §7: the error is "a free-form message stored on the
context"; §6: `waiting` is not terminal, so nothing is stored for it (the
comment in `in3_ctx_execute` on a failed node pick reads "we either report it
as error or wait").  The status given is the status returned. -/
def ctx_set_error (ctx : in3_ctx_t) (msg : String) (errnumber : in3_ret_t) :
    in3_ctx_t × in3_ret_t :=
  if errnumber = IN3_WAITING then (ctx, errnumber)
  else ({ ctx with error := some msg }, errnumber)

/-- Modelled from the spec: `ctx_is_method` is an inline helper of
`context_internal.h`, not among the sources.  §4.I: "whose first request is
`method`". -/
def ctx_is_method (ctx : in3_ctx_t) (method : String) : Bool :=
  match d_get_stringk ctx.requests.head? K_METHOD with
  | some m => m == method
  | none => false

/-- Length of a picked-node list (`ctx_nodes_len`). -/
def ctx_nodes_len (nodes : List node_match_t) : Nat := nodes.length

/-- Modelled from the spec: `in3_find_chain` is defined in `client.c`, not among
the sources.  §4.A step 5a: "resolve the chain by id".  The result is the
position of the chain in the client's table. -/
def in3_find_chain (c : in3_t) (chain_id : Nat) : Option Nat :=
  let i := c.chains.findIdx (fun ch => ch.chain_id == chain_id)
  if i < c.chains.length then some i else none

/-! ## Response parsing and node reputation -/

/-- Shape check and positional split of a response (`ctx_parse_response`).
The buffer is JSON when it starts with an opening brace (character 123) or
bracket (character 91), binary otherwise.  `responses` keeps its previous value on the paths that do not
assign it. -/
def ctx_parse_response (env : environment) (ctx : in3_ctx_t) (response_data : String)
    (len : Nat) : in3_ctx_t × in3_ret_t :=
  let first := response_data.data.head?
  let parsed :=
    if first = some (Char.ofNat 123) ∨ first = some (Char.ofNat 91) then env.parse_json response_data
    else env.parse_binary_str response_data len
  let ctx := { ctx with response_context := parsed }
  match parsed with
  | none =>
      let inner := ctx_set_error ctx (env.str_remove_html response_data) IN3_EINVALDT
      ctx_set_error inner.1 "Error in JSON-response : " inner.2
  | some doc =>
      match doc.result with
      | .object _ =>
          let ctx := { ctx with responses := some [doc.result] }
          if ctx.len ≠ 1 then
            ctx_set_error ctx "The response must be a single object!" IN3_EINVALDT
          else (ctx, IN3_OK)
      | .array items =>
          if items.length ≠ ctx.len then
            ctx_set_error ctx
              "The responses must be a array with the same number as the requests!"
              IN3_EINVALDT
          else ({ ctx with responses := some items }, IN3_OK)
      | _ => ctx_set_error ctx "The response must be a Object or Array" IN3_EINVALDT

/-- Persistent blacklisting (`blacklist_node`): when the node still holds its
weight, the entry is blacklisted for `BLACKLISTTIME` seconds from now (a 64-bit
sum) and the node's weight pointer is cleared.  The result is the weights table
and the node cell. -/
def blacklist_node (now : Nat) (weights : List in3_node_weight_t)
    (node_weight : Option node_match_t) :
    List in3_node_weight_t × Option node_match_t :=
  match node_weight with
  | some m =>
      match m.weight with
      | some w =>
          (update_at weights w
              (fun e => { e with blacklisted_until := (now + BLACKLISTTIME) % 2 ^ 64 }),
            some { m with weight := none })
      | none => (weights, node_weight)
  | none => (weights, node_weight)

/-- Seconds to wait before a node-list update (`update_waittime`): 64-bit
arithmetic, 16-bit result. -/
def update_waittime (nodelist_block current_blk repl_latest avg_blktime : Nat) : Nat :=
  if nodelist_block > current_blk then 0
  else
    let diff := current_blk - nodelist_block
    if diff ≥ repl_latest then 0
    else (min (((repl_latest - diff) * avg_blktime) % 2 ^ 64) WAIT_TIME_CAP) % 2 ^ 16

/-- The `memcpy` of an address over the 20-byte `node` field of the update
descriptor (zero-filled when freshly allocated). -/
def copy_node_address (old : Option nodelist_upd8_params_t) (address : List Nat) : List Nat :=
  let prev := match old with
    | some p => p.node
    | none => List.replicate 20 0
  address ++ prev.drop address.length

/-- Node-list auto-update trigger (`check_autoupdate`).  The `memcpy` reads
`node->node->address`; for `node == NULL` the C code dereferences a NULL
pointer there and has no defined result.  The model copies an empty address in
that case. -/
def check_autoupdate (env : environment) (client : in3_t) (chain : in3_chain_t)
    (response_in3 : Option d_token_t) (node : Option node_match_t) : in3_chain_t :=
  if client.flags &&& FLAGS_AUTO_UPDATE_LIST = 0 then chain
  else if d_get_longk response_in3 K_LAST_NODE_LIST > d_get_longk response_in3 K_CURRENT_BLOCK
  then chain
  else
    let chain1 :=
      if d_get_longk response_in3 K_LAST_NODE_LIST > chain.last_block then
        { chain with
          nodelist_upd8_params := some {
            node := copy_node_address chain.nodelist_upd8_params
              (match node with
                | some m => m.node.address
                | none => [])
            exp_last_block := d_get_longk response_in3 K_LAST_NODE_LIST
            timestamp := (env.now + update_waittime
              (d_get_longk response_in3 K_LAST_NODE_LIST)
              (d_get_longk response_in3 K_CURRENT_BLOCK)
              client.replace_latest_block chain.avg_block_time) % 2 ^ 64 } }
      else chain
    match chain1.whitelist with
    | some wl =>
        if d_get_longk response_in3 K_LAST_WHITE_LIST > wl.last_block then
          { chain1 with whitelist := some { wl with needs_update := true } }
        else chain1
    | none => chain1

/-- A picked node whose weight pointer is cleared (`is_blacklisted`). -/
def is_blacklisted (node_weight : Option node_match_t) : Bool :=
  match node_weight with
  | some m => m.weight.isNone
  | none => false

/-- The predicate `is_user_error`: the message is the token itself when it is a
string, else its `message` member; the answer is true when a message exists and
does not start with `Error:`. -/
def is_user_error (error : Option d_token_t) : Bool :=
  let err_msg :=
    if d_type error = .T_STRING then d_string error else d_get_stringk error K_MESSAGE
  match err_msg with
  | some m => !("Error:".data.isPrefixOf m.data)
  | none => false

/-! ## The response matcher (`find_valid_result`) -/

/-- The objects `find_valid_result` reads and writes: the context, its
sub-context chain, the slot array `response`, the chain, the local
`still_pending`, and the two fields of the local `vc` that survive from one
request to the next (`0` stands for their uninitialised value). -/
structure fvr_state where
  ctx : in3_ctx_t
  required : List in3_ctx_t
  response : List in3_response_t
  chain : in3_chain_t
  still_pending : Bool
  last_validator_change : Nat
  currentBlock : Nat
  trace : List exec_event

/-- The call `blacklist_node(node)` for the node of slot `n`, written back to
the chain's weights table and to the picked-node list. -/
def fvr_blacklist (env : environment) (n : Nat) (st : fvr_state) : fvr_state :=
  let r := blacklist_node env.now st.chain.weights st.ctx.nodes[n]?
  { st with
    chain := { st.chain with weights := r.1 }
    ctx := { st.ctx with
      nodes := match r.2 with
        | some m => update_at st.ctx.nodes n (fun _ => m)
        | none => st.ctx.nodes } }

/-- The assignment `node->weight = NULL` for the node of slot `n`.  The C
statement writes through `node`; for `node == NULL` (a context that was
answered internally, without picked nodes) it dereferences a NULL pointer and
has no defined result.  The model leaves the state as it is in that case. -/
def fvr_reject (n : Nat) (st : fvr_state) : fvr_state :=
  { st with ctx := { st.ctx with
      nodes := update_at st.ctx.nodes n (fun m => { m with weight := none }) } }

/-- The "handle times" block: a non-zero latency sample of a node that still
holds its weight is folded into the entry (32-bit counters) and zeroed. -/
def fvr_times (n : Nat) (st : fvr_state) : fvr_state :=
  match st.ctx.times with
  | none => st
  | some times =>
      match st.ctx.nodes[n]? with
      | none => st
      | some m =>
          match m.weight with
          | none => st
          | some w =>
              if times.getD n 0 = 0 then st
              else
                { st with
                  chain := { st.chain with
                    weights := update_at st.chain.weights w (fun e =>
                      { e with
                        response_count := (e.response_count + 1) % 2 ^ 32
                        total_response_time :=
                          (e.total_response_time + times.getD n 0) % 2 ^ 32 }) }
                  ctx := { st.ctx with times := some (update_at times n (fun _ => 0)) } }

/-- How the per-request loop of one node ends. -/
inductive req_exit where
  | completed
  | broke
  | returned (res : in3_ret_t)
  deriving DecidableEq, Repr

/-- The two markers `vc.last_validator_change` and `vc.currentBlock` are
assigned from the `in3` section of a response when it has one, and keep their
previous value otherwise. -/
def fvr_markers (in3 : Option d_token_t) (st : fvr_state) : fvr_state :=
  match in3 with
  | some _ =>
      { st with
        last_validator_change := d_get_longk in3 K_LAST_VALIDATOR_CHANGE
        currentBlock := d_get_longk in3 K_CURRENT_BLOCK }
  | none => st

/-- The verifier context `vc` as filled in for request `i`. -/
def fvr_vctx (client : in3_t) (i : Nat) (st : fvr_state) : in3_vctx_t :=
  { ctx := { st.ctx with raw_response := some st.response }
    required := st.required
    chain := st.chain
    client := client
    request := st.ctx.requests[i]?
    result := d_get (st.ctx.responses.getD [])[i]? K_RESULT
    proof := d_get (d_get (st.ctx.responses.getD [])[i]? K_IN3) K_PROOF
    last_validator_change := st.last_validator_change
    currentBlock := st.currentBlock }

/-- The state after `res = ctx->verification_state = verifier->verify(&vc)`:
the status is stored, and the error and sub-context chain are as the verifier
left them. -/
def fvr_verified (n i : Nat) (r : verify_result) (st : fvr_state) : fvr_state :=
  { st with
    ctx := { st.ctx with error := r.error, verification_state := r.ret }
    required := r.required
    trace := st.trace ++ [exec_event.verify n i] }

/-- One turn of the per-request loop for the node of slot `n` and request `i`;
`completed` means the loop goes on with the next request. -/
def fvr_request (env : environment) (client : in3_t) (verifier : Option in3_verifier_t)
    (n i : Nat) (st : fvr_state) : fvr_state × req_exit :=
  let response_i : Option d_token_t := (st.ctx.responses.getD [])[i]?
  let st := fvr_markers (d_get response_i K_IN3) st
  let vc := fvr_vctx client i st
  if vc.result.isNone ∧ st.ctx.attempt < client.max_attempts - 1 then
    let st := { st with ctx := { st.ctx with verification_state := IN3_ERPC } }
    if is_user_error (d_get response_i K_ERROR) then (fvr_reject n st, .broke)
    else (fvr_blacklist env n st, .broke)
  else
    match verifier with
    | some v =>
        let r := v.verify vc
        let st := fvr_verified n i r st
        if r.ret = IN3_WAITING then (st, .returned r.ret)
        else if r.ret < 0 then (fvr_blacklist env n st, .broke)
        else (st, .completed)
    | none => ({ st with ctx := { st.ctx with verification_state := IN3_OK } }, .completed)

/-- The per-request loop `for (i = 0; i < ctx->len; i++)`, with `todo` turns
left and `i` the next request. -/
def fvr_requests (env : environment) (client : in3_t) (verifier : Option in3_verifier_t)
    (n : Nat) : (todo : Nat) → (i : Nat) → fvr_state → fvr_state × req_exit
  | 0, _, st => (st, .completed)
  | todo + 1, i, st =>
      match fvr_request env client verifier n i st with
      | (st1, .completed) => fvr_requests env client verifier n todo (i + 1) st1
      | out => out

/-- The statement "check auto update opts only if this node wasn't
blacklisted": `check_autoupdate` runs when the node of slot `n` is not rejected
and the first parsed response has an `in3` section and no `error`. -/
def fvr_autoupdate (env : environment) (client : in3_t) (n : Nat) (st : fvr_state) :
    fvr_state :=
  let node := st.ctx.nodes[n]?
  let first : Option d_token_t := (st.ctx.responses.getD []).head?
  if !is_blacklisted node ∧ st.ctx.responses.isSome ∧ (d_get first K_IN3).isSome
      ∧ (d_get first K_ERROR).isNone then
    { st with chain := check_autoupdate env client st.chain (d_get first K_IN3) node }
  else st

/-- The tail of one turn of the node loop: the auto-update check and the
decision to keep the response (`some IN3_OK`) or to go on with the next node. -/
def fvr_finish (env : environment) (client : in3_t) (n : Nat) (st : fvr_state) :
    fvr_state × Option in3_ret_t :=
  let node := st.ctx.nodes[n]?
  if node.isNone ∨ !is_blacklisted node then (fvr_autoupdate env client n st, some IN3_OK)
  else (fvr_autoupdate env client n st, none)

/-- The branch `if (response[n].state)` of the node loop: a slot in error state.
An already rejected node is skipped; otherwise the node is blacklisted, the
context error becomes the slot's text (or "no response from node"), and the
slot's buffer is released. -/
def fvr_error_slot (env : environment) (client : in3_t) (n : Nat) (slot : in3_response_t)
    (st : fvr_state) : fvr_state × Option in3_ret_t :=
  if is_blacklisted st.ctx.nodes[n]? then (st, none)
  else
    let st := fvr_blacklist env n st
    let msg := match slot.data with
      | some d => if d.length ≠ 0 then d else "no response from node"
      | none => "no response from node"
    let st := { st with ctx := (ctx_set_error st.ctx msg IN3_ERPC).1 }
    let st :=
      if slot.data.isSome then
        { st with response := update_at st.response n (fun s => { s with data := none }) }
      else st
    fvr_finish env client n st

/-- The start of the `else` branch of the node loop: the previous error is
dropped and the node's `blacklisted_until` is reset to 0 when it holds a weight.
The freed `responses` pointer is not cleared by the code. -/
def fvr_reset (n : Nat) (st : fvr_state) : fvr_state :=
  let st := { st with ctx := { st.ctx with error := none } }
  match st.ctx.nodes[n]? with
  | some m =>
      match m.weight with
      | some w =>
          { st with chain := { st.chain with
              weights := update_at st.chain.weights w
                (fun e => { e with blacklisted_until := 0 }) } }
      | none => st
  | none => st

/-- The `else` branch of the node loop: a slot in ok state is parsed and every
request verified.  A NULL buffer reads as the empty text. -/
def fvr_ok_slot (env : environment) (client : in3_t) (verifier : Option in3_verifier_t)
    (n : Nat) (slot : in3_response_t) (st : fvr_state) : fvr_state × Option in3_ret_t :=
  let st := fvr_reset n st
  let parsed := ctx_parse_response env st.ctx (slot.data.getD "") (slot.data.getD "").length
  let st := { st with ctx := parsed.1 }
  if parsed.2 < 0 then fvr_finish env client n (fvr_blacklist env n st)
  else
    match fvr_requests env client verifier n st.ctx.len 0 st with
    | (st1, .returned res) => (st1, some res)
    | (st1, _) => fvr_finish env client n st1

/-- One turn of the node loop for slot `n`; `none` means the loop goes on.  A
slot outside the array reads as a waiting slot. -/
def fvr_node (env : environment) (client : in3_t) (verifier : Option in3_verifier_t)
    (n : Nat) (st : fvr_state) : fvr_state × Option in3_ret_t :=
  let slot : in3_response_t := st.response[n]?.getD { state := IN3_WAITING, data := none }
  if slot.state = IN3_WAITING then ({ st with still_pending := true }, none)
  else
    let st := fvr_times n st
    if slot.state ≠ 0 then fvr_error_slot env client n slot st
    else fvr_ok_slot env client verifier n slot st

/-- The node loop `for (n = 0; n < nodes_count; n++)` with `todo` turns left,
followed by the code after the loop. -/
def fvr_nodes (env : environment) (client : in3_t) (verifier : Option in3_verifier_t) :
    (todo : Nat) → (n : Nat) → fvr_state → fvr_state × in3_ret_t
  | 0, _, st =>
      if st.still_pending then
        ({ st with ctx := { st.ctx with error := none, verification_state := IN3_WAITING } },
          IN3_WAITING)
      else (st, IN3_EINVAL)
  | todo + 1, n, st =>
      match fvr_node env client verifier n st with
      | (st1, some res) => (st1, res)
      | (st1, none) => fvr_nodes env client verifier todo (n + 1) st1

/-- The response matcher `find_valid_result(ctx, nodes_count, response, chain,
verifier)`; the client is `ctx->client`. -/
def find_valid_result (env : environment) (client : in3_t) (ctx : in3_ctx_t)
    (required : List in3_ctx_t) (nodes_count : Nat) (response : List in3_response_t)
    (chain : in3_chain_t) (verifier : Option in3_verifier_t) : fvr_state × in3_ret_t :=
  fvr_nodes env client verifier nodes_count 0
    { ctx := ctx, required := required, response := response, chain := chain,
      still_pending := false, last_validator_change := 0, currentBlock := 0, trace := [] }

/-! ## The executor (`in3_ctx_execute`) -/

/-- What one `in3_ctx_execute` call leaves behind: the status returned, the
client, the context with its sub-context chain, and the steps taken. -/
structure exec_result where
  ret : in3_ret_t
  client : in3_t
  ctx : in3_ctx_t
  required : List in3_ctx_t
  trace : List exec_event

/-- Release of everything a round produced (`response_free`): picked nodes, raw
and parsed responses, signers. -/
def response_free (ctx : in3_ctx_t) : in3_ctx_t :=
  { ctx with
    response_context := none
    responses := none
    raw_response := none
    nodes := []
    signers := none }

/-- The test `auto_ask_sig`: a node-list request, signatures not switched off,
chain not Bitcoin. -/
def auto_ask_sig (client : in3_t) (ctx : in3_ctx_t) : Bool :=
  ctx_is_method ctx "in3_nodeList" && (client.flags &&& FLAGS_NODE_LIST_NO_SIG == 0)
    && client.chain_id != ETH_CHAIN_ID_BTC

/-- Signer selection (`pick_signers`).  `total_sig_cnt` is a `uint8_t`. -/
def pick_signers (env : environment) (client : in3_t) (ctx : in3_ctx_t)
    (required : List in3_ctx_t) (request : Option d_token_t) :
    (in3_ctx_t × List in3_ctx_t) × in3_ret_t × List exec_event :=
  if env.in3_ctx_get_proof client ctx = .PROOF_NONE ∧ auto_ask_sig client ctx = false then
    ((ctx, required), IN3_OK, [])
  else
    let total_sig_cnt : Nat :=
      (if client.signature_count ≠ 0 then client.signature_count
        else if auto_ask_sig client ctx then 1 else 0) % 2 ^ 8
    if total_sig_cnt ≠ 0 then
      let filter : in3_node_filter_t :=
        { nodes := d_get (d_get request K_IN3) K_SIGNER_NODES
          props := client.node_props ||| NODE_PROP_SIGNER }
      let p := env.in3_node_list_pick_nodes client ctx required total_sig_cnt filter
      let ctx := { ctx with error := p.error }
      let ev := [exec_event.pick_nodes total_sig_cnt filter.props]
      if p.ret < 0 then
        let e := ctx_set_error ctx "Could not find any nodes for requesting signatures" p.ret
        ((e.1, p.required), e.2, ev)
      else
        (({ ctx with
            signers_length := ctx_nodes_len p.nodes
            signers := some (p.nodes.map (fun m => m.node.address)) }, p.required),
          IN3_OK, ev)
    else ((ctx, required), IN3_OK, [])

/-- The test `ctx_is_allowed_to_fail`: the node-list request. -/
def ctx_is_allowed_to_fail (ctx : in3_ctx_t) : Bool :=
  ctx_is_method ctx "in3_nodeList"

/-- The step `update_nodelist_cache`: the weights are written to the cache
unless no cache is configured or the chain is the local one. -/
def update_nodelist_cache (client : in3_t) : List exec_event :=
  if client.cache = false ∨ client.chain_id = ETH_CHAIN_ID_LOCAL then []
  else [exec_event.cache_store client.chain_id]

/-- How the `CT_RPC` branch of `in3_ctx_execute` ends: with a `return`, or with
the tail call `return in3_ctx_execute(ctx)` on the context as it then is. -/
inductive rpc_step where
  | finished (r : exec_result)
  | again (r : exec_result)

/-- The number of slots the executor hands to the matcher:
`ctx->nodes == NULL ? 1 : ctx_nodes_len(ctx->nodes)`. -/
def matcher_count (ctx : in3_ctx_t) : Nat :=
  if ctx.nodes.isEmpty then 1 else ctx_nodes_len ctx.nodes

/-- The `else` branch of "should we retry?": the budget is used up.  A request
that is allowed to fail turns the status and the verification state into
`IN3_EIGNORE`; the status is returned when the context carries an error, and
`IN3_ELIMIT` is recorded and returned when it carries none. -/
def give_up (ctx : in3_ctx_t) (ret : in3_ret_t) : in3_ctx_t × in3_ret_t :=
  let ret1 := if ctx_is_allowed_to_fail ctx then IN3_EIGNORE else ret
  let ctx1 :=
    if ctx_is_allowed_to_fail ctx then { ctx with verification_state := IN3_EIGNORE }
    else ctx
  if ctx1.error.isSome then (ctx1, if ret1 ≠ 0 then ret1 else IN3_ERPC)
  else ctx_set_error ctx1 "reaching max_attempts and giving up" IN3_ELIMIT

/-- The end of the `CT_RPC` branch, from "if we still don't have an response":
wait for the raw response, run the matcher, store the weights, and retry or
give up.  `ci` is where `chain` sits in the client's table, `tr` the steps
already taken. -/
def execute_rpc_match (env : environment) (client : in3_t) (ci : Nat) (chain : in3_chain_t)
    (verifier : in3_verifier_t) (ctx : in3_ctx_t) (required : List in3_ctx_t)
    (tr : List exec_event) : rpc_step :=
  match ctx.raw_response with
  | none => .finished ⟨IN3_WAITING, client, ctx, required, tr⟩
  | some raw =>
    let m := find_valid_result env client ctx required (matcher_count ctx) raw chain
      (some verifier)
    let ctx1 := { m.1.ctx with raw_response := some m.1.response }
    let client1 := { client with chains := update_at client.chains ci (fun _ => m.1.chain) }
    let tr1 := tr ++ [exec_event.matcher (matcher_count ctx)] ++ m.1.trace
      ++ update_nodelist_cache client1
    -- we wait or have successfully verified the response
    if m.2 = IN3_WAITING ∨ m.2 = IN3_OK then
      .finished ⟨m.2, client1, ctx1, m.1.required, tr1⟩
    else
      -- if not, then we clean up and count this as an attempt
      let ctx2 := response_free ctx1
      let ctx3 := { ctx2 with attempt := ctx2.attempt + 1 }
      -- should we retry?
      if ctx3.attempt < client1.max_attempts then
        .again ⟨m.2, client1, { ctx3 with error := none, verification_state := IN3_WAITING },
          m.1.required, tr1⟩
      else
        let g := give_up ctx3 m.2
        .finished ⟨g.2, client1, g.1, m.1.required, tr1⟩

/-- The filter of the data-node pick: the nodes hinted by the first request, and
the client's properties with data, HTTP (when the HTTP flag is set) and proof
(when a proof is requested) added. -/
def data_node_filter (env : environment) (client : in3_t) (ctx : in3_ctx_t) :
    in3_node_filter_t :=
  { nodes := d_get (d_get ctx.requests.head? K_IN3) K_DATA_NODES
    props := (client.node_props &&& 0xFFFFFFFF) ||| NODE_PROP_DATA
      ||| (if client.flags &&& FLAGS_HTTP ≠ 0 then NODE_PROP_HTTP else 0)
      ||| (if env.in3_ctx_get_proof client ctx ≠ .PROOF_NONE then NODE_PROP_PROOF else 0) }

/-- The middle of the `CT_RPC` branch, from "if we don't have a nodelist": pick
the data nodes and the signers when there is neither a raw response nor a
picked node, then go on with `execute_rpc_match`. -/
def execute_rpc_pick (env : environment) (client : in3_t) (ci : Nat) (chain : in3_chain_t)
    (verifier : in3_verifier_t) (ctx : in3_ctx_t) (required : List in3_ctx_t)
    (tr : List exec_event) : rpc_step :=
  if ctx.raw_response.isNone ∧ ctx.nodes.isEmpty then
    let p := env.in3_node_list_pick_nodes client ctx required client.request_count
      (data_node_filter env client ctx)
    let ctx1 := { ctx with nodes := p.nodes, error := p.error }
    let tr1 := tr ++ [exec_event.pick_nodes client.request_count
      (data_node_filter env client ctx).props]
    if p.ret = IN3_OK then
      let s := pick_signers env client ctx1 p.required ctx1.requests.head?
      if s.2.1 < 0 then
        let e := ctx_set_error s.1.1 "error configuring the config for request" s.2.1
        .finished ⟨e.2, client, e.1, s.1.2, tr1 ++ s.2.2⟩
      else execute_rpc_match env client ci chain verifier s.1.1 s.1.2 (tr1 ++ s.2.2)
    else
      -- since we could not get the nodes, we either report it as error or wait
      let e := ctx_set_error ctx1 "could not find any node" p.ret
      .finished ⟨e.2, client, e.1, p.required, tr1⟩
  else execute_rpc_match env client ci chain verifier ctx required tr

/-- The inline helper `pre_handle(verifier, ctx)`: the verifier's hook when it
has one, `IN3_OK` otherwise.  The result is the status, the context and
sub-context chain as the hook left them, and the step taken. -/
def pre_handle (verifier : in3_verifier_t) (client : in3_t) (ctx : in3_ctx_t)
    (required : List in3_ctx_t) :
    in3_ret_t × in3_ctx_t × List in3_ctx_t × List exec_event :=
  match verifier.pre_handle with
  | some hook =>
      let ph := hook client ctx required
      (ph.ret, { ctx with raw_response := ph.raw_response, error := ph.error }, ph.required,
        [exec_event.pre_handle])
  | none => (IN3_OK, ctx, required, [])

/-- The block "do we need to handle it internally?": `pre_handle` is called
only when there is neither a raw nor a parsed response. -/
def internal_handling (verifier : in3_verifier_t) (client : in3_t) (ctx : in3_ctx_t)
    (required : List in3_ctx_t) :
    in3_ret_t × in3_ctx_t × List in3_ctx_t × List exec_event :=
  if ctx.raw_response.isNone ∧ ctx.response_context.isNone then
    pre_handle verifier client ctx required
  else (IN3_OK, ctx, required, [])

/-- The `CT_RPC` branch of `in3_ctx_execute` up to its `return`s: chain and
verifier lookup, the `pre_handle` hook, then `execute_rpc_pick`. -/
def execute_rpc (env : environment) (client : in3_t) (ctx : in3_ctx_t)
    (required : List in3_ctx_t) : rpc_step :=
  let tr0 := [exec_event.find_chain client.chain_id]
  match (in3_find_chain client client.chain_id).bind (fun ci =>
      (client.chains[ci]?).map (fun chain => (ci, chain))) with
  | none =>
      let e := ctx_set_error ctx "chain not found" IN3_EFIND
      .finished ⟨e.2, client, e.1, required, tr0⟩
  | some (ci, chain) =>
      let tr1 := tr0 ++ [exec_event.get_verifier chain.type]
      match env.in3_get_verifier chain.type with
      | none =>
          let e := ctx_set_error ctx "No Verifier found" IN3_EFIND
          .finished ⟨e.2, client, e.1, required, tr1⟩
      | some verifier =>
          -- do we need to handle it internally?
          let ph := internal_handling verifier client ctx required
          if ph.1 < 0 then
            let e := ctx_set_error ph.2.1 "The request could not be handled" ph.1
            .finished ⟨e.2, client, e.1, ph.2.2.1, tr1 ++ ph.2.2.2⟩
          else execute_rpc_pick env client ci chain verifier ph.2.1 ph.2.2.1 (tr1 ++ ph.2.2.2)

/-- The `CT_SIGN` branch of `in3_ctx_execute`; an absent first slot reads as
waiting. -/
def execute_sign (ctx : in3_ctx_t) : in3_ret_t :=
  match ctx.raw_response with
  | none => IN3_WAITING
  | some raw =>
      let state := (raw.head?.map (fun s => s.state)).getD IN3_WAITING
      if state = IN3_WAITING then IN3_WAITING
      else if state ≠ 0 then IN3_ERPC
      else IN3_OK

/-- The `switch (ctx->type)` of `in3_ctx_execute`, reached with the steps `tr`
already taken; `self` is `in3_ctx_execute` itself, for the retry. -/
def execute_dispatch (env : environment)
    (self : in3_t → in3_ctx_t → List in3_ctx_t → Option exec_result)
    (client : in3_t) (ctx : in3_ctx_t) (required : List in3_ctx_t)
    (tr : List exec_event) : Option exec_result :=
  match ctx.type with
  | .CT_RPC =>
      match execute_rpc env client ctx required with
      | .finished r => some { r with trace := tr ++ r.trace }
      | .again r =>
          match self r.client r.ctx r.required with
          | none => none
          | some r2 => some { r2 with trace := tr ++ r.trace ++ r2.trace }
  | .CT_SIGN => some ⟨execute_sign ctx, client, ctx, required, tr⟩
  | .CT_OTHER => some ⟨IN3_EINVAL, client, ctx, required, tr⟩

/-- The executor `in3_ctx_execute(ctx)`, for the context `ctx` with
`ctx->required = required` and `ctx->client = client`.  Each nested call of
`in3_ctx_execute` (on the sub-context, or on the context itself for a retry)
takes one unit of `fuel`; `none` means the fuel ran out. -/
def in3_ctx_execute (env : environment) :
    (fuel : Nat) → in3_t → in3_ctx_t → List in3_ctx_t → Option exec_result
  | 0, _, _, _ => none
  | fuel + 1, client, ctx, required =>
    -- if there is an error it does not make sense to execute
    if ctx.error.isSome then
      some ⟨if ctx.verification_state ≠ 0 ∧ ctx.verification_state ≠ IN3_WAITING
              then ctx.verification_state else IN3_EUNKNOWN,
            client, ctx, required, []⟩
    -- is it a valid request?
    else if ctx.request_context.isNone ∨ (d_get ctx.requests.head? K_METHOD).isNone then
      let e := ctx_set_error ctx "No Method defined" IN3_ECONFIG
      some ⟨e.2, client, e.1, required, []⟩
    -- if there is response we are done
    else if ctx.response_context.isSome ∧ ctx.verification_state = IN3_OK then
      some ⟨IN3_OK, client, ctx, required, []⟩
    else
      -- if we have required contexts, we need to check them first
      match required with
      | [] => execute_dispatch env (in3_ctx_execute env fuel) client ctx [] []
      | r :: rest =>
          match in3_ctx_execute env fuel client r rest with
          | none => none
          | some sub =>
              if sub.ret ≠ 0 then some ⟨sub.ret, sub.client, ctx, sub.ctx :: sub.required, sub.trace⟩
              else execute_dispatch env (in3_ctx_execute env fuel) sub.client ctx
                    (sub.ctx :: sub.required) sub.trace

/-! ## Predicates used in the statements -/

/-- The fields of a context that the matcher never writes. -/
def same_request (a b : in3_ctx_t) : Prop :=
  a.type = b.type ∧ a.request_context = b.request_context ∧ a.requests = b.requests
    ∧ a.len = b.len ∧ a.attempt = b.attempt ∧ a.signers = b.signers
    ∧ a.signers_length = b.signers_length


/-- The steps `later` extend the steps `earlier` by calls of `verify` only. -/
def verify_steps_only (later earlier : List exec_event) : Prop :=
  ∃ l : List exec_event, later = earlier ++ l ∧ ∀ e ∈ l, ∃ n i, e = exec_event.verify n i

/-- The cell of a picked node after `node->weight = NULL`. -/
def drop_weight (m : node_match_t) : node_match_t := { m with weight := none }

/-- The picked-node list `later` is the list `earlier`, except that node `n` may
have lost its weight (it is rejected in this context). -/
def nodes_frame (n : Nat) (later earlier : List node_match_t) : Prop :=
  later = earlier ∨ later = update_at earlier n drop_weight

/-- An error-free context with a request document and a method that has not
completed yet: `in3_ctx_execute` gets past its first three `return`s. -/
def runnable (ctx : in3_ctx_t) : Prop :=
  ctx.error = none ∧ ctx.request_context.isSome = true
    ∧ (d_get ctx.requests.head? K_METHOD).isSome = true
    ∧ ¬(ctx.response_context.isSome = true ∧ ctx.verification_state = IN3_OK)

/-- The sub-context chain is out of the way: there is none, or Execute on it
(with `fuel`) returns ok, leaving the client `client1`, the chain `required1`
and the steps `tr`. -/
def required_done (env : environment) (fuel : Nat) (client : in3_t)
    (required : List in3_ctx_t) (client1 : in3_t) (required1 : List in3_ctx_t)
    (tr : List exec_event) : Prop :=
  match required with
  | [] => client1 = client ∧ required1 = [] ∧ tr = []
  | r :: rest =>
      ∃ sub : exec_result, in3_ctx_execute env fuel client r rest = some sub ∧ sub.ret = 0
        ∧ client1 = sub.client ∧ required1 = sub.ctx :: sub.required ∧ tr = sub.trace

/-- An RPC context whose chain (entry `ci` of the client's table) and verifier
resolve. -/
def rpc_ready (env : environment) (client : in3_t) (ctx : in3_ctx_t) (ci : Nat)
    (chain : in3_chain_t) (verifier : in3_verifier_t) : Prop :=
  ctx.type = .CT_RPC ∧ in3_find_chain client client.chain_id = some ci
    ∧ client.chains[ci]? = some chain ∧ env.in3_get_verifier chain.type = some verifier

/-! ## A small installation used to instantiate the statements -/

/-- Node number `k` of the example chain. -/
def ex_node (k : Nat) : in3_node_t :=
  { capacity := 1, index := k, deposit := 0, props := 0xFF,
    address := List.replicate 20 (k + 1), url := "https://node", whitelisted := false }

/-- A chain with three nodes of untouched reputation. -/
def ex_chain : in3_chain_t :=
  { chain_id := 1, type := 0, last_block := 0, avg_block_time := 12,
    nodelist := [ex_node 0, ex_node 1, ex_node 2],
    weights := [⟨0, 0, 0⟩, ⟨0, 0, 0⟩, ⟨0, 0, 0⟩],
    nodelist_upd8_params := none, whitelist := none, verified_hashes := none }

/-- A client on `ex_chain` with the given attempt budget. -/
def ex_client (max_attempts : Nat) : in3_t :=
  { chain_id := 1, flags := 0, max_attempts := max_attempts, request_count := 3,
    signature_count := 0, replace_latest_block := 6, finality := 0, node_props := 0,
    proof := .PROOF_STANDARD, key := none, max_verified_hashes := 0, cache := false,
    timeout := 0, chains := [ex_chain] }

/-- A stand-in parser: three bodies with a result `1`, `2`, `0`, one body that
reports an error, and nothing else parses. -/
def ex_parse (s : String) : Option json_ctx_t :=
  if s = "good" then some ⟨.object [("result", .integer 1)], false⟩
  else if s = "hold" then some ⟨.object [("result", .integer 2)], false⟩
  else if s = "bad" then some ⟨.object [("result", .integer 0)], false⟩
  else if s = "fault" then some ⟨.object [("error", .string "nonce too low")], false⟩
  else none

/-- A stand-in verifier without `pre_handle`: result `1` verifies, result `2`
makes it wait, anything else is refused, with the message `msg` when given. -/
def ex_verifier (msg : Option String) : in3_verifier_t :=
  { pre_handle := none
    verify := fun vc =>
      match vc.result with
      | some (.integer 1) => ⟨IN3_OK, vc.ctx.error, vc.required⟩
      | some (.integer 2) => ⟨IN3_WAITING, vc.ctx.error, vc.required⟩
      | _ => ⟨IN3_EINVAL, if msg.isSome then msg else vc.ctx.error, vc.required⟩ }

/-- A stand-in environment: the clock reads 1000, the selector answers with the
status `pick_ret` and the first node of the chain. -/
def ex_env (msg : Option String) (pick_ret : in3_ret_t) : environment :=
  { now := 1000
    in3_get_verifier := fun _ => some (ex_verifier msg)
    in3_node_list_pick_nodes := fun _ c r _ _ => ⟨pick_ret, [⟨ex_node 0, some 0⟩], c.error, r⟩
    in3_ctx_get_proof := fun c _ => c.proof
    parse_json := ex_parse
    parse_binary_str := fun s _ => ex_parse s
    str_remove_html := id }

/-- A request for the given method, without parameters. -/
def ex_request (method : String) : d_token_t := .object [("method", .string method)]

/-- A fresh RPC context for one request of the given method: no nodes picked, no
response yet. -/
def ex_ctx (method : String) : in3_ctx_t :=
  { type := .CT_RPC, error := none, verification_state := IN3_WAITING,
    request_context := some ⟨ex_request method, false⟩, requests := [ex_request method],
    len := 1, attempt := 0, response_context := none, responses := none,
    raw_response := none, nodes := [], times := none, signers := none, signers_length := 0 }

/-- The context `ex_ctx` after the transport has answered for the first
`bodies.length` nodes of the chain: slot `k` holds the state and body `bodies[k]`. -/
def ex_ctx_answered (method : String) (bodies : List (in3_ret_t × String)) : in3_ctx_t :=
  { ex_ctx method with
    raw_response := some (bodies.map (fun b => ⟨b.1, some b.2⟩))
    nodes := (List.range bodies.length).map (fun k => ⟨ex_node k, some k⟩) }

/-! ## The attempt budget -/

/-- The invariant behind the attempt bound: the counter does not exceed
`max_attempts`, and a context that has used up the budget carries an error. -/
def attempt_bounded (client : in3_t) (ctx : in3_ctx_t) : Prop :=
  ctx.attempt ≤ client.max_attempts
    ∧ (ctx.attempt = client.max_attempts → ctx.error.isSome = true)

/-- What the `CT_RPC` branch may do to an attempt counter that stood at `a`:
leave it, or add one; with the budget then used up it returns with an error
set, otherwise it re-enters. -/
def rpc_step_counts (max_attempts a : Nat) : rpc_step → Prop
  | .finished r =>
      r.client.max_attempts = max_attempts
        ∧ (r.ctx.attempt = a
          ∨ (r.ctx.attempt = a + 1 ∧ ¬ a + 1 < max_attempts ∧ r.ctx.error.isSome = true))
  | .again r =>
      r.client.max_attempts = max_attempts ∧ r.ctx.attempt = a + 1 ∧ a + 1 < max_attempts

/-- The states a context passes through, starting from `client0`, `ctx0`,
`required0`: any number of `in3_ctx_execute` calls (at any time, with any
plug-ins), interleaved with the transport or signer filling the response slots
and latency samples, and with the driver advancing the sub-contexts (which may
rewrite the chain table of the shared client). -/
inductive execution_history (client0 : in3_t) (ctx0 : in3_ctx_t) (required0 : List in3_ctx_t) :
    in3_t → in3_ctx_t → List in3_ctx_t → Prop where
  | start : execution_history client0 ctx0 required0 client0 ctx0 required0
  | execute (env : environment) (fuel : Nat) (cl : in3_t) (c : in3_ctx_t)
      (rq : List in3_ctx_t) (r : exec_result) :
      execution_history client0 ctx0 required0 cl c rq →
      in3_ctx_execute env fuel cl c rq = some r →
      execution_history client0 ctx0 required0 r.client r.ctx r.required
  | respond (cl : in3_t) (c : in3_ctx_t) (rq : List in3_ctx_t)
      (raw : Option (List in3_response_t)) (times : Option (List Nat)) :
      execution_history client0 ctx0 required0 cl c rq →
      execution_history client0 ctx0 required0 cl
        { c with raw_response := raw, times := times } rq
  | advance (cl : in3_t) (c : in3_ctx_t) (rq rq1 : List in3_ctx_t)
      (chains : List in3_chain_t) :
      execution_history client0 ctx0 required0 cl c rq →
      execution_history client0 ctx0 required0 { cl with chains := chains } c rq1

/-! ## What one turn of the node loop may touch -/

/-- The two latency counters of a weights entry. -/
def reputation_counters (e : in3_node_weight_t) : Nat × Nat :=
  (e.response_count, e.total_response_time)

/-- The state `later` comes from `earlier` without the "handle times" block
having run: the latency samples, the counters of every weights entry and the
`still_pending` mark are as they were. -/
def turn_kept (later earlier : fvr_state) : Prop :=
  later.ctx.times = earlier.ctx.times
    ∧ later.chain.weights.map reputation_counters
        = earlier.chain.weights.map reputation_counters
    ∧ later.still_pending = earlier.still_pending

/-! ## Bodies that report an error -/

/-- The state of the matcher in the middle of a node's turn on the context
`ex_ctx_answered method bodies`, with `rs` as the parsed responses. -/
def ex_state (method : String) (bodies : List (in3_ret_t × String))
    (rs : Option (List d_token_t)) : fvr_state :=
  { ctx := { ex_ctx_answered method bodies with responses := rs }
    required := []
    response := bodies.map (fun b => ⟨b.1, some b.2⟩)
    chain := ex_chain
    still_pending := false
    last_validator_change := 0
    currentBlock := 0
    trace := [] }

/-- Everything the payload composer calls that is defined outside `execute.c`
and not among the sources: the JSON text and the byte representation of a token
(`data.c`), the hash and the signature (`sha3.h`, `ecdsa.h`), and the protocol
version (`client.h`).  `ecdsa_sign_digest key hash` is the 65-byte signature,
or nothing when signing fails. -/
structure composer_t where
  d_to_json : d_token_t → String
  d_to_bytes : d_token_t → List Nat
  keccak : List Nat → List Nat
  ecdsa_sign_digest : List Nat → List Nat → Option (List Nat)
  IN3_PROTO_VER : String

/-- The bytes of a C string: the UTF-8 encoding of the text. -/
def str_bytes (s : String) : List Nat :=
  (s.data.flatMap String.utf8EncodeChar).map UInt8.toNat

/-- Modelled from the spec: `data.c` is not among the sources.  The value of an
integer token as `int32_t`. -/
def d_int : Option d_token_t → Int
  | some (.integer n) => if n % 2 ^ 32 < 2 ^ 31 then (n % 2 ^ 32 : Nat) else (n % 2 ^ 32 : Nat) - 2 ^ 32
  | _ => 0

/-- The text `sprintf` writes for `%lu` (a 64-bit `unsigned long`). -/
def sprintf_lu (n : Nat) : String := toString (n % 2 ^ 64)

/-- The text `sprintf` writes for `%i`. -/
def sprintf_i (n : Int) : String := toString n

/-- The text `sprintf` writes for `%x` (an `unsigned int`). -/
def sprintf_x (n : Nat) : String := String.mk (Nat.toDigits 16 (n % 2 ^ 32))

/-- Modelled from the spec: `stringbuilder.c` is not among the sources.  What a
member of a composed object holds: text added as it is, text added between
quotes, or byte strings added by `sb_add_bytes` (as an array or not). -/
inductive sb_value where
  | raw (text : String)
  | quoted (text : String)
  | bytes (items : List (List Nat)) (as_array : Bool)
  deriving DecidableEq, Repr

/-- One object of the payload array: its members in the order they are added,
the members of its `in3` object when it has one, and, as bookkeeping of the
model, the bytes `msg_hash` has absorbed since `sha3_256_Init` (nothing when
`msg_hash` is NULL). -/
structure payload_request where
  members : List (String × sb_value)
  in3 : Option (List (String × sb_value))
  hashed : Option (List Nat)
  deriving DecidableEq, Repr

/-- Modelled from the spec: `sha3.c` is not among the sources.  §4.B: "a
streaming 256-bit Keccak"; the state of the hash is the bytes absorbed so far. -/
def sha3_Update (msg_hash : List Nat) (data : List Nat) : List Nat := msg_hash ++ data

/-- The helper `add_bytes_to_hash`: the bytes are absorbed when `msg_hash` is
not NULL. -/
def add_bytes_to_hash (msg_hash : Option (List Nat)) (data : List Nat) : Option (List Nat) :=
  msg_hash.map (fun h => sha3_Update h data)

mutual
/-- The walk `add_token_to_hash`: arrays and objects are iterated, a null is
skipped, every other token is absorbed as the bytes `d_to_bytes` gives. -/
def add_token_to_hash (cenv : composer_t) : List Nat → d_token_t → List Nat
  | msg_hash, .array items => add_items_to_hash cenv msg_hash items
  | msg_hash, .object props => add_props_to_hash cenv msg_hash props
  | msg_hash, .null => msg_hash
  | msg_hash, t => sha3_Update msg_hash (cenv.d_to_bytes t)
/-- The iteration of `add_token_to_hash` over the elements of an array. -/
def add_items_to_hash (cenv : composer_t) : List Nat → List d_token_t → List Nat
  | msg_hash, [] => msg_hash
  | msg_hash, t :: rest => add_items_to_hash cenv (add_token_to_hash cenv msg_hash t) rest
/-- The iteration of `add_token_to_hash` over the members of an object. -/
def add_props_to_hash (cenv : composer_t) : List Nat → List (String × d_token_t) → List Nat
  | msg_hash, [] => msg_hash
  | msg_hash, p :: rest => add_props_to_hash cenv (add_token_to_hash cenv msg_hash p.2) rest
end

/-- The `id` member: the counter `rpc_id_counter` (then incremented) when the
request has no id, the number when the id is an integer, its text between
quotes otherwise (a token that is not a string has no text).  The text is
absorbed by the hash: `d_len` of a string token is the length of its text.  The
result is the member, the hash and the counter. -/
def payload_id (rpc_id_counter : Nat) (msg_hash : Option (List Nat))
    (request_token : Option d_token_t) :
    (String × sb_value) × Option (List Nat) × Nat :=
  match d_get request_token K_ID with
  | none =>
      (("id", .raw (sprintf_lu rpc_id_counter)),
        add_bytes_to_hash msg_hash (str_bytes (sprintf_lu rpc_id_counter)),
        (rpc_id_counter + 1) % 2 ^ 64)
  | some t =>
      if d_type (some t) = .T_INTEGER then
        (("id", .raw (sprintf_i (d_int (some t)))),
          add_bytes_to_hash msg_hash (str_bytes (sprintf_i (d_int (some t)))), rpc_id_counter)
      else
        (("id", .quoted ((d_string (some t)).getD "")),
          add_bytes_to_hash msg_hash (str_bytes ((d_string (some t)).getD "")), rpc_id_counter)

/-- The `params` member: the text `[]` when the request has none; otherwise the
JSON text of the token, which the hash walks; nothing when the request has
params and the request document is binary (`d_is_binary_ctx`). -/
def payload_params (cenv : composer_t) (ctx : in3_ctx_t) (msg_hash : Option (List Nat))
    (request_token : Option d_token_t) : Option ((String × sb_value) × Option (List Nat)) :=
  match d_get request_token K_PARAMS with
  | none => some (("params", .raw "[]"), msg_hash)
  | some t =>
      if (ctx.request_context.map (fun d => d.is_binary)).getD false then none
      else
        some (("params", .raw (cenv.d_to_json t)),
          msg_hash.map (fun h => add_token_to_hash cenv h t))

/-- The number of verified hashes sent: the first `max_verified_hashes` entries,
up to the first one without a block number. -/
def verified_hashes_count (max_verified_hashes : Nat) (hashes : List in3_verified_hash_t) :
    Nat :=
  ((hashes.take max_verified_hashes).takeWhile (fun h => h.block_number ≠ 0)).length

/-- The member `whiteListContract`, added when the chain has a whitelist.  A
chain that is not found has none. -/
def payload_whitelist (chain : Option in3_chain_t) : List (String × sb_value) :=
  match chain.bind (fun c => c.whitelist) with
  | some wl => [("whiteListContract", .bytes [wl.contract] false)]
  | none => []

/-- The member `sig`: the signature of the hash of the bytes absorbed, added
when `msg_hash` is not NULL; no list at all when signing fails. -/
def payload_sig (cenv : composer_t) (client : in3_t) (msg_hash : Option (List Nat)) :
    Option (List (String × sb_value)) :=
  match msg_hash with
  | none => some []
  | some h =>
      match cenv.ecdsa_sign_digest (client.key.getD []) (cenv.keccak h) with
      | none => none
      | some s => some [("sig", .bytes [s] false)]

/-- The members from `finality` to `useBinary`, each added under its own
condition. -/
def payload_options (client : in3_t) (ctx : in3_ctx_t) (proof : in3_proof_t)
    (request_token : Option d_token_t) : List (String × sb_value) :=
  (if client.finality ≠ 0 then [("finality", .raw (sprintf_i client.finality))] else [])
    ++ (if client.replace_latest_block ≠ 0 then
          [("latestBlock", .raw (sprintf_i client.replace_latest_block))]
        else [])
    ++ (if ctx.signers_length ≠ 0 then
          [("signers", .bytes ((ctx.signers.getD []).take ctx.signers_length) true)]
        else [])
    ++ (if client.flags &&& FLAGS_INCLUDE_CODE ≠ 0
          ∧ d_get_stringk request_token K_METHOD = some "eth_call" then
          [("includeCode", .raw "true")]
        else [])
    ++ (if proof = .PROOF_FULL then [("useFullProof", .raw "true")] else [])
    ++ (if client.flags &&& FLAGS_STATS = 0 then [("noStats", .raw "true")] else [])
    ++ (if client.flags &&& FLAGS_BINARY ≠ 0 then [("useBinary", .raw "true")] else [])

/-- The member `verifiedHashes`, added when the chain carries verified hashes
and at least one is sent. -/
def payload_verified_hashes (client : in3_t) (chain : Option in3_chain_t) :
    List (String × sb_value) :=
  match chain.bind (fun c => c.verified_hashes) with
  | some hashes =>
      if verified_hashes_count client.max_verified_hashes hashes ≠ 0 then
        [("verifiedHashes",
          .bytes ((hashes.take (verified_hashes_count client.max_verified_hashes
            hashes)).map (fun h => h.hash)) true)]
      else []
  | none => []

/-- The members of the `in3` object, in the order they are added; nothing when
the request cannot be signed. -/
def payload_in3 (cenv : composer_t) (client : in3_t) (ctx : in3_ctx_t) (multichain : Bool)
    (proof : in3_proof_t) (msg_hash : Option (List Nat)) (request_token : Option d_token_t) :
    Option (List (String × sb_value)) :=
  let chain := (in3_find_chain client client.chain_id).bind (fun ci => client.chains[ci]?)
  match payload_sig cenv client msg_hash with
  | none => none
  | some sig =>
      some ([("verification", .quoted (if proof = .PROOF_NONE then "never" else "proof")),
          ("version", .quoted cenv.IN3_PROTO_VER)]
        ++ (if multichain then [("chainId", .quoted ("0x" ++ sprintf_x client.chain_id))]
            else [])
        ++ payload_whitelist chain
        ++ sig
        ++ payload_options client ctx proof request_token
        ++ payload_verified_hashes client chain)

/-- How the body of the loop of `ctx_create_payload` ends for one request: with
the object added to the payload, or with an error message; either way with the
value of `rpc_id_counter`. -/
inductive payload_step where
  | composed (obj : payload_request) (rpc_id_counter : Nat)
  | failed (msg : String) (rpc_id_counter : Nat)

/-- The body of the loop of `ctx_create_payload` for one request. -/
def payload_object (cenv : composer_t) (client : in3_t) (ctx : in3_ctx_t) (multichain : Bool)
    (proof : in3_proof_t) (rpc_id_counter : Nat) (request_token : Option d_token_t) :
    payload_step :=
  -- if (msg_hash) sha3_256_Init(msg_hash)
  let msg_hash : Option (List Nat) := if client.key.isSome then some [] else none
  let id := payload_id rpc_id_counter msg_hash request_token
  match d_get request_token K_METHOD with
  | none => .failed "missing method-property in request" id.2.2
  | some t =>
      let method := (d_string (some t)).getD ""
      let msg_hash := add_bytes_to_hash id.2.1 (str_bytes method)
      match payload_params cenv ctx msg_hash request_token with
      | none => .failed "only text json input is allowed" id.2.2
      | some (params, msg_hash) =>
          let members := [id.1, ("jsonrpc", .quoted "2.0"), ("method", .quoted method), params]
          if proof ≠ .PROOF_NONE ∨ msg_hash.isSome then
            match payload_in3 cenv client ctx multichain proof msg_hash request_token with
            | none => .failed "could not sign the request" id.2.2
            | some in3 => .composed ⟨members, some in3, msg_hash⟩ id.2.2
          else .composed ⟨members, none, msg_hash⟩ id.2.2

/-- What `ctx_create_payload` leaves behind: its status, the context (with the
error it may have set), the objects added to the string builder, and the value
of the static `rpc_id_counter`. -/
structure payload_result where
  ret : in3_ret_t
  ctx : in3_ctx_t
  payload : List payload_request
  rpc_id_counter : Nat

/-- The loop `for (i = 0; i < c->len; i++)` of `ctx_create_payload`, with `todo`
turns left, `i` the next request and `sb` the objects added so far. -/
def payload_loop (cenv : composer_t) (client : in3_t) (multichain : Bool)
    (proof : in3_proof_t) :
    (todo : Nat) → (i : Nat) → in3_ctx_t → Nat → List payload_request → payload_result
  | 0, _, ctx, rpc_id_counter, sb => ⟨IN3_OK, ctx, sb, rpc_id_counter⟩
  | todo + 1, i, ctx, rpc_id_counter, sb =>
      match payload_object cenv client ctx multichain proof rpc_id_counter ctx.requests[i]? with
      | .failed msg counter =>
          ⟨(ctx_set_error ctx msg IN3_EINVAL).2, (ctx_set_error ctx msg IN3_EINVAL).1, sb,
            counter⟩
      | .composed obj counter =>
          payload_loop cenv client multichain proof todo (i + 1) ctx counter (sb ++ [obj])

/-- The payload composer `ctx_create_payload(c, sb, multichain)`;
`rpc_id_counter` is the value of the static counter at the call. -/
def ctx_create_payload (env : environment) (cenv : composer_t) (client : in3_t)
    (ctx : in3_ctx_t) (multichain : Bool) (rpc_id_counter : Nat) : payload_result :=
  payload_loop cenv client multichain (env.in3_ctx_get_proof client ctx) ctx.len 0 ctx
    rpc_id_counter []

/-- The function `convert_to_http_url`: a URL that starts with `https://` is
copied from its second character on and the characters 0, 2 and 3 of the copy
are overwritten with `h`, `t` and `p`; any other URL is copied as it is. -/
def convert_to_http_url (src_url : String) : String :=
  if "https://".data.isPrefixOf src_url.data then
    String.mk ((((src_url.data.drop 1).set 0 'h').set 2 't').set 3 'p')
  else src_url

/-- The transport request `in3_request_t`. -/
structure in3_request_t where
  payload : List payload_request
  urls : List String
  times : Option (List Nat)
  timeout : Nat
  results : List in3_response_t

/-- The function `in3_create_request(ctx)`: the URLs of the picked nodes, the
payload, and the slots for the responses; no request, and an error on the
context, when the payload cannot be composed.  The result is the request, the
context and the value of `rpc_id_counter`. -/
def in3_create_request (env : environment) (cenv : composer_t) (client : in3_t)
    (ctx : in3_ctx_t) (rpc_id_counter : Nat) : Option in3_request_t × in3_ctx_t × Nat :=
  let nodes_count := ctx_nodes_len ctx.nodes
  let urls := ctx.nodes.map (fun n =>
    if client.flags &&& FLAGS_HTTP ≠ 0 then convert_to_http_url n.node.url else n.node.url)
  let multichain := ctx.nodes.any (fun n => n.node.props &&& NODE_PROP_MULTICHAIN ≠ 0)
  -- prepare the payload
  let res := ctx_create_payload env cenv client ctx multichain rpc_id_counter
  if res.ret < 0 then
    (none, (ctx_set_error res.ctx "could not generate the payload" res.ret).1,
      res.rpc_id_counter)
  else
    let times := if nodes_count ≠ 0 then some (List.replicate nodes_count 0) else none
    let results : List in3_response_t :=
      List.replicate (if nodes_count = 0 then 1 else nodes_count) ⟨IN3_WAITING, none⟩
    (some ⟨res.payload, urls, times, client.timeout, results⟩,
      { res.ctx with times := times, raw_response := some results }, res.rpc_id_counter)

/-! ## The leaves of a token -/

mutual
/-- The non-null scalars of a token in document order: a scalar is its own
leaf, a null has none, arrays and objects are walked element by element. -/
def leaf_scalars : d_token_t → List d_token_t
  | .array items => leaf_scalars_items items
  | .object props => leaf_scalars_props props
  | .null => []
  | t => [t]
/-- The leaves of the elements of an array, in order. -/
def leaf_scalars_items : List d_token_t → List d_token_t
  | [] => []
  | t :: rest => leaf_scalars t ++ leaf_scalars_items rest
/-- The leaves of the members of an object, in order. -/
def leaf_scalars_props : List (String × d_token_t) → List d_token_t
  | [] => []
  | p :: rest => leaf_scalars p.2 ++ leaf_scalars_props rest
end

/-- The byte stream §4.B describes for the request-signing digest: the id as
rendered, the method string, and the bytes of every leaf scalar of the params. -/
def digest_stream (cenv : composer_t) (id method : String) (params : Option d_token_t) :
    List Nat :=
  str_bytes id ++ str_bytes method
    ++ (match params with
        | some t => ((leaf_scalars t).map cenv.d_to_bytes).flatten
        | none => [])

/-- The text of a member value, without its quotes. -/
def sb_text : sb_value → String
  | .raw text => text
  | .quoted text => text
  | .bytes _ _ => ""

/-! ## A small composer used to instantiate the statements -/

/-- A stand-in for the libraries: a scalar is its text or its low byte, the
hash is the stream itself, and a signature is the key followed by the hash. -/
def ex_composer : composer_t :=
  { d_to_json := fun _ => "[1]"
    d_to_bytes := fun t =>
      match t with
      | .integer n => [n % 256]
      | .string s => str_bytes s
      | _ => []
    keccak := fun h => h
    ecdsa_sign_digest := fun key hash => some (key ++ hash)
    IN3_PROTO_VER := "2.1.0" }

/-- A request with the given members besides its method. -/
def ex_request_with (method : String) (more : List (String × d_token_t)) : d_token_t :=
  .object (("method", .string method) :: more)

/-- A fresh context for the given requests; `is_binary` says whether the request
document came in the binary format. -/
def ex_ctx_of (requests : List d_token_t) (is_binary : Bool) : in3_ctx_t :=
  { ex_ctx "eth_blockNumber" with
    request_context := some ⟨.array requests, is_binary⟩
    requests := requests
    len := requests.length }

/-- A request with an integer id and a params tree that holds a nested object,
a null and a nested array. -/
def ex_request_call : d_token_t :=
  ex_request_with "eth_call"
    [("params", .array [.integer 1, .object [("to", .string "ab"), ("x", .null)],
        .array [.integer 3]]),
      ("id", .integer 7)]

/-- A request with neither id nor params. -/
def ex_request_block : d_token_t := ex_request_with "eth_blockNumber" []

/-- The client of the examples with a signing key and the given proof level. -/
def ex_client_key (proof : in3_proof_t) : in3_t :=
  { ex_client 1 with key := some [9, 9], proof := proof }

/-! ## Sub-context chains (`ctx_find_required`, `ctx_remove_required`) -/

/-- The function `ctx_find_required(parent, search_method)` on the chain
`parent->required`, with at most `fuel` turns of the `while` loop (`none` when
they are used up).  The request array of a context is NULL exactly when
`requests` is empty (§3: a parsed request array has length ≥ 1).  The
`continue` of the first statement goes back to the loop test without advancing
`sub_ctx`.  The result is the pointer returned: the chain from the context
found on, `[]` for NULL. -/
def ctx_find_required : (fuel : Nat) → List in3_ctx_t → String → Option (List in3_ctx_t)
  | 0, _, _ => none
  | _ + 1, [], _ => some []
  | fuel + 1, sub_ctx :: required, search_method =>
      if sub_ctx.requests.isEmpty then
        ctx_find_required fuel (sub_ctx :: required) search_method
      else if ctx_is_method sub_ctx search_method then some (sub_ctx :: required)
      else ctx_find_required fuel required search_method

/-- A sub-context chain with the addresses of its contexts: `ctx_remove_required`
compares pointers (`p->required == ctx`), and two contexts at different
addresses may hold the same values. -/
abbrev ctx_chain_t := List (Nat × in3_ctx_t)

/-- The function `free_ctx_intern(ctx, is_sub)` on the chain that starts at
`ctx`: the context is freed after the chain `ctx->required`, which is freed by
the recursive call with `is_sub = true`.  The result is the addresses freed, in
the order of the calls of `_free(ctx)`, and by how much `client->pending` is
decremented (only a call with `is_sub = false` does that).  The buffers owned
by a freed context go with it and are not tracked. -/
def free_ctx_intern : ctx_chain_t → Bool → List Nat × Nat
  | [], _ => ([], 0)
  | ctx :: required, is_sub =>
      ((free_ctx_intern required true).1 ++ [ctx.1],
        (if is_sub then 0 else 1) + (free_ctx_intern required true).2)

/-- What `ctx_remove_required` leaves behind: its status, the chain
`parent->required`, and the addresses of the contexts it freed. -/
structure remove_result where
  ret : in3_ret_t
  required : ctx_chain_t
  freed : List Nat

/-- The loop of `ctx_remove_required` from a context `p` on, `required` being
the chain `p->required`: when its first context is at the address `ctx`, the
link `p->required` is set to NULL and `free_ctx_intern(ctx, true)` runs on it;
otherwise the loop goes on with `p = p->required`.  `none` when the loop ends
without a match. -/
def remove_walk (ctx : Nat) : ctx_chain_t → Option (ctx_chain_t × List Nat)
  | [] => none
  | p :: required =>
      if p.1 = ctx then some ([], (free_ctx_intern (p :: required) true).1)
      else (remove_walk ctx required).map (fun r => (p :: r.1, r.2))

/-- The function `ctx_remove_required(parent, ctx)` on the chain
`parent->required`; `ctx` is the address of the child, `none` for NULL. -/
def ctx_remove_required (required : ctx_chain_t) (ctx : Option Nat) : remove_result :=
  match ctx with
  | none => ⟨IN3_OK, required, []⟩
  | some a =>
      match remove_walk a required with
      | some r => ⟨IN3_OK, r.1, r.2⟩
      | none => ⟨IN3_EFIND, required, []⟩

/-! ## The private-key signer (`signer/pk-signer/signer.c`) -/

/-- The signing functions of the crypto library (`ecdsa.h`, not among the
sources) on the curve `secp256k1`, and the hash Keccak-256.  `ecdsa_sign` is
the call with `HASHER_SHA3K`, which hashes the message and signs the hash;
`ecdsa_sign_digest` signs the digest at the pointer it is given.  Both take the
private key first and give the 65 bytes written to `sig` and `pby`, or nothing
when the library returns a negative value. -/
structure ecdsa_t where
  ecdsa_sign : List Nat → List Nat → Option (List Nat)
  ecdsa_sign_digest : List Nat → List Nat → Option (List Nat)
  keccak : List Nat → List Nat

/-- The signature type `d_signature_type_t`; `SIGN_OTHER` stands for any value
outside the enum, which the `switch` sends to `default`. -/
inductive d_signature_type_t where
  | SIGN_EC_RAW | SIGN_EC_HASH | SIGN_OTHER
  deriving DecidableEq, Repr

/-- The hasher handed to `ec_sign_pk_hash`: `hasher_sha3k`, or any other. -/
inductive hasher_t where
  | hasher_sha3k | hasher_other
  deriving DecidableEq, Repr

/-- The bytes of a signature written over the start of the buffer `dst`. -/
def write_signature (dst sig : List Nat) : List Nat := sig ++ dst.drop sig.length

/-- The function `ec_sign_pk_raw(message, pk, dst)`: status and buffer `dst`.
A failed call leaves the buffer as it was. -/
def ec_sign_pk_raw (lib : ecdsa_t) (message pk dst : List Nat) : in3_ret_t × List Nat :=
  match lib.ecdsa_sign_digest pk message with
  | none => (IN3_EUNKNOWN, dst)
  | some sig => (IN3_OK, write_signature dst sig)

/-- The function `ec_sign_pk_hash(message, len, pk, hasher, dst)`: the library
is called only for `hasher_sha3k`. -/
def ec_sign_pk_hash (lib : ecdsa_t) (message pk : List Nat) (hasher : hasher_t)
    (dst : List Nat) : in3_ret_t × List Nat :=
  if hasher = .hasher_sha3k then
    match lib.ecdsa_sign pk message with
    | none => (IN3_EUNKNOWN, dst)
    | some sig => (IN3_OK, write_signature dst sig)
  else (IN3_OK, dst)

/-- The function `ec_sign_pk(type, message, pk, dst)`. -/
def ec_sign_pk (lib : ecdsa_t) (type : d_signature_type_t) (message pk dst : List Nat) :
    in3_ret_t × List Nat :=
  match type with
  | .SIGN_EC_RAW => ec_sign_pk_raw lib message pk dst
  | .SIGN_EC_HASH => ec_sign_pk_hash lib message pk .hasher_sha3k dst
  | .SIGN_OTHER => (IN3_ENOTSUP, dst)

/-- The signing context `in3_sign_ctx_t`, as far as `eth_sign_pk_ctx` reads and
writes it. -/
structure in3_sign_ctx_t where
  type : d_signature_type_t
  message : List Nat
  wallet : List Nat
  signature : List Nat
  deriving DecidableEq, Repr

/-- The function `eth_sign_pk_ctx(ctx)`: the key is `ctx->wallet`, the
signature goes to `ctx->signature`. -/
def eth_sign_pk_ctx (lib : ecdsa_t) (ctx : in3_sign_ctx_t) : in3_ret_t × in3_sign_ctx_t :=
  match ctx.type with
  | .SIGN_EC_RAW =>
      ((ec_sign_pk_raw lib ctx.message ctx.wallet ctx.signature).1,
        { ctx with signature := (ec_sign_pk_raw lib ctx.message ctx.wallet ctx.signature).2 })
  | .SIGN_EC_HASH =>
      ((ec_sign_pk_hash lib ctx.message ctx.wallet .hasher_sha3k ctx.signature).1,
        { ctx with
          signature :=
            (ec_sign_pk_hash lib ctx.message ctx.wallet .hasher_sha3k ctx.signature).2 })
  | .SIGN_OTHER => (IN3_ENOTSUP, ctx)

/-- A stand-in for the crypto library: the hash of a message is its length and
its sum, and a signature is the key followed by the digest.  Hashing and
signing is signing the hash. -/
def ex_ecdsa : ecdsa_t :=
  { ecdsa_sign := fun pk m => some (pk ++ [m.length % 256, m.sum % 256])
    ecdsa_sign_digest := fun pk d => some (pk ++ d)
    keccak := fun m => [m.length % 256, m.sum % 256] }

/-- A library whose calls all fail. -/
def ex_ecdsa_failing : ecdsa_t :=
  { ecdsa_sign := fun _ _ => none
    ecdsa_sign_digest := fun _ _ => none
    keccak := fun m => [m.length % 256, m.sum % 256] }

/-- A chain of three sub-contexts at the addresses 1, 2 and 3. -/
def ex_chain_of_three : ctx_chain_t :=
  [(1, ex_ctx "eth_call"), (2, ex_ctx "eth_getCode"), (3, ex_ctx "eth_call")]

/-! ## Folding a latency sample at most once -/

/-- The latency sample of node `j`: `ctx->times[j]`, `0` without a `times`
array. -/
def latency_sample (st : fvr_state) (j : Nat) : Nat := (st.ctx.times.getD []).getD j 0

/-- The two latency counters of the weights entry `w`. -/
def latency_counters (st : fvr_state) (w : Nat) : Option (Nat × Nat) :=
  st.chain.weights[w]?.map reputation_counters

/-- Between the states `earlier` and `later` the sample of node `j` has been
folded into the entry `w` at most once: either the sample and the counters are
as they were, or the sample was not zero, is zero now, and the counters are the
earlier ones with one response and that sample added (32-bit counters). -/
def folded_at_most_once (j w : Nat) (earlier later : fvr_state) : Prop :=
  (latency_sample later j = latency_sample earlier j
      ∧ latency_counters later w = latency_counters earlier w)
    ∨ (latency_sample earlier j ≠ 0 ∧ latency_sample later j = 0
      ∧ latency_counters later w
        = (latency_counters earlier w).map (fun c =>
            ((c.1 + 1) % 2 ^ 32, (c.2 + latency_sample earlier j) % 2 ^ 32)))

/-- Node `j` is the only picked node that may point to the weights entry `w`:
its own weight pointer is `w` or NULL, and no other node points to `w`. -/
def owns_weight (j w : Nat) (nodes : List node_match_t) : Prop :=
  (∀ j1 m1, j1 ≠ j → nodes[j1]? = some m1 → m1.weight ≠ some w)
    ∧ ∀ m, nodes[j]? = some m → m.weight = some w ∨ m.weight = none

/-- The matcher `find_valid_result` run `runs` times in a row over the same
context and slots: each run starts from the context, sub-contexts, slots and
chain the run before it left. -/
def fvr_runs (env : environment) (client : in3_t) (nodes_count : Nat)
    (verifier : Option in3_verifier_t) : (runs : Nat) → fvr_state → fvr_state
  | 0, st => st
  | runs + 1, st =>
      fvr_runs env client nodes_count verifier runs
        (find_valid_result env client st.ctx st.required nodes_count st.response st.chain
          verifier).1

/-! ## The node-list cache (`core/client/cache.c`)

`cache.c` is written against another snapshot of the client than `execute.c`:
the chain keeps its contract, its whitelist contract and its whitelist as plain
fields, and the cache of the client is a storage handler. -/

/-- The version byte of a cached record. -/
abbrev CACHE_VERSION : Nat := 3

/-- The value `UPDATE_NONE` of `needs_update`. -/
abbrev UPDATE_NONE : Nat := 0

/-- The chain `in3_chain_t` as `cache.c` reads and writes it.  A `bytes_t*` is
the bytes it points to, `none` for NULL. -/
structure cache_chain_t where
  chain_id : Nat
  contract : Option (List Nat)
  last_block : Nat
  nodelist_length : Nat
  nodelist : List in3_node_t
  weights : List in3_node_weight_t
  needs_update : Nat
  whitelist_contract : Option (List Nat)
  whitelist_last_block : Nat
  whitelist : Option (List Nat)
  deriving DecidableEq, Repr

/-- The storage handler of the client, as far as the readers use it: what
`get_item` returns for a key (`none` for NULL). -/
structure in3_storage_handler_t where
  get_item : String → Option (List Nat)

/-- The client `in3_t` as `cache.c` uses it. -/
structure cache_client_t where
  cache : Option in3_storage_handler_t
  chains : List cache_chain_t

/-- Modelled from the spec: `util/bytes.c` is not among the sources.  The `len`
low bytes of a value, most significant first (§6: "last block (8 bytes), node
count (4 bytes)"). -/
def be_bytes : (len : Nat) → Nat → List Nat
  | 0, _ => []
  | len + 1, v => be_bytes len (v / 256) ++ [v % 256]

/-- Modelled from the spec: `util/bytes.c` is not among the sources.  A bytes
builder is the list of the bytes written so far; `bb_write_byte` adds one. -/
def bb_write_byte (bb : List Nat) (val : Nat) : List Nat := bb ++ [val % 256]

/-- The writer `bb_write_fixed_bytes`: the bytes of `src`, without a length. -/
def bb_write_fixed_bytes (bb src : List Nat) : List Nat := bb ++ src

/-- The writer `bb_write_raw_bytes`: the bytes at the pointer. -/
def bb_write_raw_bytes (bb ptr : List Nat) : List Nat := bb ++ ptr

/-- The writer `bb_write_long`: 8 bytes, most significant first. -/
def bb_write_long (bb : List Nat) (val : Nat) : List Nat := bb ++ be_bytes 8 val

/-- The writer `bb_write_int`: 4 bytes, most significant first. -/
def bb_write_int (bb : List Nat) (val : Nat) : List Nat := bb ++ be_bytes 4 val

/-- A C string is kept as a `String`, one character for each `char`; `strlen`
is the number of characters before the first NUL. -/
def strlen (c : String) : Nat := (c.data.takeWhile (fun ch => ch.toNat != 0)).length

/-- The writer `bb_write_chars(bb, c, len)`: `len` characters and a NUL. -/
def bb_write_chars (bb : List Nat) (c : String) (len : Nat) : List Nat :=
  bb ++ (c.data.map Char.toNat).take len ++ [0]

/-- Modelled from the spec: `util/bytes.c` is not among the sources.  A record
`b` that is read from position `p` on is kept as its bytes from `p` on; a read
beyond the end of the record has no result.  `b_read_byte` reads one byte. -/
def b_read_byte : List Nat → Option (Nat × List Nat)
  | [] => none
  | x :: rest => some (x, rest)

/-- The reader `b_new_fixed_bytes(b, &p, len)`: a copy of the next `len` bytes. -/
def b_new_fixed_bytes (b : List Nat) (len : Nat) : Option (List Nat × List Nat) :=
  if len ≤ b.length then some (b.take len, b.drop len) else none

/-- The reader `b_read_int`: the next 4 bytes, most significant first. -/
def b_read_int (b : List Nat) : Option (Nat × List Nat) :=
  (b_new_fixed_bytes b 4).map (fun r => (bytes_to_long r.1, r.2))

/-- The reader `b_read_long`: the next 8 bytes, most significant first. -/
def b_read_long (b : List Nat) : Option (Nat × List Nat) :=
  (b_new_fixed_bytes b 8).map (fun r => (bytes_to_long r.1, r.2))

/-- The reader `b_new_chars`: a copy of the characters up to the next NUL, which
is skipped. -/
def b_new_chars (b : List Nat) : Option (String × List Nat) :=
  match b.drop (b.takeWhile (fun x => x != 0)).length with
  | [] => none
  | _ :: rest => some (String.mk ((b.takeWhile (fun x => x != 0)).map Char.ofNat), rest)

/-- The `len` low bytes of a value, least significant first. -/
def le_bytes : (len : Nat) → Nat → List Nat
  | 0, _ => []
  | len + 1, v => v % 256 :: le_bytes len (v / 256)

/-- The value of bytes that are kept least significant first. -/
def le_value : List Nat → Nat
  | [] => 0
  | x :: rest => x % 256 + 256 * le_value rest

/-- Modelled from the spec: `client.h` is not among the sources.  §6: "a packed
weights table (reputation + blacklist timestamp per node)".  The size of a
weights entry in memory: two 32-bit counters and a 64-bit timestamp. -/
abbrev sizeof_in3_node_weight_t : Nat := 16

/-- The bytes of a weights entry in memory, as `bb_write_raw_bytes` copies
them: each field least significant byte first. -/
def weight_raw (e : in3_node_weight_t) : List Nat :=
  le_bytes 4 e.response_count ++ le_bytes 4 e.total_response_time
    ++ le_bytes 8 e.blacklisted_until

/-- The weights entry that `memcpy` makes of 16 bytes. -/
def weight_of_raw (raw : List Nat) : in3_node_weight_t :=
  { response_count := le_value (raw.take 4)
    total_response_time := le_value ((raw.drop 4).take 4)
    blacklisted_until := le_value ((raw.drop 8).take 8) }

/-- The bytes of a weights table in memory. -/
def weights_raw (weights : List in3_node_weight_t) : List Nat :=
  weights.flatMap weight_raw

/-- The weights table that `memcpy` makes of `count` times 16 bytes. -/
def weights_of_raw : (count : Nat) → List Nat → List in3_node_weight_t
  | 0, _ => []
  | count + 1, raw =>
      weight_of_raw (raw.take sizeof_in3_node_weight_t)
        :: weights_of_raw count (raw.drop sizeof_in3_node_weight_t)

/-- Modelled from the spec: `util/utils.c` is not among the sources.  The text
of bytes in hexadecimal, two lower-case digits for each byte. -/
def bytes_to_hex (b : List Nat) : String :=
  String.mk (b.flatMap (fun x => [Nat.digitChar (x / 16 % 16), Nat.digitChar (x % 16)]))

/-- The text `sprintf` writes for `%d` when it is handed a 32-bit chain id. -/
def sprintf_d (n : Nat) : String :=
  if n % 2 ^ 32 < 2 ^ 31 then toString (n % 2 ^ 32) else "-" ++ toString (2 ^ 32 - n % 2 ^ 32)

/-- The key `write_cache_key` writes: `nodelist_<chain_id>`, followed by `_0x`
and the contract in hexadecimal when there is a contract. -/
def write_cache_key (chain_id : Nat) (contract : Option (List Nat)) : String :=
  match contract with
  | some c => "nodelist_" ++ sprintf_d chain_id ++ "_0x" ++ bytes_to_hex c
  | none => "nodelist_" ++ sprintf_d chain_id

/-- The body of the loop of `in3_cache_store_nodelist`: the record of a node. -/
def write_node (bb : List Nat) (n : in3_node_t) : List Nat :=
  let bb := bb_write_int bb n.capacity
  let bb := bb_write_int bb n.index
  let bb := bb_write_long bb n.deposit
  let bb := bb_write_long bb n.props
  let bb := bb_write_fixed_bytes bb n.address
  let bb := bb_write_chars bb n.url (strlen n.url)
  bb_write_byte bb (if n.whitelisted then 1 else 0)

/-- What `in3_cache_store_nodelist` does: its status and the call of `set_item`
it makes (key and bytes), if any. -/
structure cache_store_t where
  ret : in3_ret_t
  set_item : Option (String × List Nat)
  deriving DecidableEq, Repr

/-- The function `in3_cache_store_nodelist(ctx, chain)`, `c` being
`ctx->client`.  No result when the code reads through a NULL contract or beyond
the node list or the weights table. -/
def in3_cache_store_nodelist (c : cache_client_t) (chain : cache_chain_t) :
    Option cache_store_t :=
  match c.cache with
  | none => some ⟨IN3_OK, none⟩
  | some _ =>
      match chain.contract with
      | none => none
      | some contract =>
          if chain.weights.length < chain.nodelist_length
              ∨ chain.nodelist.length < chain.nodelist_length then none
          else
            let bb := bb_write_byte [] CACHE_VERSION
            let bb := bb_write_fixed_bytes bb contract
            let bb := bb_write_long bb chain.last_block
            let bb := bb_write_int bb chain.nodelist_length
            let bb := bb_write_raw_bytes bb
              (weights_raw (chain.weights.take chain.nodelist_length))
            let bb := (chain.nodelist.take chain.nodelist_length).foldl write_node bb
            some ⟨IN3_OK, some (write_cache_key chain.chain_id chain.contract, bb)⟩

/-- The body of the loop of `in3_cache_update_nodelist`: one node is read. -/
def read_node (b : List Nat) : Option (in3_node_t × List Nat) :=
  (b_read_int b).bind fun capacity =>
  (b_read_int capacity.2).bind fun index =>
  (b_read_long index.2).bind fun deposit =>
  (b_read_long deposit.2).bind fun props =>
  (b_new_fixed_bytes props.2 20).bind fun address =>
  (b_new_chars address.2).bind fun url =>
  (b_read_byte url.2).map fun whitelisted =>
    ({ capacity := capacity.1, index := index.1, deposit := deposit.1, props := props.1,
       address := address.1, url := url.1, whitelisted := whitelisted.1 != 0 },
      whitelisted.2)

/-- The loop of `in3_cache_update_nodelist` over `count` nodes. -/
def read_nodes : (count : Nat) → List Nat → Option (List in3_node_t × List Nat)
  | 0, b => some ([], b)
  | count + 1, b =>
      (read_node b).bind fun n =>
      (read_nodes count n.2).map fun rest => (n.1 :: rest.1, rest.2)

/-- The function `in3_cache_update_nodelist(c, chain)`: the chain and the
status.  `in3_nodelist_clear` (not among the sources) releases the old node
list and weights, which are assigned anew right after it.  No result when a
read goes beyond the end of the record, or when the count is negative as an
`int`. -/
def in3_cache_update_nodelist (c : cache_client_t) (chain : cache_chain_t) :
    Option (cache_chain_t × in3_ret_t) :=
  match c.cache with
  | none => some (chain, IN3_OK)
  | some cache =>
      match cache.get_item (write_cache_key chain.chain_id chain.contract) with
      | none => some (chain, IN3_OK)
      | some b =>
          (b_read_byte b).bind fun version =>
          if version.1 ≠ CACHE_VERSION then some (chain, IN3_EVERS)
          else
            (b_new_fixed_bytes version.2 20).bind fun contract =>
            (b_read_long contract.2).bind fun last_block =>
            (b_read_int last_block.2).bind fun count =>
            if 2 ^ 31 ≤ count.1 then none
            else
              (b_new_fixed_bytes count.2 (count.1 * sizeof_in3_node_weight_t)).bind
                fun weights =>
              (read_nodes count.1 weights.2).map fun nodes =>
                ({ chain with
                   contract := some contract.1
                   last_block := last_block.1
                   nodelist_length := count.1
                   nodelist := nodes.1
                   weights := weights_of_raw count.1 weights.1
                   needs_update := UPDATE_NONE },
                  IN3_EVERS)

/-- Modelled from the spec: `util/utils.c` is not among the sources.  Whether
the first `len` bytes at a pointer are all zero. -/
def memiszero (ptr : List Nat) (len : Nat) : Bool := (ptr.take len).all (fun x => x == 0)

/-- The function `in3_cache_update_whitelist(c, chain)`: the chain and the
status.  `in3_whitelist_clear` (not among the sources) releases the old
whitelist, which is assigned anew right after it; a failing allocation is not
modelled.  The contract read is dropped again when it is not all zero, and the
statement `p += 20` skips 20 more bytes. -/
def in3_cache_update_whitelist (c : cache_client_t) (chain : cache_chain_t) :
    Option (cache_chain_t × in3_ret_t) :=
  match c.cache with
  | none => some (chain, IN3_OK)
  | some cache =>
      match cache.get_item (write_cache_key chain.chain_id chain.whitelist_contract) with
      | none => some (chain, IN3_OK)
      | some b =>
          (b_read_byte b).bind fun version =>
          if version.1 ≠ CACHE_VERSION then some (chain, IN3_EVERS)
          else
            (b_read_long version.2).bind fun last_block =>
            (b_new_fixed_bytes last_block.2 20).bind fun contract =>
            (b_read_int (contract.2.drop 20)).bind fun count =>
            (b_new_fixed_bytes count.2 (count.1 * 20 % 2 ^ 32)).map fun whitelist =>
              ({ chain with
                 whitelist_last_block := last_block.1
                 whitelist_contract :=
                   if !memiszero contract.1 20 then none else some contract.1
                 whitelist := some whitelist.1 },
                IN3_OK)

/-- The loop of `in3_cache_init` over the chains of the client; the status of
the two updates is ignored. -/
def cache_init_loop (c : cache_client_t) : List cache_chain_t → Option (List cache_chain_t)
  | [] => some []
  | chain :: rest =>
      (in3_cache_update_nodelist c chain).bind fun r1 =>
      (in3_cache_update_whitelist c r1.1).bind fun r2 =>
      (cache_init_loop c rest).map fun done => r2.1 :: done

/-- The function `in3_cache_init(c)`: the client with its chains updated from
the cache, and the status. -/
def in3_cache_init (c : cache_client_t) : Option (cache_client_t × in3_ret_t) :=
  (cache_init_loop c c.chains).map fun chains => ({ c with chains := chains }, IN3_OK)

/-- A chain with two nodes for the examples of the cache. -/
def ex_cache_chain : cache_chain_t :=
  { chain_id := 1
    contract := some (List.replicate 20 171)
    last_block := 1000
    nodelist_length := 2
    nodelist :=
      [⟨10, 0, 500, 65535, List.replicate 20 1, "https://in3.io/n0", true⟩,
        ⟨20, 1, 700, 3, List.replicate 20 2, "http://in3.io/n1", false⟩]
    weights := [⟨3, 120, 0⟩, ⟨1, 40, 90000⟩]
    needs_update := 1
    whitelist_contract := none
    whitelist_last_block := 0
    whitelist := none }

/-- A storage handler that holds one record, under every key. -/
def ex_storage (record : List Nat) : in3_storage_handler_t :=
  { get_item := fun _ => some record }

/-! ## The state of a context (`in3_ctx_state`) -/

/-- The states `in3_ctx_state_t` that `in3_ctx_state` returns. -/
inductive in3_ctx_state_t where
  | CTX_ERROR | CTX_WAITING_FOR_REQUIRED_CTX | CTX_WAITING_FOR_RESPONSE | CTX_SUCCESS
  deriving DecidableEq, Repr

/-- The function `in3_ctx_state(ctx)` on a context pointer: `[]` is NULL, and
`ctx :: required` is the context `ctx` with `ctx->required = required`. -/
def in3_ctx_state : List in3_ctx_t → in3_ctx_state_t
  | [] => .CTX_SUCCESS
  | ctx :: required =>
      if in3_ctx_state required = .CTX_ERROR then .CTX_ERROR
      else if ctx.error.isSome then .CTX_ERROR
      else if !required.isEmpty ∧ in3_ctx_state required ≠ .CTX_SUCCESS then
        .CTX_WAITING_FOR_REQUIRED_CTX
      else if ctx.raw_response.isNone then .CTX_WAITING_FOR_RESPONSE
      else if ctx.type = .CT_RPC ∧ ctx.response_context.isNone then .CTX_WAITING_FOR_RESPONSE
      else .CTX_SUCCESS

/-! ## The framing of APDU commands (`ledger-nano/signer/device_apdu_commands.c`) -/

/-- The function `len_to_bytes(x, buf)` for a `uint16_t x`: the value returned
and the two bytes of `buf`, `buf[0]` first. -/
def len_to_bytes (x : Nat) : Nat × List Nat :=
  (2, [((x % 2 ^ 16) >>> 8) &&& 0xFF, (x % 2 ^ 16) &&& 0xFF])

/-- The function `bytes_to_len(buf)`: `(buf[1] << 8) + buf[0]` as a `uint16_t`. -/
def bytes_to_len (buf : List Nat) : Nat :=
  (((buf.getD 1 0) <<< 8) + buf.getD 0 0) % 2 ^ 16

/-- The function `wrap_apdu(i_apdu, seq, o_wrapped_hid_cmd)`: the packet of
`hid_cmd_max_len` bytes (the value of `HID_CMD_MAX_LEN`, whose header is not
among the sources) that holds the channel, the tag, the sequence number, the
length of the APDU and the APDU, on a ground of zeros.  No packet when the APDU
does not fit into the buffer. -/
def wrap_apdu (hid_cmd_max_len : Nat) (i_apdu : List Nat) (seq : Nat) : Option (List Nat) :=
  let head := [0x01, 0x01] ++ [0x05] ++ (len_to_bytes seq).2
    ++ (len_to_bytes (i_apdu.length % 2 ^ 16)).2 ++ i_apdu
  if head.length ≤ hid_cmd_max_len then
    some (head ++ List.replicate (hid_cmd_max_len - head.length) 0)
  else none

/-- The length `unwrap_apdu` stores in `o_apdu_res->len`: `bytes_to_len` of the
bytes 5 and 6 of the packet.  The copy that follows is not modelled: the
arguments of its `memcpy` are out of order. -/
def unwrap_apdu (i_wrapped_hid_cmd : List Nat) : Nat :=
  bytes_to_len [i_wrapped_hid_cmd.getD 5 0, i_wrapped_hid_cmd.getD 6 0]

/-! ## The cached whitelist (`in3_cache_store_whitelist`) -/

/-- The function `in3_cache_store_whitelist(ctx, chain)`, `c` being
`ctx->client`: version, contract (20 zero bytes without one), and, when there
is a whitelist, the number of its addresses and its bytes.  The storage handler
is used without a test for NULL: no result without one. -/
def in3_cache_store_whitelist (c : cache_client_t) (chain : cache_chain_t) :
    Option cache_store_t :=
  let bb := bb_write_byte [] CACHE_VERSION
  let bb :=
    match chain.whitelist_contract with
    | some contract => bb_write_fixed_bytes bb contract
    | none => bb_write_raw_bytes bb (List.replicate 20 0)
  let bb :=
    match chain.whitelist with
    | some whitelist => bb_write_fixed_bytes (bb_write_int bb (whitelist.length / 20)) whitelist
    | none => bb
  match c.cache with
  | none => none
  | some _ =>
      some ⟨IN3_OK, some (write_cache_key chain.chain_id chain.whitelist_contract, bb)⟩

/-! ## More examples -/

/-- A stand-in verifier that answers every request itself: its `pre_handle`
fills the raw response with the one slot `slot` and returns ok. -/
def ex_verifier_internal (slot : in3_response_t) : in3_verifier_t :=
  { pre_handle := some (fun _ ctx required => ⟨IN3_OK, some [slot], ctx.error, required⟩)
    verify := (ex_verifier none).verify }

/-- The environment `ex_env none IN3_OK` with the verifier
`ex_verifier_internal slot`. -/
def ex_env_internal (slot : in3_response_t) : environment :=
  { ex_env none IN3_OK with in3_get_verifier := fun _ => some (ex_verifier_internal slot) }

/-- A chain with a whitelist contract and a whitelist of two addresses. -/
def ex_whitelist_chain : cache_chain_t :=
  { ex_cache_chain with
    whitelist_contract := some (List.replicate 20 171)
    whitelist_last_block := 77
    whitelist := some (List.replicate 20 1
      ++ [2, 2, 2, 2, 0, 0, 0, 0, 2, 2, 2, 2, 2, 2, 2, 2, 2, 2, 2, 2]) }

/-! ## Responses without a result, and batches of requests -/

theorem update_at_length {α : Type} (l : List α) (n : Nat) (f : α → α) :
    (update_at l n f).length = l.length := by
  induction l generalizing n with
  | nil => simp [update_at]
  | cons x xs ih => cases n <;> simp [update_at, ih]

theorem update_at_getElem?_self {α : Type} (l : List α) (n : Nat) (f : α → α) :
    (update_at l n f)[n]? = l[n]?.map f := by
  induction l generalizing n with
  | nil => simp [update_at]
  | cons x xs ih => cases n <;> simp [update_at, ih]

theorem update_at_getElem?_ne {α : Type} (l : List α) (n j : Nat) (f : α → α) (h : j ≠ n) :
    (update_at l n f)[j]? = l[j]? := by
  induction l generalizing n j with
  | nil => simp [update_at]
  | cons x xs ih =>
      cases n with
      | zero =>
          cases j with
          | zero => exact absurd rfl h
          | succ j => simp [update_at]
      | succ n =>
          cases j with
          | zero => simp [update_at]
          | succ j => simpa [update_at] using ih n j (by omega)

theorem update_at_nil_iff {α : Type} (l : List α) (n : Nat) (f : α → α) :
    update_at l n f = [] ↔ l = [] := by
  cases l with
  | nil => simp [update_at]
  | cons x xs => cases n <;> simp [update_at]

theorem same_request_refl (a : in3_ctx_t) : same_request a a := by
  simp [same_request]

theorem same_request_trans {a b c : in3_ctx_t} (h1 : same_request a b)
    (h2 : same_request b c) : same_request a c := by
  obtain ⟨h11, h12, h13, h14, h15, h16, h17⟩ := h1
  obtain ⟨h21, h22, h23, h24, h25, h26, h27⟩ := h2
  exact ⟨h11.trans h21, h12.trans h22, h13.trans h23, h14.trans h24, h15.trans h25,
    h16.trans h26, h17.trans h27⟩

theorem ctx_set_error_same (ctx : in3_ctx_t) (msg : String) (e : in3_ret_t) :
    same_request (ctx_set_error ctx msg e).1 ctx := by
  unfold ctx_set_error
  split <;> simp [same_request]

theorem ctx_set_error_ret (ctx : in3_ctx_t) (msg : String) (e : in3_ret_t) :
    (ctx_set_error ctx msg e).2 = e := by
  unfold ctx_set_error
  split <;> rfl

theorem ctx_parse_response_same (env : environment) (ctx : in3_ctx_t) (d : String) (l : Nat) :
    same_request (ctx_parse_response env ctx d l).1 ctx := by
  unfold ctx_parse_response
  simp only
  split
  · exact same_request_trans (ctx_set_error_same _ _ _)
      (same_request_trans (ctx_set_error_same _ _ _) (by simp [same_request]))
  · split
    · split
      · exact same_request_trans (ctx_set_error_same _ _ _) (by simp [same_request])
      · simp [same_request]
    · split
      · exact same_request_trans (ctx_set_error_same _ _ _) (by simp [same_request])
      · simp [same_request]
    · exact same_request_trans (ctx_set_error_same _ _ _) (by simp [same_request])

theorem fvr_blacklist_same (env : environment) (n : Nat) (st : fvr_state) :
    same_request (fvr_blacklist env n st).ctx st.ctx := by
  simp [fvr_blacklist, same_request]

theorem fvr_reject_same (n : Nat) (st : fvr_state) :
    same_request (fvr_reject n st).ctx st.ctx := by
  simp [fvr_reject, same_request]

theorem fvr_times_same (n : Nat) (st : fvr_state) :
    same_request (fvr_times n st).ctx st.ctx := by
  unfold fvr_times
  repeat' split
  all_goals simp [same_request]

theorem fvr_markers_ctx (t : Option d_token_t) (st : fvr_state) :
    (fvr_markers t st).ctx = st.ctx := by
  unfold fvr_markers
  split <;> rfl

theorem fvr_markers_trace (t : Option d_token_t) (st : fvr_state) :
    (fvr_markers t st).trace = st.trace := by
  unfold fvr_markers
  split <;> rfl

theorem fvr_request_same (env : environment) (client : in3_t) (v : Option in3_verifier_t)
    (n i : Nat) (st : fvr_state) :
    same_request (fvr_request env client v n i st).1.ctx st.ctx := by
  unfold fvr_request
  simp only
  have hm : ∀ c : in3_ctx_t, same_request c (fvr_markers
      (d_get (st.ctx.responses.getD [])[i]? K_IN3) st).ctx → same_request c st.ctx := by
    intro c hc
    rw [fvr_markers_ctx] at hc
    exact hc
  repeat' split
  all_goals apply hm
  all_goals first
    | exact same_request_trans (fvr_blacklist_same _ _ _) (by simp [same_request, fvr_verified])
    | exact same_request_trans (fvr_reject_same _ _) (by simp [same_request])
    | simp [same_request, fvr_verified]

theorem fvr_requests_same (env : environment) (client : in3_t) (v : Option in3_verifier_t)
    (n todo i : Nat) (st : fvr_state) :
    same_request (fvr_requests env client v n todo i st).1.ctx st.ctx := by
  induction todo generalizing i st with
  | zero => simp [fvr_requests, same_request_refl]
  | succ todo ih =>
      unfold fvr_requests
      have h := fvr_request_same env client v n i st
      split
      · next st1 heq =>
          rw [heq] at h
          exact same_request_trans (ih (i + 1) st1) h
      · exact h

theorem fvr_autoupdate_ctx (env : environment) (client : in3_t) (n : Nat)
    (st : fvr_state) : (fvr_autoupdate env client n st).ctx = st.ctx := by
  unfold fvr_autoupdate
  simp only
  split <;> rfl

theorem fvr_autoupdate_trace (env : environment) (client : in3_t) (n : Nat)
    (st : fvr_state) : (fvr_autoupdate env client n st).trace = st.trace := by
  unfold fvr_autoupdate
  simp only
  split <;> rfl

theorem fvr_finish_state (env : environment) (client : in3_t) (n : Nat) (st : fvr_state) :
    (fvr_finish env client n st).1 = fvr_autoupdate env client n st := by
  unfold fvr_finish
  simp only
  split <;> rfl

theorem fvr_finish_same (env : environment) (client : in3_t) (n : Nat) (st : fvr_state) :
    same_request (fvr_finish env client n st).1.ctx st.ctx := by
  rw [fvr_finish_state, fvr_autoupdate_ctx]
  exact same_request_refl _

theorem fvr_error_slot_same (env : environment) (client : in3_t) (n : Nat)
    (slot : in3_response_t) (st : fvr_state) :
    same_request (fvr_error_slot env client n slot st).1.ctx st.ctx := by
  unfold fvr_error_slot
  simp only
  split
  · exact same_request_refl _
  · refine same_request_trans (fvr_finish_same _ _ _ _) ?_
    split
    · exact same_request_trans (ctx_set_error_same _ _ _) (fvr_blacklist_same _ _ _)
    · exact same_request_trans (ctx_set_error_same _ _ _) (fvr_blacklist_same _ _ _)

theorem fvr_reset_same (n : Nat) (st : fvr_state) :
    same_request (fvr_reset n st).ctx st.ctx := by
  unfold fvr_reset
  simp only
  repeat' split
  all_goals simp [same_request]

theorem fvr_ok_slot_same (env : environment) (client : in3_t) (v : Option in3_verifier_t)
    (n : Nat) (slot : in3_response_t) (st : fvr_state) :
    same_request (fvr_ok_slot env client v n slot st).1.ctx st.ctx := by
  unfold fvr_ok_slot
  simp only
  have hp := same_request_trans
    (ctx_parse_response_same env (fvr_reset n st).ctx (slot.data.getD "")
      (slot.data.getD "").length) (fvr_reset_same n st)
  split
  · exact same_request_trans (fvr_finish_same _ _ _ _)
      (same_request_trans (fvr_blacklist_same _ _ _) hp)
  · have h := fvr_requests_same env client v n
      (ctx_parse_response env (fvr_reset n st).ctx (slot.data.getD "")
        (slot.data.getD "").length).1.len 0
      { fvr_reset n st with ctx := (ctx_parse_response env (fvr_reset n st).ctx
          (slot.data.getD "") (slot.data.getD "").length).1 }
    split
    · next st1 res heq =>
        rw [heq] at h
        exact same_request_trans h hp
    · next st1 ex _ heq =>
        rw [heq] at h
        exact same_request_trans (fvr_finish_same _ _ _ _) (same_request_trans h hp)

theorem fvr_node_same (env : environment) (client : in3_t) (v : Option in3_verifier_t)
    (n : Nat) (st : fvr_state) :
    same_request (fvr_node env client v n st).1.ctx st.ctx := by
  unfold fvr_node
  simp only
  split
  · simp [same_request]
  · split
    · exact same_request_trans (fvr_error_slot_same _ _ _ _ _) (fvr_times_same n st)
    · exact same_request_trans (fvr_ok_slot_same _ _ _ _ _ _) (fvr_times_same n st)

theorem fvr_nodes_same (env : environment) (client : in3_t) (v : Option in3_verifier_t)
    (todo n : Nat) (st : fvr_state) :
    same_request (fvr_nodes env client v todo n st).1.ctx st.ctx := by
  induction todo generalizing n st with
  | zero =>
      unfold fvr_nodes
      split <;> simp [same_request]
  | succ todo ih =>
      unfold fvr_nodes
      have h := fvr_node_same env client v n st
      split
      · next st1 res heq =>
          rw [heq] at h
          exact h
      · next st1 heq =>
          rw [heq] at h
          exact same_request_trans (ih (n + 1) st1) h

theorem find_valid_result_same (env : environment) (client : in3_t) (ctx : in3_ctx_t)
    (required : List in3_ctx_t) (nodes_count : Nat) (response : List in3_response_t)
    (chain : in3_chain_t) (v : Option in3_verifier_t) :
    same_request (find_valid_result env client ctx required nodes_count response chain v).1.ctx
      ctx := by
  unfold find_valid_result
  exact fvr_nodes_same _ _ _ _ _ _

/-! ### The statuses the matcher can return -/

theorem fvr_request_returned (env : environment) (client : in3_t)
    (v : Option in3_verifier_t) (n i : Nat) (st st1 : fvr_state) (res : in3_ret_t)
    (h : fvr_request env client v n i st = (st1, req_exit.returned res)) :
    res = IN3_WAITING := by
  unfold fvr_request at h
  simp only at h
  split at h
  · split at h <;> simp at h
  · split at h
    · split at h
      · next hw =>
        simp only [Prod.mk.injEq, req_exit.returned.injEq] at h
        rw [← h.2]
        exact hw
      · split at h <;> simp at h
    · simp at h

theorem fvr_requests_returned (env : environment) (client : in3_t)
    (v : Option in3_verifier_t) (n todo i : Nat) (st st1 : fvr_state) (res : in3_ret_t)
    (h : fvr_requests env client v n todo i st = (st1, req_exit.returned res)) :
    res = IN3_WAITING := by
  induction todo generalizing i st with
  | zero => simp [fvr_requests] at h
  | succ todo ih =>
      unfold fvr_requests at h
      split at h
      · next st2 heq => exact ih (i + 1) st2 h
      · exact fvr_request_returned env client v n i st st1 res h

theorem fvr_finish_ret (env : environment) (client : in3_t) (n : Nat) (st st1 : fvr_state)
    (res : in3_ret_t) (h : fvr_finish env client n st = (st1, some res)) : res = IN3_OK := by
  unfold fvr_finish at h
  simp only at h
  split at h
  · simp only [Prod.mk.injEq, Option.some.injEq] at h
    exact h.2.symm
  · simp at h

theorem fvr_node_ret (env : environment) (client : in3_t) (v : Option in3_verifier_t)
    (n : Nat) (st st1 : fvr_state) (res : in3_ret_t)
    (h : fvr_node env client v n st = (st1, some res)) :
    res = IN3_OK ∨ res = IN3_WAITING := by
  unfold fvr_node at h
  simp only at h
  split at h
  · simp at h
  · split at h
    · unfold fvr_error_slot at h
      simp only at h
      split at h
      · simp at h
      · exact Or.inl (fvr_finish_ret _ _ _ _ _ _ h)
    · unfold fvr_ok_slot at h
      simp only at h
      split at h
      · exact Or.inl (fvr_finish_ret _ _ _ _ _ _ h)
      · split at h
        · next st2 r heq =>
            simp at h
            exact Or.inr (h.2 ▸ fvr_requests_returned _ _ _ _ _ _ _ _ _ heq)
        · exact Or.inl (fvr_finish_ret _ _ _ _ _ _ h)

theorem fvr_nodes_ret (env : environment) (client : in3_t) (v : Option in3_verifier_t)
    (todo n : Nat) (st : fvr_state) :
    (fvr_nodes env client v todo n st).2 = IN3_OK
      ∨ (fvr_nodes env client v todo n st).2 = IN3_WAITING
      ∨ (fvr_nodes env client v todo n st).2 = IN3_EINVAL := by
  induction todo generalizing n st with
  | zero =>
      unfold fvr_nodes
      split <;> simp
  | succ todo ih =>
      unfold fvr_nodes
      split
      · next st1 res heq =>
          rcases fvr_node_ret _ _ _ _ _ _ _ heq with h | h
          · exact Or.inl h
          · exact Or.inr (Or.inl h)
      · next st1 heq => exact ih (n + 1) st1

theorem find_valid_result_ret (env : environment) (client : in3_t) (ctx : in3_ctx_t)
    (required : List in3_ctx_t) (nodes_count : Nat) (response : List in3_response_t)
    (chain : in3_chain_t) (v : Option in3_verifier_t) :
    (find_valid_result env client ctx required nodes_count response chain v).2 = IN3_OK
      ∨ (find_valid_result env client ctx required nodes_count response chain v).2 = IN3_WAITING
      ∨ (find_valid_result env client ctx required nodes_count response chain v).2
          = IN3_EINVAL := by
  unfold find_valid_result
  exact fvr_nodes_ret _ _ _ _ _ _

theorem verify_steps_only_refl (t : List exec_event) : verify_steps_only t t :=
  ⟨[], by simp, by simp⟩

theorem verify_steps_only_trans {a b c : List exec_event} (h1 : verify_steps_only a b)
    (h2 : verify_steps_only b c) : verify_steps_only a c := by
  obtain ⟨l1, e1, p1⟩ := h1
  obtain ⟨l2, e2, p2⟩ := h2
  refine ⟨l2 ++ l1, by rw [e1, e2, List.append_assoc], ?_⟩
  intro e he
  rcases List.mem_append.mp he with h | h
  · exact p2 e h
  · exact p1 e h

theorem fvr_blacklist_trace (env : environment) (n : Nat) (st : fvr_state) :
    (fvr_blacklist env n st).trace = st.trace := by
  simp [fvr_blacklist]

theorem fvr_reject_trace (n : Nat) (st : fvr_state) : (fvr_reject n st).trace = st.trace := by
  simp [fvr_reject]

theorem fvr_times_trace (n : Nat) (st : fvr_state) : (fvr_times n st).trace = st.trace := by
  unfold fvr_times
  repeat' split
  all_goals rfl

theorem fvr_reset_trace (n : Nat) (st : fvr_state) : (fvr_reset n st).trace = st.trace := by
  unfold fvr_reset
  simp only
  repeat' split
  all_goals rfl

theorem fvr_finish_trace (env : environment) (client : in3_t) (n : Nat) (st : fvr_state) :
    (fvr_finish env client n st).1.trace = st.trace := by
  rw [fvr_finish_state, fvr_autoupdate_trace]

theorem fvr_request_trace (env : environment) (client : in3_t) (v : Option in3_verifier_t)
    (n i : Nat) (st : fvr_state) :
    verify_steps_only (fvr_request env client v n i st).1.trace st.trace := by
  unfold fvr_request
  simp only
  have hv : ∀ t : List exec_event, verify_steps_only (t ++ [exec_event.verify n i]) t :=
    fun t => ⟨[exec_event.verify n i], rfl, by simp⟩
  repeat' split
  all_goals first
    | simp only [fvr_blacklist_trace, fvr_reject_trace, fvr_markers_trace]
      exact verify_steps_only_refl _
    | simp only [fvr_blacklist_trace, fvr_reject_trace, fvr_verified, fvr_markers_trace]
      exact hv _

theorem fvr_requests_trace (env : environment) (client : in3_t) (v : Option in3_verifier_t)
    (n todo i : Nat) (st : fvr_state) :
    verify_steps_only (fvr_requests env client v n todo i st).1.trace st.trace := by
  induction todo generalizing i st with
  | zero => simp [fvr_requests, verify_steps_only_refl]
  | succ todo ih =>
      unfold fvr_requests
      have h := fvr_request_trace env client v n i st
      split
      · next st1 heq =>
          rw [heq] at h
          exact verify_steps_only_trans (ih (i + 1) st1) h
      · exact h

theorem fvr_error_slot_trace (env : environment) (client : in3_t) (n : Nat)
    (slot : in3_response_t) (st : fvr_state) :
    (fvr_error_slot env client n slot st).1.trace = st.trace := by
  unfold fvr_error_slot
  simp only
  split
  · rfl
  · rw [fvr_finish_trace]
    split <;> simp [fvr_blacklist_trace]

theorem fvr_ok_slot_trace (env : environment) (client : in3_t) (v : Option in3_verifier_t)
    (n : Nat) (slot : in3_response_t) (st : fvr_state) :
    verify_steps_only (fvr_ok_slot env client v n slot st).1.trace st.trace := by
  unfold fvr_ok_slot
  simp only
  split
  · rw [fvr_finish_trace, fvr_blacklist_trace]
    simp only [fvr_reset_trace]
    exact verify_steps_only_refl _
  · have h := fvr_requests_trace env client v n
      (ctx_parse_response env (fvr_reset n st).ctx (slot.data.getD "")
        (slot.data.getD "").length).1.len 0
      { fvr_reset n st with ctx := (ctx_parse_response env (fvr_reset n st).ctx
          (slot.data.getD "") (slot.data.getD "").length).1 }
    split
    · next st1 res heq =>
        rw [heq] at h
        simpa [fvr_reset_trace] using h
    · next st1 ex _ heq =>
        rw [heq] at h
        rw [fvr_finish_trace]
        simpa [fvr_reset_trace] using h

theorem fvr_node_trace (env : environment) (client : in3_t) (v : Option in3_verifier_t)
    (n : Nat) (st : fvr_state) :
    verify_steps_only (fvr_node env client v n st).1.trace st.trace := by
  unfold fvr_node
  simp only
  split
  · exact verify_steps_only_refl _
  · split
    · rw [fvr_error_slot_trace, fvr_times_trace]
      exact verify_steps_only_refl _
    · have h := fvr_ok_slot_trace env client v n
        (st.response[n]?.getD { state := IN3_WAITING, data := none }) (fvr_times n st)
      rw [fvr_times_trace] at h
      exact h

theorem fvr_nodes_trace (env : environment) (client : in3_t) (v : Option in3_verifier_t)
    (todo n : Nat) (st : fvr_state) :
    verify_steps_only (fvr_nodes env client v todo n st).1.trace st.trace := by
  induction todo generalizing n st with
  | zero =>
      unfold fvr_nodes
      split <;> exact verify_steps_only_refl _
  | succ todo ih =>
      unfold fvr_nodes
      have h := fvr_node_trace env client v n st
      split
      · next st1 res heq =>
          rw [heq] at h
          exact h
      · next st1 heq =>
          rw [heq] at h
          exact verify_steps_only_trans (ih (n + 1) st1) h

theorem find_valid_result_trace (env : environment) (client : in3_t) (ctx : in3_ctx_t)
    (required : List in3_ctx_t) (nodes_count : Nat) (response : List in3_response_t)
    (chain : in3_chain_t) (v : Option in3_verifier_t) :
    ∀ e ∈ (find_valid_result env client ctx required nodes_count response chain v).1.trace,
      ∃ n i, e = exec_event.verify n i := by
  unfold find_valid_result
  obtain ⟨l, hl, hp⟩ := fvr_nodes_trace env client v nodes_count 0
    { ctx := ctx, required := required, response := response, chain := chain,
      still_pending := false, last_validator_change := 0, currentBlock := 0, trace := [] }
  rw [hl]
  simpa using hp

theorem update_at_const_eq {α : Type} (l : List α) (n : Nat) (f : α → α) (x : α)
    (h : l[n]? = some x) : update_at l n (fun _ => f x) = update_at l n f := by
  induction l generalizing n with
  | nil => simp at h
  | cons y ys ih =>
      cases n with
      | zero =>
          simp at h
          simp [update_at, h]
      | succ n =>
          simp at h
          simp [update_at, ih n h]

theorem update_at_const_self {α : Type} (l : List α) (n : Nat) (x : α)
    (h : l[n]? = some x) : update_at l n (fun _ => x) = l := by
  induction l generalizing n with
  | nil => simp at h
  | cons y ys ih =>
      cases n with
      | zero =>
          simp at h
          simp [update_at, h]
      | succ n =>
          simp at h
          simp [update_at, ih n h]

theorem update_at_idem {α : Type} (l : List α) (n : Nat) (f : α → α)
    (hf : ∀ x, f (f x) = f x) : update_at (update_at l n f) n f = update_at l n f := by
  induction l generalizing n with
  | nil => simp [update_at]
  | cons y ys ih => cases n <;> simp [update_at, hf, ih]

theorem drop_weight_idem (m : node_match_t) : drop_weight (drop_weight m) = drop_weight m := rfl

theorem nodes_frame_refl (n : Nat) (l : List node_match_t) : nodes_frame n l l := Or.inl rfl

theorem nodes_frame_trans {n : Nat} {a b c : List node_match_t} (h1 : nodes_frame n a b)
    (h2 : nodes_frame n b c) : nodes_frame n a c := by
  rcases h1 with h1 | h1 <;> rcases h2 with h2 | h2
  · exact Or.inl (h1.trans h2)
  · exact Or.inr (h1.trans h2)
  · exact Or.inr (by rw [h1, h2])
  · exact Or.inr (by rw [h1, h2, update_at_idem _ _ _ drop_weight_idem])

theorem ctx_set_error_nodes (ctx : in3_ctx_t) (msg : String) (e : in3_ret_t) :
    (ctx_set_error ctx msg e).1.nodes = ctx.nodes := by
  unfold ctx_set_error
  split <;> rfl

theorem ctx_parse_response_nodes (env : environment) (ctx : in3_ctx_t) (d : String) (l : Nat) :
    (ctx_parse_response env ctx d l).1.nodes = ctx.nodes := by
  unfold ctx_parse_response
  simp only
  repeat' split
  all_goals simp [ctx_set_error_nodes]

theorem fvr_blacklist_nodes (env : environment) (n : Nat) (st : fvr_state) :
    nodes_frame n (fvr_blacklist env n st).ctx.nodes st.ctx.nodes := by
  unfold fvr_blacklist blacklist_node
  simp only
  cases hm : st.ctx.nodes[n]? with
  | none => exact Or.inl rfl
  | some m =>
      cases hw : m.weight with
      | none =>
          simp only [hw]
          exact Or.inl (update_at_const_self st.ctx.nodes n m hm)
      | some w =>
          simp only [hw]
          exact Or.inr (update_at_const_eq st.ctx.nodes n drop_weight m hm)

theorem fvr_reject_nodes (n : Nat) (st : fvr_state) :
    nodes_frame n (fvr_reject n st).ctx.nodes st.ctx.nodes := Or.inr rfl

theorem fvr_times_nodes (n : Nat) (st : fvr_state) :
    (fvr_times n st).ctx.nodes = st.ctx.nodes := by
  unfold fvr_times
  repeat' split
  all_goals rfl

theorem fvr_reset_nodes (n : Nat) (st : fvr_state) :
    (fvr_reset n st).ctx.nodes = st.ctx.nodes := by
  unfold fvr_reset
  simp only
  repeat' split
  all_goals rfl

theorem fvr_finish_nodes (env : environment) (client : in3_t) (n : Nat) (st : fvr_state) :
    (fvr_finish env client n st).1.ctx.nodes = st.ctx.nodes := by
  rw [fvr_finish_state, fvr_autoupdate_ctx]

theorem fvr_request_nodes (env : environment) (client : in3_t) (v : Option in3_verifier_t)
    (n i : Nat) (st : fvr_state) :
    nodes_frame n (fvr_request env client v n i st).1.ctx.nodes st.ctx.nodes := by
  unfold fvr_request
  simp only
  have hm : ∀ l : List node_match_t, nodes_frame n l (fvr_markers
      (d_get (st.ctx.responses.getD [])[i]? K_IN3) st).ctx.nodes →
      nodes_frame n l st.ctx.nodes := by
    intro c hc
    rw [fvr_markers_ctx] at hc
    exact hc
  repeat' split
  all_goals apply hm
  all_goals first
    | exact nodes_frame_refl _ _
    | exact nodes_frame_trans (fvr_blacklist_nodes _ _ _) (by exact nodes_frame_refl _ _)
    | exact nodes_frame_trans (fvr_reject_nodes _ _) (by exact nodes_frame_refl _ _)

theorem fvr_requests_nodes (env : environment) (client : in3_t) (v : Option in3_verifier_t)
    (n todo i : Nat) (st : fvr_state) :
    nodes_frame n (fvr_requests env client v n todo i st).1.ctx.nodes st.ctx.nodes := by
  induction todo generalizing i st with
  | zero => simp [fvr_requests, nodes_frame_refl]
  | succ todo ih =>
      unfold fvr_requests
      have h := fvr_request_nodes env client v n i st
      split
      · next st1 heq =>
          rw [heq] at h
          exact nodes_frame_trans (ih (i + 1) st1) h
      · exact h

theorem fvr_error_slot_nodes (env : environment) (client : in3_t) (n : Nat)
    (slot : in3_response_t) (st : fvr_state) :
    nodes_frame n (fvr_error_slot env client n slot st).1.ctx.nodes st.ctx.nodes := by
  unfold fvr_error_slot
  simp only
  split
  · exact nodes_frame_refl _ _
  · rw [fvr_finish_nodes]
    split <;> simp only [ctx_set_error_nodes] <;> exact fvr_blacklist_nodes _ _ _

theorem fvr_ok_slot_nodes (env : environment) (client : in3_t) (v : Option in3_verifier_t)
    (n : Nat) (slot : in3_response_t) (st : fvr_state) :
    nodes_frame n (fvr_ok_slot env client v n slot st).1.ctx.nodes st.ctx.nodes := by
  unfold fvr_ok_slot
  simp only
  split
  · rw [fvr_finish_nodes]
    have h := fvr_blacklist_nodes env n
      { fvr_reset n st with ctx := (ctx_parse_response env (fvr_reset n st).ctx
          (slot.data.getD "") (slot.data.getD "").length).1 }
    simpa [ctx_parse_response_nodes, fvr_reset_nodes] using h
  · have h := fvr_requests_nodes env client v n
      (ctx_parse_response env (fvr_reset n st).ctx (slot.data.getD "")
        (slot.data.getD "").length).1.len 0
      { fvr_reset n st with ctx := (ctx_parse_response env (fvr_reset n st).ctx
          (slot.data.getD "") (slot.data.getD "").length).1 }
    split
    · next st1 res heq =>
        rw [heq] at h
        simpa [ctx_parse_response_nodes, fvr_reset_nodes] using h
    · next st1 ex _ heq =>
        rw [heq] at h
        rw [fvr_finish_nodes]
        simpa [ctx_parse_response_nodes, fvr_reset_nodes] using h

theorem fvr_node_nodes (env : environment) (client : in3_t) (v : Option in3_verifier_t)
    (n : Nat) (st : fvr_state) :
    nodes_frame n (fvr_node env client v n st).1.ctx.nodes st.ctx.nodes := by
  unfold fvr_node
  simp only
  split
  · exact nodes_frame_refl _ _
  · split
    · have h := fvr_error_slot_nodes env client n
        (st.response[n]?.getD { state := IN3_WAITING, data := none }) (fvr_times n st)
      rwa [fvr_times_nodes] at h
    · have h := fvr_ok_slot_nodes env client v n
        (st.response[n]?.getD { state := IN3_WAITING, data := none }) (fvr_times n st)
      rwa [fvr_times_nodes] at h

theorem nodes_frame_length {n : Nat} {a b : List node_match_t} (h : nodes_frame n a b) :
    a.length = b.length := by
  rcases h with h | h
  · rw [h]
  · rw [h, update_at_length]

theorem nodes_frame_none {n : Nat} {a b : List node_match_t} (h : nodes_frame n a b)
    (hb : b[n]? = none) : a[n]? = none := by
  rcases h with h | h
  · rw [h, hb]
  · rw [h, update_at_getElem?_self, hb]; rfl

theorem nodes_frame_nil {n : Nat} {a : List node_match_t} (h : nodes_frame n a []) :
    a = [] := by
  rcases h with h | h
  · exact h
  · rw [h]; rfl

theorem fvr_finish_no_node (env : environment) (client : in3_t) (n : Nat) (st : fvr_state)
    (h : st.ctx.nodes[n]? = none) : (fvr_finish env client n st).2 = some IN3_OK := by
  unfold fvr_finish
  simp [h]

theorem fvr_node_no_node (env : environment) (client : in3_t) (v : Option in3_verifier_t)
    (n : Nat) (st : fvr_state) (h : st.ctx.nodes[n]? = none)
    (hn : (fvr_node env client v n st).2 = none) :
    (fvr_node env client v n st).1.still_pending = true := by
  unfold fvr_node at hn ⊢
  simp only at hn ⊢
  split
  · rfl
  · next hw =>
    rw [if_neg hw] at hn
    have ht : (fvr_times n st).ctx.nodes[n]? = none := by rw [fvr_times_nodes]; exact h
    split at hn
    · exfalso
      unfold fvr_error_slot at hn
      simp only [ht, is_blacklisted, Bool.false_eq_true, if_false] at hn
      rw [fvr_finish_no_node] at hn
      · simp at hn
      · have hb := nodes_frame_none (fvr_blacklist_nodes env n (fvr_times n st)) ht
        split <;> simpa [ctx_set_error_nodes] using hb
    · exfalso
      unfold fvr_ok_slot at hn
      simp only at hn
      have hp : (ctx_parse_response env (fvr_reset n (fvr_times n st)).ctx
          ((st.response[n]?.getD { state := IN3_WAITING, data := none }).data.getD "")
          ((st.response[n]?.getD { state := IN3_WAITING, data := none }).data.getD "").length).1.nodes[n]?
          = none := by
        rw [ctx_parse_response_nodes, fvr_reset_nodes]; exact ht
      split at hn
      · rw [fvr_finish_no_node] at hn
        · simp at hn
        · exact nodes_frame_none (fvr_blacklist_nodes env n _) hp
      · have hr := fvr_requests_nodes env client v n
          (ctx_parse_response env (fvr_reset n (fvr_times n st)).ctx
            ((st.response[n]?.getD { state := IN3_WAITING, data := none }).data.getD "")
            ((st.response[n]?.getD { state := IN3_WAITING, data := none }).data.getD "").length).1.len 0
          { fvr_reset n (fvr_times n st) with ctx := (ctx_parse_response env
              (fvr_reset n (fvr_times n st)).ctx
              ((st.response[n]?.getD { state := IN3_WAITING, data := none }).data.getD "")
              ((st.response[n]?.getD { state := IN3_WAITING, data := none }).data.getD "").length).1 }
        split at hn
        · simp at hn
        · next st1 ex _ heq =>
            rw [heq] at hr
            rw [fvr_finish_no_node] at hn
            · simp at hn
            · exact nodes_frame_none hr hp

/-- Without picked nodes the matcher (run on the single synthetic slot) never fails. -/
theorem find_valid_result_no_nodes (env : environment) (client : in3_t) (ctx : in3_ctx_t)
    (required : List in3_ctx_t) (response : List in3_response_t) (chain : in3_chain_t)
    (v : Option in3_verifier_t) (h : ctx.nodes = []) :
    (find_valid_result env client ctx required 1 response chain v).2 = IN3_OK
      ∨ (find_valid_result env client ctx required 1 response chain v).2 = IN3_WAITING := by
  unfold find_valid_result fvr_nodes
  split
  · next st1 res heq => exact fvr_node_ret _ _ _ _ _ _ _ heq
  · next st1 heq =>
      have hp := fvr_node_no_node env client v 0
        { ctx := ctx, required := required, response := response, chain := chain,
          still_pending := false, last_validator_change := 0, currentBlock := 0, trace := [] }
        (by simp [h]) (by rw [heq])
      rw [heq] at hp
      simp only at hp
      unfold fvr_nodes
      simp [hp]

theorem in3_ctx_execute_dispatch (env : environment) (fuel : Nat) (client : in3_t)
    (ctx : in3_ctx_t) (required : List in3_ctx_t) (client1 : in3_t)
    (required1 : List in3_ctx_t) (tr : List exec_event) (hrun : runnable ctx)
    (hsub : required_done env fuel client required client1 required1 tr) :
    in3_ctx_execute env (fuel + 1) client ctx required
      = execute_dispatch env (in3_ctx_execute env fuel) client1 ctx required1 tr := by
  obtain ⟨h1, h2, h3, h4⟩ := hrun
  have h2' : ctx.request_context.isNone = false := by
    cases hc : ctx.request_context <;> simp_all
  have h3' : (d_get ctx.requests.head? K_METHOD).isNone = false := by
    cases hc : d_get ctx.requests.head? K_METHOD <;> simp_all
  cases required with
  | nil =>
      obtain ⟨e1, e2, e3⟩ := hsub
      subst e1 e2 e3
      rw [in3_ctx_execute]
      simp [h1, h2', h3', h4]
  | cons r rest =>
      obtain ⟨sub, e0, e1, e2, e3, e4⟩ := hsub
      subst e2 e3 e4
      rw [in3_ctx_execute]
      simp [h1, h2', h3', h4, e0, e1]

theorem execute_rpc_with_response (env : environment) (client : in3_t) (ctx : in3_ctx_t)
    (required : List in3_ctx_t) (ci : Nat) (chain : in3_chain_t) (verifier : in3_verifier_t)
    (raw : List in3_response_t) (hrpc : rpc_ready env client ctx ci chain verifier)
    (hraw : ctx.raw_response = some raw) :
    execute_rpc env client ctx required
      = execute_rpc_match env client ci chain verifier ctx required
          [exec_event.find_chain client.chain_id, exec_event.get_verifier chain.type] := by
  obtain ⟨_, h2, h3, h4⟩ := hrpc
  unfold execute_rpc
  simp [h2, h3, h4, hraw, execute_rpc_pick, internal_handling]

theorem response_free_raw (ctx : in3_ctx_t) (raw : Option (List in3_response_t)) :
    response_free { ctx with raw_response := raw } = response_free ctx := rfl

theorem pick_signers_attempt (env : environment) (client : in3_t) (ctx : in3_ctx_t)
    (required : List in3_ctx_t) (request : Option d_token_t) :
    (pick_signers env client ctx required request).1.1.attempt = ctx.attempt
      ∧ (pick_signers env client ctx required request).1.1.raw_response = ctx.raw_response
      ∧ (pick_signers env client ctx required request).1.1.nodes = ctx.nodes := by
  unfold pick_signers
  simp only
  repeat' split
  all_goals first
    | exact ⟨rfl, rfl, rfl⟩
    | (unfold ctx_set_error; split <;> exact ⟨rfl, rfl, rfl⟩)

theorem ctx_set_error_attempt (ctx : in3_ctx_t) (msg : String) (e : in3_ret_t) :
    (ctx_set_error ctx msg e).1.attempt = ctx.attempt := (ctx_set_error_same ctx msg e).2.2.2.2.1

theorem execute_rpc_match_no_nodes (env : environment) (client : in3_t) (ci : Nat)
    (chain : in3_chain_t) (verifier : in3_verifier_t) (ctx : in3_ctx_t)
    (required : List in3_ctx_t) (tr : List exec_event) (hn : ctx.nodes = []) :
    ∃ r, execute_rpc_match env client ci chain verifier ctx required tr = .finished r
      ∧ r.ctx.attempt = ctx.attempt := by
  unfold execute_rpc_match
  cases hraw : ctx.raw_response with
  | none => exact ⟨_, rfl, rfl⟩
  | some raw =>
      have hc : matcher_count ctx = 1 := by simp [matcher_count, hn]
      simp only [hc]
      have hm := find_valid_result_no_nodes env client ctx required raw chain (some verifier) hn
      have hs := find_valid_result_same env client ctx required 1 raw chain (some verifier)
      rw [if_pos (by rcases hm with h | h; exact Or.inr h; exact Or.inl h)]
      exact ⟨_, rfl, hs.2.2.2.2.1⟩

theorem execute_rpc_match_waiting (env : environment) (client : in3_t) (ci : Nat)
    (chain : in3_chain_t) (verifier : in3_verifier_t) (ctx : in3_ctx_t)
    (required : List in3_ctx_t) (tr : List exec_event) (h : ctx.raw_response = none) :
    execute_rpc_match env client ci chain verifier ctx required tr
      = .finished ⟨IN3_WAITING, client, ctx, required, tr⟩ := by
  unfold execute_rpc_match
  simp only [h]

theorem execute_rpc_pick_fresh (env : environment) (client : in3_t) (ci : Nat)
    (chain : in3_chain_t) (verifier : in3_verifier_t) (ctx : in3_ctx_t)
    (required : List in3_ctx_t) (tr : List exec_event)
    (hn : ctx.raw_response = none ∨ ctx.nodes = []) :
    ∃ r, execute_rpc_pick env client ci chain verifier ctx required tr = .finished r
      ∧ r.ctx.attempt = ctx.attempt := by
  unfold execute_rpc_pick
  by_cases hc : ctx.raw_response.isNone = true ∧ ctx.nodes.isEmpty = true
  · simp only [hc, and_self, if_true]
    generalize env.in3_node_list_pick_nodes client ctx required client.request_count
      (data_node_filter env client ctx) = p
    by_cases hp : p.ret = IN3_OK
    · simp only [hp, if_true]
      have hs := pick_signers_attempt env client
        { ctx with nodes := p.nodes, error := p.error } p.required ctx.requests.head?
      split
      · exact ⟨_, rfl, by rw [ctx_set_error_attempt, hs.1]⟩
      · have hraw : ctx.raw_response = none := by
          cases h : ctx.raw_response <;> simp_all
        rw [execute_rpc_match_waiting _ _ _ _ _ _ _ _ (by rw [hs.2.1]; exact hraw)]
        exact ⟨_, rfl, hs.1⟩
    · simp only [hp, if_false]
      exact ⟨_, rfl, by rw [ctx_set_error_attempt]⟩
  · simp only [hc, if_false]
    rcases hn with hn | hn
    · rw [execute_rpc_match_waiting _ _ _ _ _ _ _ _ hn]
      exact ⟨_, rfl, rfl⟩
    · exact execute_rpc_match_no_nodes env client ci chain verifier ctx required tr hn

theorem internal_handling_frame (verifier : in3_verifier_t) (client : in3_t)
    (ctx : in3_ctx_t) (required : List in3_ctx_t) :
    (internal_handling verifier client ctx required).2.1.attempt = ctx.attempt
      ∧ (internal_handling verifier client ctx required).2.1.nodes = ctx.nodes
      ∧ (internal_handling verifier client ctx required).2.1.requests = ctx.requests := by
  unfold internal_handling pre_handle
  repeat' split
  all_goals exact ⟨rfl, rfl, rfl⟩

theorem execute_rpc_fresh (env : environment) (client : in3_t) (ctx : in3_ctx_t)
    (required : List in3_ctx_t) (hn : ctx.nodes = []) :
    ∃ r, execute_rpc env client ctx required = .finished r ∧ r.ctx.attempt = ctx.attempt := by
  unfold execute_rpc
  simp only
  split
  · exact ⟨_, rfl, by rw [ctx_set_error_attempt]⟩
  · split
    · exact ⟨_, rfl, by rw [ctx_set_error_attempt]⟩
    · next verifier _ =>
      have hf := internal_handling_frame verifier client ctx required
      split
      · exact ⟨_, rfl, by rw [ctx_set_error_attempt, hf.1]⟩
      · obtain ⟨r, hr, ha⟩ := execute_rpc_pick_fresh env client _ _ verifier
          (internal_handling verifier client ctx required).2.1
          (internal_handling verifier client ctx required).2.2.1 _ (Or.inr (hf.2.1.trans hn))
        exact ⟨r, hr, ha.trans hf.1⟩

/-- A context without picked nodes keeps its attempt counter through one
`in3_ctx_execute`: the matcher cannot fail on it. -/
theorem in3_ctx_execute_fresh (env : environment) (fuel : Nat) (client : in3_t)
    (ctx : in3_ctx_t) (required : List in3_ctx_t) (r : exec_result) (hn : ctx.nodes = [])
    (h : in3_ctx_execute env fuel client ctx required = some r) :
    r.ctx.attempt = ctx.attempt := by
  cases fuel with
  | zero => simp [in3_ctx_execute] at h
  | succ fuel =>
      have hd : ∀ (cl : in3_t) (rq : List in3_ctx_t) (tr : List exec_event),
          execute_dispatch env (in3_ctx_execute env fuel) cl ctx rq tr = some r →
          r.ctx.attempt = ctx.attempt := by
        intro cl rq tr hd
        unfold execute_dispatch at hd
        split at hd
        · obtain ⟨r1, hr1, ha⟩ := execute_rpc_fresh env cl ctx rq hn
          rw [hr1] at hd
          simp only [Option.some.injEq] at hd
          rw [← hd]
          exact ha
        · simp only [Option.some.injEq] at hd
          rw [← hd]
        · simp only [Option.some.injEq] at hd
          rw [← hd]
      simp only [in3_ctx_execute] at h
      split at h
      · simp only [Option.some.injEq] at h
        rw [← h]
      · split at h
        · simp only [Option.some.injEq] at h
          rw [← h]
          exact ctx_set_error_attempt _ _ _
        · split at h
          · simp only [Option.some.injEq] at h
            rw [← h]
          · split at h
            · exact hd _ _ _ h
            · split at h
              · simp at h
              · split at h
                · simp only [Option.some.injEq] at h
                  rw [← h]
                · exact hd _ _ _ h

/-! ### Retry and give-up -/

theorem give_up_frame (ctx : in3_ctx_t) (ret : in3_ret_t) :
    (give_up ctx ret).1.attempt = ctx.attempt ∧ (give_up ctx ret).1.nodes = ctx.nodes
      ∧ (give_up ctx ret).1.raw_response = ctx.raw_response
      ∧ (give_up ctx ret).1.responses = ctx.responses
      ∧ (give_up ctx ret).1.response_context = ctx.response_context := by
  unfold give_up ctx_set_error
  simp only
  repeat' split
  all_goals exact ⟨rfl, rfl, rfl, rfl, rfl⟩

theorem give_up_error (ctx : in3_ctx_t) (ret : in3_ret_t) :
    (give_up ctx ret).1.error.isSome = true := by
  unfold give_up
  by_cases ha : ctx_is_allowed_to_fail ctx = true <;>
    by_cases he : ctx.error.isSome = true <;>
    simp [ha, he, ctx_set_error]

theorem give_up_ret (ctx : in3_ctx_t) (ret : in3_ret_t) (h1 : ret < 0)
    (h2 : ret ≠ IN3_WAITING) :
    (give_up ctx ret).2 < 0 ∧ (give_up ctx ret).2 ≠ IN3_WAITING := by
  have h0 : ret ≠ 0 := fun h => by rw [h] at h1; exact absurd h1 (by decide)
  unfold give_up
  by_cases ha : ctx_is_allowed_to_fail ctx = true <;>
    by_cases he : ctx.error.isSome = true <;>
    simp [ha, he, ctx_set_error, h0, h1, h2]

theorem execute_rpc_match_retry (env : environment) (client : in3_t) (ci : Nat)
    (chain : in3_chain_t) (verifier : in3_verifier_t) (ctx : in3_ctx_t)
    (required : List in3_ctx_t) (tr : List exec_event) (raw : List in3_response_t)
    (hraw : ctx.raw_response = some raw)
    (h1 : (find_valid_result env client ctx required (matcher_count ctx) raw chain
      (some verifier)).2 ≠ IN3_OK)
    (h2 : (find_valid_result env client ctx required (matcher_count ctx) raw chain
      (some verifier)).2 ≠ IN3_WAITING)
    (hlt : ctx.attempt + 1 < client.max_attempts) :
    execute_rpc_match env client ci chain verifier ctx required tr
      = .again ⟨(find_valid_result env client ctx required (matcher_count ctx) raw chain
            (some verifier)).2,
          { client with chains := update_at client.chains ci (fun _ =>
            (find_valid_result env client ctx required (matcher_count ctx) raw chain
              (some verifier)).1.chain) },
          { response_free (find_valid_result env client ctx required (matcher_count ctx) raw
              chain (some verifier)).1.ctx with
            attempt := ctx.attempt + 1, error := none, verification_state := IN3_WAITING },
          (find_valid_result env client ctx required (matcher_count ctx) raw chain
            (some verifier)).1.required,
          tr ++ [exec_event.matcher (matcher_count ctx)]
            ++ (find_valid_result env client ctx required (matcher_count ctx) raw chain
              (some verifier)).1.trace
            ++ update_nodelist_cache { client with chains := update_at client.chains ci (fun _ =>
              (find_valid_result env client ctx required (matcher_count ctx) raw chain
                (some verifier)).1.chain) }⟩ := by
  have hatt := (find_valid_result_same env client ctx required (matcher_count ctx) raw chain
    (some verifier)).2.2.2.2.1
  unfold execute_rpc_match
  simp only [hraw]
  rw [if_neg (by rintro (h | h); exact h2 h; exact h1 h)]
  simp only [response_free, hatt]
  rw [if_pos hlt]

theorem execute_rpc_match_exhausted (env : environment) (client : in3_t) (ci : Nat)
    (chain : in3_chain_t) (verifier : in3_verifier_t) (ctx : in3_ctx_t)
    (required : List in3_ctx_t) (tr : List exec_event) (raw : List in3_response_t)
    (hraw : ctx.raw_response = some raw)
    (h1 : (find_valid_result env client ctx required (matcher_count ctx) raw chain
      (some verifier)).2 ≠ IN3_OK)
    (h2 : (find_valid_result env client ctx required (matcher_count ctx) raw chain
      (some verifier)).2 ≠ IN3_WAITING)
    (hge : ¬ ctx.attempt + 1 < client.max_attempts) :
    execute_rpc_match env client ci chain verifier ctx required tr
      = .finished ⟨(give_up { response_free (find_valid_result env client ctx required
              (matcher_count ctx) raw chain (some verifier)).1.ctx with
            attempt := ctx.attempt + 1 } IN3_EINVAL).2,
          { client with chains := update_at client.chains ci (fun _ =>
            (find_valid_result env client ctx required (matcher_count ctx) raw chain
              (some verifier)).1.chain) },
          (give_up { response_free (find_valid_result env client ctx required
              (matcher_count ctx) raw chain (some verifier)).1.ctx with
            attempt := ctx.attempt + 1 } IN3_EINVAL).1,
          (find_valid_result env client ctx required (matcher_count ctx) raw chain
            (some verifier)).1.required,
          tr ++ [exec_event.matcher (matcher_count ctx)]
            ++ (find_valid_result env client ctx required (matcher_count ctx) raw chain
              (some verifier)).1.trace
            ++ update_nodelist_cache { client with chains := update_at client.chains ci (fun _ =>
              (find_valid_result env client ctx required (matcher_count ctx) raw chain
                (some verifier)).1.chain) }⟩ := by
  have hatt := (find_valid_result_same env client ctx required (matcher_count ctx) raw chain
    (some verifier)).2.2.2.2.1
  have hinv : (find_valid_result env client ctx required (matcher_count ctx) raw chain
      (some verifier)).2 = IN3_EINVAL := by
    rcases find_valid_result_ret env client ctx required (matcher_count ctx) raw chain
      (some verifier) with h | h | h
    · exact absurd h h1
    · exact absurd h h2
    · exact h
  unfold execute_rpc_match
  simp only [hraw]
  rw [if_neg (by rintro (h | h); exact h2 h; exact h1 h)]
  simp only [response_free, hatt]
  rw [if_neg hge, hinv]

theorem in3_ctx_execute_rpc (env : environment) (fuel : Nat) (client client1 : in3_t)
    (ctx : in3_ctx_t) (required required1 : List in3_ctx_t) (tr : List exec_event) (ci : Nat)
    (chain : in3_chain_t) (verifier : in3_verifier_t) (raw : List in3_response_t)
    (hrun : runnable ctx)
    (hsub : required_done env fuel client required client1 required1 tr)
    (hrpc : rpc_ready env client1 ctx ci chain verifier) (hraw : ctx.raw_response = some raw) :
    in3_ctx_execute env (fuel + 1) client ctx required
      = match execute_rpc_match env client1 ci chain verifier ctx required1
          [exec_event.find_chain client1.chain_id, exec_event.get_verifier chain.type] with
        | .finished r => some { r with trace := tr ++ r.trace }
        | .again r =>
            (in3_ctx_execute env fuel r.client r.ctx r.required).map
              (fun r2 => { r2 with trace := tr ++ r.trace ++ r2.trace }) := by
  rw [in3_ctx_execute_dispatch env fuel client ctx required client1 required1 tr hrun hsub]
  unfold execute_dispatch
  rw [hrpc.1]
  simp only
  rw [execute_rpc_with_response env client1 ctx required1 ci chain verifier raw hrpc hraw]
  generalize execute_rpc_match env client1 ci chain verifier ctx required1
    [exec_event.find_chain client1.chain_id, exec_event.get_verifier chain.type] = s
  cases s with
  | finished r => rfl
  | again r =>
      simp only []
      cases h : in3_ctx_execute env fuel r.client r.ctx r.required <;> simp

theorem update_nodelist_cache_events (client : in3_t) :
    ∀ e ∈ update_nodelist_cache client, e = exec_event.cache_store client.chain_id := by
  intro e he
  unfold update_nodelist_cache at he
  split at he
  · simp at he
  · simpa using he

theorem give_up_not_allowed (ctx : in3_ctx_t) (ret : in3_ret_t)
    (h : ctx_is_allowed_to_fail ctx = false) :
    (ctx.error = none → (give_up ctx ret).2 = IN3_ELIMIT)
      ∧ (ctx.error.isSome = true →
          give_up ctx ret = (ctx, if ret ≠ 0 then ret else IN3_ERPC)) := by
  unfold give_up
  constructor
  · intro he
    simp [h, he, ctx_set_error]
  · intro he
    simp [h, he]

theorem give_up_allowed (ctx : in3_ctx_t) (ret : in3_ret_t)
    (h : ctx_is_allowed_to_fail ctx = true) :
    (ctx.error = none → (give_up ctx ret).2 = IN3_ELIMIT)
      ∧ (ctx.error.isSome = true → (give_up ctx ret).2 = IN3_EIGNORE)
      ∧ (give_up ctx ret).1.verification_state = IN3_EIGNORE := by
  unfold give_up
  refine ⟨?_, ?_, ?_⟩
  · intro he
    simp [h, he, ctx_set_error]
  · intro he
    simp [h, he]
  · by_cases he : ctx.error.isSome = true <;> simp [h, he, ctx_set_error]

theorem ctx_is_allowed_to_fail_congr (a b : in3_ctx_t) (h : a.requests = b.requests) :
    ctx_is_allowed_to_fail a = ctx_is_allowed_to_fail b := by
  unfold ctx_is_allowed_to_fail ctx_is_method
  rw [h]

/-! ### The attempt counter -/

theorem execute_rpc_match_counts (env : environment) (client : in3_t) (ci : Nat)
    (chain : in3_chain_t) (verifier : in3_verifier_t) (ctx : in3_ctx_t)
    (required : List in3_ctx_t) (tr : List exec_event) :
    rpc_step_counts client.max_attempts ctx.attempt
      (execute_rpc_match env client ci chain verifier ctx required tr) := by
  cases hraw : ctx.raw_response with
  | none =>
      rw [execute_rpc_match_waiting _ _ _ _ _ _ _ _ hraw]
      exact ⟨rfl, Or.inl rfl⟩
  | some raw =>
      have hatt := (find_valid_result_same env client ctx required (matcher_count ctx) raw
        chain (some verifier)).2.2.2.2.1
      by_cases hok : (find_valid_result env client ctx required (matcher_count ctx) raw chain
          (some verifier)).2 = IN3_WAITING
        ∨ (find_valid_result env client ctx required (matcher_count ctx) raw chain
          (some verifier)).2 = IN3_OK
      · unfold execute_rpc_match
        simp only [hraw]
        rw [if_pos hok]
        exact ⟨rfl, Or.inl hatt⟩
      · have h1 : (find_valid_result env client ctx required (matcher_count ctx) raw chain
            (some verifier)).2 ≠ IN3_OK := fun h => hok (Or.inr h)
        have h2 : (find_valid_result env client ctx required (matcher_count ctx) raw chain
            (some verifier)).2 ≠ IN3_WAITING := fun h => hok (Or.inl h)
        by_cases hlt : ctx.attempt + 1 < client.max_attempts
        · rw [execute_rpc_match_retry env client ci chain verifier ctx required tr raw hraw
            h1 h2 hlt]
          exact ⟨rfl, rfl, hlt⟩
        · rw [execute_rpc_match_exhausted env client ci chain verifier ctx required tr raw
            hraw h1 h2 hlt]
          exact ⟨rfl, Or.inr ⟨(give_up_frame _ _).1, hlt, give_up_error _ _⟩⟩

theorem rpc_step_counts_set_error (client : in3_t) (ctx : in3_ctx_t) (a : Nat)
    (msg : String) (e : in3_ret_t) (rq : List in3_ctx_t) (tr : List exec_event)
    (h : ctx.attempt = a) :
    rpc_step_counts client.max_attempts a
      (.finished ⟨(ctx_set_error ctx msg e).2, client, (ctx_set_error ctx msg e).1, rq, tr⟩) :=
  ⟨rfl, Or.inl (by rw [ctx_set_error_attempt]; exact h)⟩

theorem execute_rpc_pick_counts (env : environment) (client : in3_t) (ci : Nat)
    (chain : in3_chain_t) (verifier : in3_verifier_t) (ctx : in3_ctx_t)
    (required : List in3_ctx_t) (tr : List exec_event) :
    rpc_step_counts client.max_attempts ctx.attempt
      (execute_rpc_pick env client ci chain verifier ctx required tr) := by
  unfold execute_rpc_pick
  by_cases hc : ctx.raw_response.isNone = true ∧ ctx.nodes.isEmpty = true
  · simp only [hc, and_self, if_true]
    generalize env.in3_node_list_pick_nodes client ctx required client.request_count
      (data_node_filter env client ctx) = p
    have hs := pick_signers_attempt env client
      { ctx with nodes := p.nodes, error := p.error } p.required ctx.requests.head?
    by_cases hp : p.ret = IN3_OK
    · simp only [hp, if_true]
      split
      · exact rpc_step_counts_set_error _ _ _ _ _ _ _ hs.1
      · have h := execute_rpc_match_counts env client ci chain verifier
          (pick_signers env client { ctx with nodes := p.nodes, error := p.error } p.required
            ctx.requests.head?).1.1
          (pick_signers env client { ctx with nodes := p.nodes, error := p.error } p.required
            ctx.requests.head?).1.2
          (tr ++ [exec_event.pick_nodes client.request_count
              (data_node_filter env client ctx).props]
            ++ (pick_signers env client { ctx with nodes := p.nodes, error := p.error }
              p.required ctx.requests.head?).2.2)
        rw [hs.1] at h
        exact h
    · simp only [hp, if_false]
      exact rpc_step_counts_set_error _ _ _ _ _ _ _ rfl
  · simp only [hc, if_false]
    exact execute_rpc_match_counts _ _ _ _ _ _ _ _

theorem execute_rpc_counts (env : environment) (client : in3_t) (ctx : in3_ctx_t)
    (required : List in3_ctx_t) :
    rpc_step_counts client.max_attempts ctx.attempt (execute_rpc env client ctx required) := by
  unfold execute_rpc
  simp only
  split
  · exact rpc_step_counts_set_error _ _ _ _ _ _ _ rfl
  · split
    · exact rpc_step_counts_set_error _ _ _ _ _ _ _ rfl
    · next verifier _ =>
      have hf := internal_handling_frame verifier client ctx required
      split
      · exact rpc_step_counts_set_error _ _ _ _ _ _ _ hf.1
      · next ci chain _ _ _ _ =>
        have h := execute_rpc_pick_counts env client ci chain verifier
          (internal_handling verifier client ctx required).2.1
          (internal_handling verifier client ctx required).2.2.1
          ([exec_event.find_chain client.chain_id] ++ [exec_event.get_verifier chain.type]
            ++ (internal_handling verifier client ctx required).2.2.2)
        rw [hf.1] at h
        exact h

/-- One `in3_ctx_execute` keeps the attempt budget of the client and the
invariant `attempt_bounded`. -/
theorem in3_ctx_execute_bounded (env : environment) (fuel : Nat) :
    ∀ (client : in3_t) (ctx : in3_ctx_t) (required : List in3_ctx_t) (r : exec_result),
      in3_ctx_execute env fuel client ctx required = some r →
      r.client.max_attempts = client.max_attempts
        ∧ (attempt_bounded client ctx → attempt_bounded r.client r.ctx) := by
  induction fuel with
  | zero =>
      intro client ctx required r h
      simp [in3_ctx_execute] at h
  | succ fuel ih =>
      intro client ctx required r h
      have hd : ∀ (cl : in3_t) (rq : List in3_ctx_t) (tr : List exec_event),
          cl.max_attempts = client.max_attempts → ctx.error.isSome = false →
          execute_dispatch env (in3_ctx_execute env fuel) cl ctx rq tr = some r →
          r.client.max_attempts = client.max_attempts
            ∧ (attempt_bounded client ctx → attempt_bounded r.client r.ctx) := by
        intro cl rq tr hcl herr hd
        have hlt : attempt_bounded client ctx → ctx.attempt < client.max_attempts := by
          intro hb
          rcases Nat.lt_or_ge ctx.attempt client.max_attempts with h | h
          · exact h
          · have := hb.2 (Nat.le_antisymm hb.1 h)
            rw [herr] at this
            cases this
        unfold execute_dispatch at hd
        split at hd
        · have hc := execute_rpc_counts env cl ctx rq
          generalize execute_rpc env cl ctx rq = s at hc hd
          cases s with
          | finished r1 =>
              simp only [Option.some.injEq] at hd
              rw [← hd]
              obtain ⟨hm, hcase⟩ := hc
              refine ⟨hm.trans hcl, fun hb => ?_⟩
              have hl := hlt hb
              simp only [attempt_bounded, hm, hcl]
              rcases hcase with h | ⟨h1, h2, h3⟩
              · rw [h]
                exact ⟨Nat.le_of_lt hl, fun he => absurd he (Nat.ne_of_lt hl)⟩
              · rw [h1]
                exact ⟨hl, fun _ => h3⟩
          | again r1 =>
              obtain ⟨hm, h1, h2⟩ := hc
              simp only at hd
              cases h3 : in3_ctx_execute env fuel r1.client r1.ctx r1.required with
              | none => rw [h3] at hd; simp at hd
              | some r2 =>
                  rw [h3] at hd
                  simp only [Option.some.injEq] at hd
                  rw [← hd]
                  obtain ⟨i1, i2⟩ := ih _ _ _ _ h3
                  refine ⟨i1.trans (hm.trans hcl), fun _ => ?_⟩
                  apply i2
                  rw [hcl] at h2
                  simp only [attempt_bounded, hm, hcl, h1]
                  exact ⟨Nat.le_of_lt h2, fun he => absurd he (Nat.ne_of_lt h2)⟩
        · simp only [Option.some.injEq] at hd
          rw [← hd]
          exact ⟨hcl, fun hb => ⟨hcl ▸ hb.1, fun he => hb.2 (by rw [he, hcl])⟩⟩
        · simp only [Option.some.injEq] at hd
          rw [← hd]
          exact ⟨hcl, fun hb => ⟨hcl ▸ hb.1, fun he => hb.2 (by rw [he, hcl])⟩⟩
      simp only [in3_ctx_execute] at h
      split at h
      · simp only [Option.some.injEq] at h
        rw [← h]
        exact ⟨rfl, id⟩
      · next herr =>
        have herr' : ctx.error.isSome = false := by simpa using herr
        split at h
        · simp only [Option.some.injEq] at h
          rw [← h]
          refine ⟨rfl, fun hb => ⟨?_, fun _ => ?_⟩⟩
          · show (ctx_set_error ctx _ _).1.attempt ≤ _
            rw [ctx_set_error_attempt]
            exact hb.1
          · simp [ctx_set_error]
        · split at h
          · simp only [Option.some.injEq] at h
            rw [← h]
            exact ⟨rfl, id⟩
          · split at h
            · exact hd _ _ _ rfl herr' h
            · next r0 rest =>
              cases hs : in3_ctx_execute env fuel client r0 rest with
              | none => rw [hs] at h; simp at h
              | some sub =>
                  rw [hs] at h
                  simp only at h
                  have hsm := (ih _ _ _ _ hs).1
                  split at h
                  · simp only [Option.some.injEq] at h
                    rw [← h]
                    exact ⟨hsm, fun hb => ⟨hsm ▸ hb.1, fun he => hb.2 (by rw [he, hsm])⟩⟩
                  · exact hd _ _ _ hsm herr' h

theorem execute_rpc_resolved (env : environment) (client : in3_t) (ctx : in3_ctx_t)
    (required : List in3_ctx_t) (ci : Nat) (chain : in3_chain_t) (verifier : in3_verifier_t)
    (hrpc : rpc_ready env client ctx ci chain verifier)
    (hph : ¬ (internal_handling verifier client ctx required).1 < 0) :
    execute_rpc env client ctx required
      = execute_rpc_pick env client ci chain verifier
          (internal_handling verifier client ctx required).2.1
          (internal_handling verifier client ctx required).2.2.1
          ([exec_event.find_chain client.chain_id] ++ [exec_event.get_verifier chain.type]
            ++ (internal_handling verifier client ctx required).2.2.2) := by
  obtain ⟨_, h2, h3, h4⟩ := hrpc
  unfold execute_rpc
  simp only [h2, h3, h4, Option.some_bind, Option.map_some']
  rw [if_neg hph]

/-! ### What one turn of the node loop may touch -/

theorem check_autoupdate_weights (env : environment) (client : in3_t) (chain : in3_chain_t)
    (t : Option d_token_t) (node : Option node_match_t) :
    (check_autoupdate env client chain t node).weights = chain.weights := by
  unfold check_autoupdate
  simp only
  repeat' split
  all_goals rfl

theorem fvr_autoupdate_weights (env : environment) (client : in3_t) (n : Nat)
    (st : fvr_state) :
    (fvr_autoupdate env client n st).chain.weights = st.chain.weights := by
  unfold fvr_autoupdate
  simp only
  split
  · exact check_autoupdate_weights _ _ _ _ _
  · rfl

theorem update_waittime_le_cap (nodelist_block current_blk repl_latest avg_blktime : Nat) :
    update_waittime nodelist_block current_blk repl_latest avg_blktime ≤ 3600 := by
  unfold update_waittime
  split
  · exact Nat.zero_le _
  · simp only
    split
    · exact Nat.zero_le _
    · exact le_trans (Nat.mod_le _ _) (Nat.min_le_right _ _)

/-- The descriptor of the chain after `check_autoupdate`: the one written when
the auto-update flag is set and `chain.last_block < lastNodeList ≤ currentBlock`,
the old one in every other case. -/
theorem check_autoupdate_descriptor (env : environment) (client : in3_t) (chain : in3_chain_t)
    (response_in3 : Option d_token_t) (node : Option node_match_t) :
    (check_autoupdate env client chain response_in3 node).nodelist_upd8_params
      = if client.flags &&& FLAGS_AUTO_UPDATE_LIST ≠ 0
          ∧ ¬ d_get_longk response_in3 K_LAST_NODE_LIST > d_get_longk response_in3 K_CURRENT_BLOCK
          ∧ d_get_longk response_in3 K_LAST_NODE_LIST > chain.last_block then
          some {
            node := copy_node_address chain.nodelist_upd8_params
              (match node with
                | some m => m.node.address
                | none => [])
            exp_last_block := d_get_longk response_in3 K_LAST_NODE_LIST
            timestamp := (env.now + update_waittime
              (d_get_longk response_in3 K_LAST_NODE_LIST)
              (d_get_longk response_in3 K_CURRENT_BLOCK)
              client.replace_latest_block chain.avg_block_time) % 2 ^ 64 }
        else chain.nodelist_upd8_params := by
  unfold check_autoupdate
  by_cases h1 : client.flags &&& FLAGS_AUTO_UPDATE_LIST = 0
  · simp [h1]
  · by_cases h2 : d_get_longk response_in3 K_LAST_NODE_LIST
        > d_get_longk response_in3 K_CURRENT_BLOCK
    · simp [h1, h2]
    · by_cases h3 : d_get_longk response_in3 K_LAST_NODE_LIST > chain.last_block
      · simp only [h1, h2, h3, if_false, if_true, ne_eq, not_false_eq_true, and_self]
        cases hw : chain.whitelist with
        | none => rfl
        | some wl =>
            simp only
            split <;> rfl
      · simp only [h1, h2, h3, if_false, ne_eq, not_false_eq_true, and_false, and_self]
        cases hw : chain.whitelist with
        | none => simp only [hw]
        | some wl =>
            simp only [hw]
            split <;> rfl

/-! ### What a node's turn keeps after the "handle times" block -/

theorem update_at_map_kept {α β : Type} (l : List α) (n : Nat) (f : α → α) (g : α → β)
    (h : ∀ x, g (f x) = g x) : (update_at l n f).map g = l.map g := by
  induction l generalizing n with
  | nil => simp [update_at]
  | cons x xs ih => cases n <;> simp [update_at, ih, h]

theorem turn_kept_refl (st : fvr_state) : turn_kept st st := ⟨rfl, rfl, rfl⟩

theorem turn_kept_trans {a b c : fvr_state} (h1 : turn_kept a b) (h2 : turn_kept b c) :
    turn_kept a c :=
  ⟨h1.1.trans h2.1, h1.2.1.trans h2.2.1, h1.2.2.trans h2.2.2⟩

theorem ctx_set_error_times (ctx : in3_ctx_t) (msg : String) (e : in3_ret_t) :
    (ctx_set_error ctx msg e).1.times = ctx.times := by
  unfold ctx_set_error
  split <;> rfl

theorem ctx_parse_response_times (env : environment) (ctx : in3_ctx_t) (d : String) (l : Nat) :
    (ctx_parse_response env ctx d l).1.times = ctx.times := by
  unfold ctx_parse_response
  simp only
  repeat' split
  all_goals simp [ctx_set_error_times]

theorem fvr_blacklist_kept (env : environment) (n : Nat) (st : fvr_state) :
    turn_kept (fvr_blacklist env n st) st := by
  unfold fvr_blacklist blacklist_node
  simp only
  cases hm : st.ctx.nodes[n]? with
  | none => exact ⟨rfl, rfl, rfl⟩
  | some m =>
      cases hw : m.weight with
      | none =>
          simp only [hw]
          exact ⟨rfl, rfl, rfl⟩
      | some w =>
          simp only [hw]
          exact ⟨rfl, update_at_map_kept _ _ _ _ (fun _ => by simp only [reputation_counters]), rfl⟩

theorem fvr_reject_kept (n : Nat) (st : fvr_state) : turn_kept (fvr_reject n st) st :=
  ⟨rfl, rfl, rfl⟩

theorem fvr_reset_kept (n : Nat) (st : fvr_state) : turn_kept (fvr_reset n st) st := by
  unfold fvr_reset
  simp only
  cases hm : st.ctx.nodes[n]? with
  | none => exact ⟨rfl, rfl, rfl⟩
  | some m =>
      cases hw : m.weight with
      | none =>
          simp only [hw]
          exact ⟨rfl, rfl, rfl⟩
      | some w =>
          simp only [hw]
          exact ⟨rfl, update_at_map_kept _ _ _ _ (fun _ => by simp only [reputation_counters]), rfl⟩

theorem fvr_markers_kept (t : Option d_token_t) (st : fvr_state) :
    turn_kept (fvr_markers t st) st := by
  unfold fvr_markers
  split <;> exact ⟨rfl, rfl, rfl⟩

theorem fvr_autoupdate_kept (env : environment) (client : in3_t) (n : Nat) (st : fvr_state) :
    turn_kept (fvr_autoupdate env client n st) st := by
  refine ⟨by rw [fvr_autoupdate_ctx], by rw [fvr_autoupdate_weights], ?_⟩
  unfold fvr_autoupdate
  simp only
  split <;> rfl

theorem fvr_finish_kept (env : environment) (client : in3_t) (n : Nat) (st : fvr_state) :
    turn_kept (fvr_finish env client n st).1 st := by
  rw [fvr_finish_state]
  exact fvr_autoupdate_kept env client n st

theorem fvr_request_kept (env : environment) (client : in3_t) (v : Option in3_verifier_t)
    (n i : Nat) (st : fvr_state) : turn_kept (fvr_request env client v n i st).1 st := by
  unfold fvr_request
  simp only
  have hm := fvr_markers_kept (d_get (st.ctx.responses.getD [])[i]? K_IN3) st
  repeat' split
  all_goals refine turn_kept_trans ?_ hm
  all_goals first
    | exact turn_kept_refl _
    | exact ⟨rfl, rfl, rfl⟩
    | exact turn_kept_trans (fvr_blacklist_kept _ _ _) ⟨rfl, rfl, rfl⟩

theorem fvr_requests_kept (env : environment) (client : in3_t) (v : Option in3_verifier_t)
    (n todo i : Nat) (st : fvr_state) :
    turn_kept (fvr_requests env client v n todo i st).1 st := by
  induction todo generalizing i st with
  | zero => simp [fvr_requests, turn_kept_refl]
  | succ todo ih =>
      unfold fvr_requests
      have h := fvr_request_kept env client v n i st
      split
      · next st1 heq =>
          rw [heq] at h
          exact turn_kept_trans (ih (i + 1) st1) h
      · exact h

theorem fvr_error_slot_kept (env : environment) (client : in3_t) (n : Nat)
    (slot : in3_response_t) (st : fvr_state) :
    turn_kept (fvr_error_slot env client n slot st).1 st := by
  unfold fvr_error_slot
  simp only
  split
  · exact turn_kept_refl _
  · refine turn_kept_trans (fvr_finish_kept _ _ _ _) ?_
    have hb := fvr_blacklist_kept env n st
    split
    · exact ⟨by simp only [ctx_set_error_times]; exact hb.1, hb.2.1, hb.2.2⟩
    · exact ⟨by simp only [ctx_set_error_times]; exact hb.1, hb.2.1, hb.2.2⟩

theorem fvr_ok_slot_kept (env : environment) (client : in3_t) (v : Option in3_verifier_t)
    (n : Nat) (slot : in3_response_t) (st : fvr_state) :
    turn_kept (fvr_ok_slot env client v n slot st).1 st := by
  have hr := fvr_reset_kept n st
  have hp : turn_kept
      { fvr_reset n st with ctx := (ctx_parse_response env (fvr_reset n st).ctx
          (slot.data.getD "") (slot.data.getD "").length).1 } st :=
    ⟨by simp only [ctx_parse_response_times]; exact hr.1, hr.2.1, hr.2.2⟩
  unfold fvr_ok_slot
  simp only
  split
  · exact turn_kept_trans (fvr_finish_kept _ _ _ _)
      (turn_kept_trans (fvr_blacklist_kept _ _ _) hp)
  · have h := fvr_requests_kept env client v n
      (ctx_parse_response env (fvr_reset n st).ctx (slot.data.getD "")
        (slot.data.getD "").length).1.len 0
      { fvr_reset n st with ctx := (ctx_parse_response env (fvr_reset n st).ctx
          (slot.data.getD "") (slot.data.getD "").length).1 }
    split
    · next st1 res heq =>
        rw [heq] at h
        exact turn_kept_trans h hp
    · next st1 ex _ heq =>
        rw [heq] at h
        exact turn_kept_trans (fvr_finish_kept _ _ _ _) (turn_kept_trans h hp)

/-- A node's turn on a completed slot is the "handle times" block followed by
steps that keep the samples and the counters. -/
theorem fvr_node_kept (env : environment) (client : in3_t) (v : Option in3_verifier_t)
    (n : Nat) (st : fvr_state) (slot : in3_response_t) (hs : st.response[n]? = some slot)
    (hw : slot.state ≠ IN3_WAITING) :
    turn_kept (fvr_node env client v n st).1 (fvr_times n st) := by
  unfold fvr_node
  simp only [hs, Option.getD_some]
  rw [if_neg hw]
  split
  · exact fvr_error_slot_kept _ _ _ _ _
  · exact fvr_ok_slot_kept _ _ _ _ _ _

/-! ### A response without `result` while attempts remain -/

theorem fvr_nodes_step_none (env : environment) (client : in3_t)
    (v : Option in3_verifier_t) (todo n : Nat) (st : fvr_state)
    (h : (fvr_node env client v n st).2 = none) :
    fvr_nodes env client v (todo + 1) n st
      = fvr_nodes env client v todo (n + 1) (fvr_node env client v n st).1 := by
  rw [fvr_nodes]
  split
  · next st1 res heq =>
      rw [heq] at h
      cases h
  · next st1 heq => rw [heq]

theorem fvr_nodes_step_some (env : environment) (client : in3_t)
    (v : Option in3_verifier_t) (todo n : Nat) (st : fvr_state) (res : in3_ret_t)
    (h : (fvr_node env client v n st).2 = some res) :
    fvr_nodes env client v (todo + 1) n st = ((fvr_node env client v n st).1, res) := by
  rw [fvr_nodes]
  split
  · next st1 res1 heq =>
      rw [heq] at h
      cases h
      rw [heq]
  · next st1 heq =>
      rw [heq] at h
      cases h

theorem update_at_getD_ne {α : Type} (l : List α) (n i : Nat) (f : α → α) (d : α)
    (h : i ≠ n) : (update_at l n f).getD i d = l.getD i d := by
  rw [List.getD_eq_getElem?_getD, List.getD_eq_getElem?_getD, update_at_getElem?_ne _ _ _ _ h]

theorem add_bytes_to_hash_isSome (msg_hash : Option (List Nat)) (data : List Nat) :
    (add_bytes_to_hash msg_hash data).isSome = msg_hash.isSome := by
  cases msg_hash <;> rfl

theorem payload_id_hash (rpc_id_counter : Nat) (msg_hash : Option (List Nat))
    (request_token : Option d_token_t) :
    (payload_id rpc_id_counter msg_hash request_token).1.1 = "id"
      ∧ (payload_id rpc_id_counter msg_hash request_token).2.1
          = add_bytes_to_hash msg_hash
              (str_bytes (sb_text (payload_id rpc_id_counter msg_hash request_token).1.2)) := by
  unfold payload_id
  split
  · exact ⟨rfl, rfl⟩
  · split <;> exact ⟨rfl, rfl⟩

mutual
/-- The walk `add_token_to_hash` absorbs the bytes of the leaves of the token,
in document order. -/
theorem add_token_to_hash_leaves (cenv : composer_t) :
    ∀ (msg_hash : List Nat) (t : d_token_t),
      add_token_to_hash cenv msg_hash t
        = msg_hash ++ ((leaf_scalars t).map cenv.d_to_bytes).flatten
  | msg_hash, .array items => by
      rw [add_token_to_hash, leaf_scalars]
      exact add_items_to_hash_leaves cenv msg_hash items
  | msg_hash, .object props => by
      rw [add_token_to_hash, leaf_scalars]
      exact add_props_to_hash_leaves cenv msg_hash props
  | msg_hash, .null => by simp [add_token_to_hash, leaf_scalars]
  | msg_hash, .boolean b => by simp [add_token_to_hash, leaf_scalars, sha3_Update]
  | msg_hash, .integer n => by simp [add_token_to_hash, leaf_scalars, sha3_Update]
  | msg_hash, .string s => by simp [add_token_to_hash, leaf_scalars, sha3_Update]
  | msg_hash, .bytes b => by simp [add_token_to_hash, leaf_scalars, sha3_Update]
theorem add_items_to_hash_leaves (cenv : composer_t) :
    ∀ (msg_hash : List Nat) (items : List d_token_t),
      add_items_to_hash cenv msg_hash items
        = msg_hash ++ ((leaf_scalars_items items).map cenv.d_to_bytes).flatten
  | msg_hash, [] => by simp [add_items_to_hash, leaf_scalars_items]
  | msg_hash, t :: rest => by
      rw [add_items_to_hash, leaf_scalars_items, add_items_to_hash_leaves cenv _ rest,
        add_token_to_hash_leaves cenv msg_hash t]
      simp
theorem add_props_to_hash_leaves (cenv : composer_t) :
    ∀ (msg_hash : List Nat) (props : List (String × d_token_t)),
      add_props_to_hash cenv msg_hash props
        = msg_hash ++ ((leaf_scalars_props props).map cenv.d_to_bytes).flatten
  | msg_hash, [] => by simp [add_props_to_hash, leaf_scalars_props]
  | msg_hash, p :: rest => by
      rw [add_props_to_hash, leaf_scalars_props, add_props_to_hash_leaves cenv _ rest,
        add_token_to_hash_leaves cenv msg_hash p.2]
      simp
end

theorem payload_params_hash (cenv : composer_t) (ctx : in3_ctx_t)
    (msg_hash : Option (List Nat)) (request_token : Option d_token_t)
    (params : String × sb_value) (hp : Option (List Nat))
    (h : payload_params cenv ctx msg_hash request_token = some (params, hp)) :
    params.1 = "params"
      ∧ hp = msg_hash.map (fun s => s ++
          (match d_get request_token K_PARAMS with
            | some t => ((leaf_scalars t).map cenv.d_to_bytes).flatten
            | none => [])) := by
  unfold payload_params at h
  cases hk : d_get request_token K_PARAMS with
  | none =>
      rw [hk] at h
      simp only [Option.some.injEq, Prod.mk.injEq] at h
      obtain ⟨h1, h2⟩ := h
      rw [← h1, ← h2]
      cases msg_hash <;> simp
  | some t =>
      rw [hk] at h
      simp only at h
      split at h
      · cases h
      · simp only [Option.some.injEq, Prod.mk.injEq] at h
        obtain ⟨h1, h2⟩ := h
        rw [← h1, ← h2]
        cases msg_hash with
        | none => exact ⟨rfl, rfl⟩
        | some s =>
            refine ⟨rfl, ?_⟩
            simp only [Option.map_some', add_token_to_hash_leaves]

/-- What a composed object is made of. -/
theorem payload_object_composed (cenv : composer_t) (client : in3_t) (ctx : in3_ctx_t)
    (multichain : Bool) (proof : in3_proof_t) (rpc_id_counter : Nat)
    (request_token : Option d_token_t) (obj : payload_request) (counter : Nat)
    (h : payload_object cenv client ctx multichain proof rpc_id_counter request_token
      = .composed obj counter) :
    ∃ (t : d_token_t) (params : String × sb_value),
      d_get request_token K_METHOD = some t
      ∧ payload_params cenv ctx
          (add_bytes_to_hash
            (payload_id rpc_id_counter (if client.key.isSome then some [] else none)
              request_token).2.1
            (str_bytes ((d_string (some t)).getD ""))) request_token
          = some (params, obj.hashed)
      ∧ obj.members
          = [(payload_id rpc_id_counter (if client.key.isSome then some [] else none)
                request_token).1,
              ("jsonrpc", .quoted "2.0"), ("method", .quoted ((d_string (some t)).getD "")),
              params]
      ∧ (proof ≠ .PROOF_NONE ∨ obj.hashed.isSome = true →
          obj.in3 = payload_in3 cenv client ctx multichain proof obj.hashed request_token
            ∧ obj.in3.isSome = true)
      ∧ (¬ (proof ≠ .PROOF_NONE ∨ obj.hashed.isSome = true) → obj.in3 = none) := by
  unfold payload_object at h
  simp only at h
  split at h
  · cases h
  · next t ht =>
      split at h
      · cases h
      · next params hp hpar =>
          split at h
          · next hcond =>
              split at h
              · cases h
              · next in3 hin3 =>
                  simp only [payload_step.composed.injEq] at h
                  obtain ⟨h1, _⟩ := h
                  subst h1
                  exact ⟨t, params, ht, hpar, rfl, fun _ => ⟨hin3.symm, rfl⟩,
                    fun hn => absurd hcond hn⟩
          · next hcond =>
              simp only [payload_step.composed.injEq] at h
              obtain ⟨h1, _⟩ := h
              subst h1
              exact ⟨t, params, ht, hpar, rfl, fun hc => absurd hc hcond, fun _ => rfl⟩

theorem payload_object_hashed_isSome (cenv : composer_t) (client : in3_t) (ctx : in3_ctx_t)
    (multichain : Bool) (proof : in3_proof_t) (rpc_id_counter : Nat)
    (request_token : Option d_token_t) (obj : payload_request) (counter : Nat)
    (h : payload_object cenv client ctx multichain proof rpc_id_counter request_token
      = .composed obj counter) :
    obj.hashed.isSome = client.key.isSome := by
  obtain ⟨t, params, _, hpar, _, _, _⟩ := payload_object_composed cenv client ctx multichain
    proof rpc_id_counter request_token obj counter h
  rw [(payload_params_hash cenv ctx _ request_token params obj.hashed hpar).2,
    (payload_id_hash _ _ _).2]
  cases client.key <;> rfl

/-- The bytes hashed for a composed object, when the client holds a key: the id
as rendered, the method, and the leaves of the params. -/
theorem payload_object_digest (cenv : composer_t) (client : in3_t) (ctx : in3_ctx_t)
    (multichain : Bool) (proof : in3_proof_t) (rpc_id_counter : Nat)
    (request_token : Option d_token_t) (obj : payload_request) (counter : Nat)
    (hkey : client.key.isSome = true)
    (h : payload_object cenv client ctx multichain proof rpc_id_counter request_token
      = .composed obj counter) :
    ∃ idv, obj.members.head? = some ("id", idv)
      ∧ obj.hashed = some (digest_stream cenv (sb_text idv)
          ((d_get_stringk request_token K_METHOD).getD "") (d_get request_token K_PARAMS)) := by
  obtain ⟨t, params, ht, hpar, hmem, _, _⟩ := payload_object_composed cenv client ctx
    multichain proof rpc_id_counter request_token obj counter h
  obtain ⟨i1, i2⟩ := payload_id_hash rpc_id_counter
    (if client.key.isSome then some [] else none) request_token
  refine ⟨(payload_id rpc_id_counter (if client.key.isSome then some [] else none)
    request_token).1.2, ?_, ?_⟩
  · rw [hmem]
    simp only [List.head?_cons, Option.some.injEq]
    exact Prod.ext i1 rfl
  · rw [(payload_params_hash cenv ctx _ request_token params obj.hashed hpar).2, i2]
    simp only [hkey, if_true, add_bytes_to_hash, sha3_Update, Option.map_some',
      List.nil_append, digest_stream, d_get_stringk, ht, List.append_assoc]

theorem mem_segment_iff (c : Prop) [Decidable c] (k k1 : String) (v v1 : sb_value) :
    (k, v) ∈ (if c then [(k1, v1)] else []) ↔ c ∧ k = k1 ∧ v = v1 := by
  split <;> simp [*]

theorem payload_whitelist_key (chain : Option in3_chain_t) (k : String) (v : sb_value)
    (h : (k, v) ∈ payload_whitelist chain) : k = "whiteListContract" := by
  unfold payload_whitelist at h
  split at h
  · simp only [List.mem_singleton, Prod.mk.injEq] at h
    exact h.1
  · cases h

theorem payload_verified_hashes_key (client : in3_t) (chain : Option in3_chain_t)
    (k : String) (v : sb_value) (h : (k, v) ∈ payload_verified_hashes client chain) :
    k = "verifiedHashes" := by
  unfold payload_verified_hashes at h
  split at h
  · split at h
    · simp only [List.mem_singleton, Prod.mk.injEq] at h
      exact h.1
    · cases h
  · cases h

theorem payload_options_key (client : in3_t) (ctx : in3_ctx_t) (proof : in3_proof_t)
    (request_token : Option d_token_t) (k : String) (v : sb_value)
    (h : (k, v) ∈ payload_options client ctx proof request_token) :
    k ≠ "verification" ∧ k ≠ "sig" := by
  unfold payload_options at h
  simp only [List.mem_append, mem_segment_iff] at h
  rcases h with (((((h | h) | h) | h) | h) | h) | h
  all_goals
    rw [h.2.1]
    exact ⟨by decide, by decide⟩

theorem payload_sig_members (cenv : composer_t) (client : in3_t)
    (msg_hash : Option (List Nat)) (sig : List (String × sb_value))
    (h : payload_sig cenv client msg_hash = some sig) :
    (∀ k v, (k, v) ∈ sig → k = "sig") ∧ ((∃ v, ("sig", v) ∈ sig) ↔ msg_hash.isSome = true) := by
  unfold payload_sig at h
  cases msg_hash with
  | none =>
      simp only [Option.some.injEq] at h
      subst h
      simp
  | some s =>
      simp only at h
      split at h
      · cases h
      · simp only [Option.some.injEq] at h
        subst h
        simp

/-- The `verification` and `sig` members of an `in3` object. -/
theorem payload_in3_members (cenv : composer_t) (client : in3_t) (ctx : in3_ctx_t)
    (multichain : Bool) (proof : in3_proof_t) (msg_hash : Option (List Nat))
    (request_token : Option d_token_t) (in3 : List (String × sb_value))
    (h : payload_in3 cenv client ctx multichain proof msg_hash request_token = some in3) :
    (∀ v, ("verification", v) ∈ in3
        ↔ v = .quoted (if proof = .PROOF_NONE then "never" else "proof"))
      ∧ ((∃ v, ("sig", v) ∈ in3) ↔ msg_hash.isSome = true) := by
  unfold payload_in3 at h
  simp only at h
  cases hs : payload_sig cenv client msg_hash with
  | none =>
      rw [hs] at h
      cases h
  | some sig =>
      rw [hs] at h
      simp only [Option.some.injEq] at h
      subst h
      obtain ⟨s1, s2⟩ := payload_sig_members cenv client msg_hash sig hs
      have hw := payload_whitelist_key
        ((in3_find_chain client client.chain_id).bind (fun ci => client.chains[ci]?))
      have hv := payload_verified_hashes_key client
        ((in3_find_chain client client.chain_id).bind (fun ci => client.chains[ci]?))
      have ho := payload_options_key client ctx proof request_token
      constructor
      · intro v
        simp only [List.mem_append, List.mem_cons, Prod.mk.injEq, mem_segment_iff]
        constructor
        · intro h
          rcases h with (((((h | h | h) | h) | h) | h) | h) | h
          · exact h.2
          · exact absurd h.1 (by decide)
          · cases h
          · exact absurd h.2.1 (by decide)
          · exact absurd (hw _ _ h) (by decide)
          · exact absurd (s1 _ _ h) (by decide)
          · exact absurd rfl (ho _ _ h).1
          · exact absurd (hv _ _ h) (by decide)
        · intro h
          exact Or.inl (Or.inl (Or.inl (Or.inl (Or.inl (Or.inl ⟨trivial, h⟩)))))
      · rw [← s2]
        constructor
        · rintro ⟨v, h⟩
          simp only [List.mem_append, List.mem_cons, Prod.mk.injEq, mem_segment_iff] at h
          rcases h with (((((h | h | h) | h) | h) | h) | h) | h
          · exact absurd h.1 (by decide)
          · exact absurd h.1 (by decide)
          · cases h
          · exact absurd h.2.1 (by decide)
          · exact absurd (hw _ _ h) (by decide)
          · exact ⟨v, h⟩
          · exact absurd rfl (ho _ _ h).2
          · exact absurd (hv _ _ h) (by decide)
        · rintro ⟨v, h⟩
          exact ⟨v, by
            simp only [List.mem_append]
            exact Or.inl (Or.inl (Or.inr h))⟩

theorem payload_loop_failed (cenv : composer_t) (client : in3_t) (multichain : Bool)
    (proof : in3_proof_t) (todo i : Nat) (ctx : in3_ctx_t) (rpc_id_counter : Nat)
    (sb : List payload_request) (msg : String) (counter : Nat)
    (h : payload_object cenv client ctx multichain proof rpc_id_counter ctx.requests[i]?
      = .failed msg counter) :
    payload_loop cenv client multichain proof (todo + 1) i ctx rpc_id_counter sb
      = ⟨IN3_EINVAL, { ctx with error := some msg }, sb, counter⟩ := by
  rw [payload_loop, h]
  rfl

theorem payload_loop_composed (cenv : composer_t) (client : in3_t) (multichain : Bool)
    (proof : in3_proof_t) (todo i : Nat) (ctx : in3_ctx_t) (rpc_id_counter : Nat)
    (sb : List payload_request) (obj : payload_request) (counter : Nat)
    (h : payload_object cenv client ctx multichain proof rpc_id_counter ctx.requests[i]?
      = .composed obj counter) :
    payload_loop cenv client multichain proof (todo + 1) i ctx rpc_id_counter sb
      = payload_loop cenv client multichain proof todo (i + 1) ctx counter (sb ++ [obj]) := by
  rw [payload_loop, h]

/-- The objects the loop of `ctx_create_payload` adds: one for each request, in
order, as long as no request fails. -/
theorem payload_loop_objects (cenv : composer_t) (client : in3_t) (multichain : Bool)
    (proof : in3_proof_t) :
    ∀ (todo i : Nat) (ctx : in3_ctx_t) (rpc_id_counter : Nat) (sb : List payload_request),
      ∃ objs,
        (payload_loop cenv client multichain proof todo i ctx rpc_id_counter sb).payload
          = sb ++ objs
        ∧ ((payload_loop cenv client multichain proof todo i ctx rpc_id_counter sb).ret
            = IN3_OK → objs.length = todo)
        ∧ ∀ j obj, objs[j]? = some obj →
            ∃ c c1, payload_object cenv client ctx multichain proof c ctx.requests[i + j]?
              = .composed obj c1 := by
  intro todo
  induction todo with
  | zero =>
      intro i ctx rpc_id_counter sb
      exact ⟨[], by simp [payload_loop], fun _ => rfl, fun j obj h => by simp at h⟩
  | succ todo ih =>
      intro i ctx rpc_id_counter sb
      cases hs : payload_object cenv client ctx multichain proof rpc_id_counter
          ctx.requests[i]? with
      | failed msg counter =>
          rw [payload_loop_failed cenv client multichain proof todo i ctx rpc_id_counter sb
            msg counter hs]
          exact ⟨[], by simp, fun h => by simp [IN3_EINVAL, IN3_OK] at h, fun j obj h => by simp at h⟩
      | composed obj counter =>
          rw [payload_loop_composed cenv client multichain proof todo i ctx rpc_id_counter sb
            obj counter hs]
          obtain ⟨objs, h1, h2, h3⟩ := ih (i + 1) ctx counter (sb ++ [obj])
          refine ⟨obj :: objs, by rw [h1]; simp, fun h => by rw [List.length_cons, h2 h], ?_⟩
          intro j o ho
          cases j with
          | zero =>
              simp only [List.getElem?_cons_zero, Option.some.injEq] at ho
              subst ho
              exact ⟨rpc_id_counter, counter, hs⟩
          | succ j =>
              simp only [List.getElem?_cons_succ] at ho
              obtain ⟨c, c1, hc⟩ := h3 j o ho
              refine ⟨c, c1, ?_⟩
              have : i + (j + 1) = i + 1 + j := by omega
              rw [this]
              exact hc

theorem payload_object_binary (cenv : composer_t) (client : in3_t) (ctx : in3_ctx_t)
    (multichain : Bool) (proof : in3_proof_t) (rpc_id_counter : Nat)
    (request_token : Option d_token_t)
    (hbin : (ctx.request_context.map (fun d => d.is_binary)).getD false = true)
    (hp : (d_get request_token K_PARAMS).isSome = true) :
    ∃ msg counter, payload_object cenv client ctx multichain proof rpc_id_counter request_token
      = .failed msg counter := by
  unfold payload_object
  simp only
  split
  · exact ⟨_, _, rfl⟩
  · have hnone : ∀ mh, payload_params cenv ctx mh request_token = none := by
      intro mh
      unfold payload_params
      cases hk : d_get request_token K_PARAMS with
      | none => rw [hk] at hp; cases hp
      | some t => simp [hbin]
    rw [hnone]
    exact ⟨_, _, rfl⟩

/-- A binary request document with a request that has params stops the loop of
`ctx_create_payload` with an error, at that request or before it. -/
theorem payload_loop_binary (cenv : composer_t) (client : in3_t) (multichain : Bool)
    (proof : in3_proof_t) (ctx : in3_ctx_t) (k : Nat)
    (hbin : (ctx.request_context.map (fun d => d.is_binary)).getD false = true)
    (hp : (d_get ctx.requests[k]? K_PARAMS).isSome = true) :
    ∀ (todo i rpc_id_counter : Nat) (sb : List payload_request), i ≤ k → k < i + todo →
      (payload_loop cenv client multichain proof todo i ctx rpc_id_counter sb).ret = IN3_EINVAL
        ∧ (payload_loop cenv client multichain proof todo i ctx rpc_id_counter
            sb).ctx.error.isSome = true := by
  intro todo
  induction todo with
  | zero =>
      intro i _ _ h1 h2
      omega
  | succ todo ih =>
      intro i rpc_id_counter sb h1 h2
      cases hs : payload_object cenv client ctx multichain proof rpc_id_counter
          ctx.requests[i]? with
      | failed msg counter =>
          rw [payload_loop_failed cenv client multichain proof todo i ctx rpc_id_counter sb
            msg counter hs]
          exact ⟨rfl, rfl⟩
      | composed obj counter =>
          rw [payload_loop_composed cenv client multichain proof todo i ctx rpc_id_counter sb
            obj counter hs]
          have hik : i ≠ k := by
            rintro rfl
            obtain ⟨msg, c, hf⟩ := payload_object_binary cenv client ctx multichain proof
              rpc_id_counter ctx.requests[i]? hbin hp
            rw [hf] at hs
            cases hs
          exact ih (i + 1) counter (sb ++ [obj]) (by omega) (by omega)

/-- The bytes hashed for the object at position `i` of the payload, when the
client holds a key: the id as rendered, the method, the leaves of the params. -/
theorem ctx_create_payload_hashed (env : environment) (cenv : composer_t) (client : in3_t)
    (ctx : in3_ctx_t) (multichain : Bool) (rpc_id_counter : Nat)
    (hkey : client.key.isSome = true) (i : Nat) (obj : payload_request)
    (hobj : (ctx_create_payload env cenv client ctx multichain rpc_id_counter).payload[i]?
      = some obj) :
    ∃ idv, obj.members.head? = some ("id", idv)
      ∧ obj.hashed = some (digest_stream cenv (sb_text idv)
          ((d_get_stringk ctx.requests[i]? K_METHOD).getD "")
          (d_get ctx.requests[i]? K_PARAMS)) := by
  obtain ⟨objs, h1, _, h3⟩ := payload_loop_objects cenv client multichain
    (env.in3_ctx_get_proof client ctx) ctx.len 0 ctx rpc_id_counter []
  unfold ctx_create_payload at hobj
  rw [h1, List.nil_append] at hobj
  obtain ⟨c, c1, hc⟩ := h3 i obj hobj
  rw [Nat.zero_add] at hc
  exact payload_object_digest cenv client ctx multichain (env.in3_ctx_get_proof client ctx) c
    ctx.requests[i]? obj c1 hkey hc

/-! ## The HTTP-only option -/

theorem https_data : "https://".data = ['h', 't', 't', 'p', 's', ':', '/', '/'] := rfl

theorem http_data : "http://".data = ['h', 't', 't', 'p', ':', '/', '/'] := rfl

/-- What `convert_to_http_url` returns for a URL that starts with `https://`. -/
theorem convert_to_http_url_https (u : String)
    (h : "https://".data.isPrefixOf u.data = true) :
    convert_to_http_url u = String.mk ("http://".data ++ u.data.drop 8) := by
  obtain ⟨t, ht⟩ := List.isPrefixOf_iff_prefix.mp h
  unfold convert_to_http_url
  rw [if_pos h, ← ht, https_data, http_data]
  rfl

/-- What `convert_to_http_url` returns for any other URL. -/
theorem convert_to_http_url_other (u : String)
    (h : "https://".data.isPrefixOf u.data = false) : convert_to_http_url u = u := by
  unfold convert_to_http_url
  rw [if_neg (by simp [h])]

/-- The result of `convert_to_http_url` does not start with `https://`. -/
theorem convert_to_http_url_no_https (u : String) :
    "https://".data.isPrefixOf (convert_to_http_url u).data = false := by
  cases h : "https://".data.isPrefixOf u.data with
  | false => rw [convert_to_http_url_other u h, h]
  | true =>
      rw [convert_to_http_url_https u h, https_data, http_data]
      simp [List.isPrefixOf]

/-- The URLs of the request `in3_create_request` returns. -/
theorem in3_create_request_urls (env : environment) (cenv : composer_t) (client : in3_t)
    (ctx : in3_ctx_t) (rpc_id_counter : Nat) (req : in3_request_t)
    (h : (in3_create_request env cenv client ctx rpc_id_counter).1 = some req) :
    req.urls = ctx.nodes.map (fun n =>
      if client.flags &&& FLAGS_HTTP ≠ 0 then convert_to_http_url n.node.url
      else n.node.url) := by
  unfold in3_create_request at h
  simp only at h
  split at h
  · cases h
  · simp only [Option.some.injEq] at h
    rw [← h]

/-! ## Sub-context chains -/

/-- The loop of `ctx_find_required` on a chain whose contexts all have a request
array: with more turns than contexts it returns the chain from the first
context with the method on. -/
theorem ctx_find_required_dropWhile (search_method : String) :
    ∀ (required : List in3_ctx_t) (fuel : Nat), (∀ c ∈ required, c.requests ≠ []) →
      required.length < fuel →
      ctx_find_required fuel required search_method
        = some (required.dropWhile (fun c => !ctx_is_method c search_method)) := by
  intro required
  induction required with
  | nil =>
      intro fuel _ hfuel
      cases fuel with
      | zero => omega
      | succ fuel => rfl
  | cons c rest ih =>
      intro fuel hreq hfuel
      cases fuel with
      | zero => omega
      | succ fuel =>
          have hc : c.requests.isEmpty = false := by
            have := hreq c (List.mem_cons_self _ _)
            cases hr : c.requests with
            | nil => exact absurd hr this
            | cons _ _ => rfl
          rw [ctx_find_required]
          simp only [hc, Bool.false_eq_true, if_false]
          cases hm : ctx_is_method c search_method with
          | true => simp [List.dropWhile, hm]
          | false =>
              simp only [Bool.false_eq_true, if_false, List.dropWhile, hm, Bool.not_false]
              exact ih fuel (fun x hx => hreq x (List.mem_cons_of_mem _ hx))
                (by simp only [List.length_cons] at hfuel; omega)

theorem dropWhile_append_found {α : Type} (p : α → Bool) (pre : List α) (c : α)
    (rest : List α) (hpre : ∀ x ∈ pre, p x = true) (hc : p c = false) :
    (pre ++ c :: rest).dropWhile p = c :: rest := by
  induction pre with
  | nil => simp [List.dropWhile, hc]
  | cons x xs ih =>
      simp only [List.cons_append, List.dropWhile, hpre x (List.mem_cons_self _ _)]
      exact ih (fun y hy => hpre y (List.mem_cons_of_mem _ hy))

theorem dropWhile_all {α : Type} (p : α → Bool) (l : List α) (h : ∀ x ∈ l, p x = true) :
    l.dropWhile p = [] := by
  induction l with
  | nil => rfl
  | cons x xs ih =>
      simp only [List.dropWhile, h x (List.mem_cons_self _ _)]
      exact ih (fun y hy => h y (List.mem_cons_of_mem _ hy))

/-- The addresses `free_ctx_intern` frees: those of the chain, last one first. -/
theorem free_ctx_intern_freed (chain : ctx_chain_t) (is_sub : Bool) :
    (free_ctx_intern chain is_sub).1 = (chain.map Prod.fst).reverse := by
  induction chain generalizing is_sub with
  | nil => rfl
  | cons c rest ih => simp [free_ctx_intern, ih]

/-- The loop of `ctx_remove_required` finds the child exactly when its address
is in the chain; the chain is then cut in front of the child, and the child and
all that follows it are freed. -/
theorem remove_walk_spec (a : Nat) (required : ctx_chain_t) :
    (a ∈ required.map Prod.fst →
        remove_walk a required
          = some (required.takeWhile (fun c => c.1 != a),
              ((required.dropWhile (fun c => c.1 != a)).map Prod.fst).reverse))
      ∧ (a ∉ required.map Prod.fst → remove_walk a required = none) := by
  induction required with
  | nil => exact ⟨fun h => by simp at h, fun _ => rfl⟩
  | cons p rest ih =>
      by_cases hp : p.1 = a
      · refine ⟨fun _ => ?_, fun h => absurd (by simp [hp]) h⟩
        rw [remove_walk, if_pos hp, free_ctx_intern_freed]
        simp [List.takeWhile, List.dropWhile, hp]
      · have hin : a ∈ (p :: rest).map Prod.fst ↔ a ∈ rest.map Prod.fst := by
          simp only [List.map_cons, List.mem_cons]
          constructor
          · rintro (h | h)
            · exact absurd h.symm hp
            · exact h
          · exact Or.inr
        have hb : (p.1 != a) = true := by simp [hp]
        refine ⟨fun h => ?_, fun h => ?_⟩
        · rw [remove_walk, if_neg hp, ih.1 (hin.mp h)]
          simp [List.takeWhile, List.dropWhile, hb]
        · rw [remove_walk, if_neg hp, ih.2 (fun h1 => h (hin.mpr h1))]
          rfl

/-! ## Slots in error state and latency samples -/

/-- The two ways the "handle times" block ends: the sample is folded and
zeroed, or nothing is written. -/
theorem fvr_times_cases (n : Nat) (st : fvr_state) :
    (∃ ts m w, st.ctx.times = some ts ∧ st.ctx.nodes[n]? = some m ∧ m.weight = some w
        ∧ ts.getD n 0 ≠ 0
        ∧ fvr_times n st =
            { st with
              chain := { st.chain with
                weights := update_at st.chain.weights w (fun e =>
                  { e with
                    response_count := (e.response_count + 1) % 2 ^ 32
                    total_response_time := (e.total_response_time + ts.getD n 0) % 2 ^ 32 }) }
              ctx := { st.ctx with times := some (update_at ts n (fun _ => 0)) } })
      ∨ ((st.ctx.times = none ∨ st.ctx.nodes[n]? = none
            ∨ (∃ m, st.ctx.nodes[n]? = some m ∧ m.weight = none)
            ∨ ∃ ts, st.ctx.times = some ts ∧ ts.getD n 0 = 0)
          ∧ fvr_times n st = st) := by
  unfold fvr_times
  cases ht : st.ctx.times with
  | none => exact Or.inr ⟨Or.inl rfl, rfl⟩
  | some ts =>
      cases hm : st.ctx.nodes[n]? with
      | none => exact Or.inr ⟨Or.inr (Or.inl rfl), rfl⟩
      | some m =>
          cases hw : m.weight with
          | none => exact Or.inr ⟨Or.inr (Or.inr (Or.inl ⟨m, rfl, hw⟩)), by simp [hw]⟩
          | some w =>
              by_cases hs : ts.getD n 0 = 0
              · exact Or.inr ⟨Or.inr (Or.inr (Or.inr ⟨ts, rfl, hs⟩)), by simp only [hw]; rw [if_pos hs]⟩
              · exact Or.inl ⟨ts, m, w, rfl, rfl, hw, hs, by simp only [hw]; rw [if_neg hs]⟩

/-- The turn of the node loop for a slot that is still waiting. -/
theorem fvr_node_waiting (env : environment) (client : in3_t) (v : Option in3_verifier_t)
    (n : Nat) (st : fvr_state) (slot : in3_response_t) (hs : st.response[n]? = some slot)
    (hw : slot.state = IN3_WAITING) :
    fvr_node env client v n st = ({ st with still_pending := true }, none) := by
  unfold fvr_node
  simp only [hs, Option.getD_some]
  rw [if_pos hw]

theorem folded_at_most_once_refl (j w : Nat) (st : fvr_state) :
    folded_at_most_once j w st st := Or.inl ⟨rfl, rfl⟩

theorem folded_at_most_once_trans (j w : Nat) (a b c : fvr_state)
    (hab : folded_at_most_once j w a b) (hbc : folded_at_most_once j w b c) :
    folded_at_most_once j w a c := by
  rcases hab with ⟨s1, c1⟩ | ⟨n1, s1, c1⟩
  · rcases hbc with ⟨s2, c2⟩ | ⟨n2, s2, c2⟩
    · exact Or.inl ⟨s2.trans s1, c2.trans c1⟩
    · exact Or.inr ⟨by rw [← s1]; exact n2, s2, by rw [c2, c1, s1]⟩
  · rcases hbc with ⟨s2, c2⟩ | ⟨n2, _, _⟩
    · exact Or.inr ⟨n1, s2.trans s1, c2.trans c1⟩
    · exact absurd s1 n2

/-- The sample and the counters depend on the samples and on the counters of
the weights table only. -/
theorem latency_of_kept (j w : Nat) (later earlier : fvr_state)
    (ht : later.ctx.times = earlier.ctx.times)
    (hc : later.chain.weights.map reputation_counters
      = earlier.chain.weights.map reputation_counters) :
    latency_sample later j = latency_sample earlier j
      ∧ latency_counters later w = latency_counters earlier w := by
  refine ⟨by simp only [latency_sample, ht], ?_⟩
  have := congrArg (fun l => l[w]?) hc
  simpa only [latency_counters, List.getElem?_map] using this

theorem folded_of_kept (j w : Nat) (a later earlier : fvr_state)
    (ht : later.ctx.times = earlier.ctx.times)
    (hc : later.chain.weights.map reputation_counters
      = earlier.chain.weights.map reputation_counters)
    (h : folded_at_most_once j w a earlier) : folded_at_most_once j w a later :=
  folded_at_most_once_trans j w a earlier later h
    (Or.inl (latency_of_kept j w later earlier ht hc))

/-- The "handle times" block folds the sample of a node at most once. -/
theorem fvr_times_fold_once (n j w : Nat) (st : fvr_state)
    (hown : owns_weight j w st.ctx.nodes) :
    folded_at_most_once j w st (fvr_times n st) := by
  rcases fvr_times_cases n st with ⟨ts, m, w1, ht, hm, hw, hs, h⟩ | ⟨_, h⟩
  · rw [h]
    by_cases hnj : n = j
    · subst hnj
      have hww : w1 = w := by
        rcases hown.2 m hm with h1 | h1
        · rw [hw] at h1
          exact Option.some.inj h1
        · rw [hw] at h1
          cases h1
      subst hww
      refine Or.inr ⟨?_, ?_, ?_⟩
      · simpa only [latency_sample, ht, Option.getD_some] using hs
      · simp only [latency_sample, Option.getD_some, List.getD_eq_getElem?_getD,
          update_at_getElem?_self]
        cases ts[n]? <;> rfl
      · simp only [latency_counters, latency_sample, ht, Option.getD_some,
          update_at_getElem?_self, Option.map_map]
        rfl
    · have hw1 : w1 ≠ w := fun he => hown.1 n m hnj hm (by rw [hw, he])
      refine Or.inl ⟨?_, ?_⟩
      · simp only [latency_sample, ht, Option.getD_some]
        exact update_at_getD_ne ts n j _ 0 (fun he => hnj he.symm)
      · simp only [latency_counters]
        rw [update_at_getElem?_ne _ _ _ _ (fun he => hw1 he.symm)]
  · rw [h]
    exact folded_at_most_once_refl j w st

theorem owns_weight_frame (n j w : Nat) (later earlier : List node_match_t)
    (hf : nodes_frame n later earlier) (h : owns_weight j w earlier) :
    owns_weight j w later := by
  rcases hf with rfl | rfl
  · exact h
  · constructor
    · intro j1 m1 hj hm
      by_cases hn : j1 = n
      · subst hn
        rw [update_at_getElem?_self] at hm
        cases he : earlier[j1]? with
        | none => rw [he] at hm; cases hm
        | some m0 =>
            rw [he] at hm
            simp only [Option.map_some', Option.some.injEq] at hm
            rw [← hm]
            simp [drop_weight]
      · rw [update_at_getElem?_ne _ _ _ _ hn] at hm
        exact h.1 j1 m1 hj hm
    · intro m hm
      by_cases hn : j = n
      · subst hn
        rw [update_at_getElem?_self] at hm
        cases he : earlier[j]? with
        | none => rw [he] at hm; cases hm
        | some m0 =>
            rw [he] at hm
            simp only [Option.map_some', Option.some.injEq] at hm
            rw [← hm]
            exact Or.inr rfl
      · rw [update_at_getElem?_ne _ _ _ _ hn] at hm
        exact h.2 m hm

/-- One turn of the node loop folds the sample of a node at most once. -/
theorem fvr_node_fold_once (env : environment) (client : in3_t)
    (v : Option in3_verifier_t) (n j w : Nat) (st : fvr_state)
    (hown : owns_weight j w st.ctx.nodes) :
    folded_at_most_once j w st (fvr_node env client v n st).1 := by
  cases hs : st.response[n]? with
  | none =>
      have : fvr_node env client v n st = ({ st with still_pending := true }, none) := by
        unfold fvr_node
        simp only [hs, Option.getD_none, if_true]
      rw [this]
      exact Or.inl ⟨rfl, rfl⟩
  | some slot =>
      by_cases hw : slot.state = IN3_WAITING
      · rw [fvr_node_waiting env client v n st slot hs hw]
        exact Or.inl ⟨rfl, rfl⟩
      · obtain ⟨k1, k2, _⟩ := fvr_node_kept env client v n st slot hs hw
        exact folded_of_kept j w st _ _ k1 k2 (fvr_times_fold_once n j w st hown)

/-- The node loop and the code after it fold the sample of a node at most once. -/
theorem fvr_nodes_fold_once (env : environment) (client : in3_t)
    (v : Option in3_verifier_t) (j w : Nat) :
    ∀ (todo n : Nat) (st : fvr_state), owns_weight j w st.ctx.nodes →
      folded_at_most_once j w st (fvr_nodes env client v todo n st).1
        ∧ owns_weight j w (fvr_nodes env client v todo n st).1.ctx.nodes := by
  intro todo
  induction todo with
  | zero =>
      intro n st hown
      unfold fvr_nodes
      split
      · exact ⟨Or.inl ⟨rfl, rfl⟩, hown⟩
      · exact ⟨Or.inl ⟨rfl, rfl⟩, hown⟩
  | succ todo ih =>
      intro n st hown
      have h1 := fvr_node_fold_once env client v n j w st hown
      have h2 := owns_weight_frame n j w _ _ (fvr_node_nodes env client v n st) hown
      cases hr : (fvr_node env client v n st).2 with
      | none =>
          rw [fvr_nodes_step_none env client v todo n st hr]
          obtain ⟨i1, i2⟩ := ih (n + 1) _ h2
          exact ⟨folded_at_most_once_trans j w _ _ _ h1 i1, i2⟩
      | some res =>
          rw [fvr_nodes_step_some env client v todo n st res hr]
          exact ⟨h1, h2⟩

/-- Any number of runs of the matcher over the same context and slots fold the
sample of a node at most once. -/
theorem fvr_runs_fold_once (env : environment) (client : in3_t) (nodes_count : Nat)
    (v : Option in3_verifier_t) (j w : Nat) :
    ∀ (runs : Nat) (st : fvr_state), owns_weight j w st.ctx.nodes →
      folded_at_most_once j w st (fvr_runs env client nodes_count v runs st) := by
  intro runs
  induction runs with
  | zero =>
      intro st _
      exact folded_at_most_once_refl j w st
  | succ runs ih =>
      intro st hown
      obtain ⟨h1, h2⟩ := fvr_nodes_fold_once env client v j w nodes_count 0
        { ctx := st.ctx, required := st.required, response := st.response, chain := st.chain,
          still_pending := false, last_validator_change := 0, currentBlock := 0, trace := [] }
        hown
      rw [fvr_runs]
      refine folded_at_most_once_trans j w st _ _ ?_ (ih _ h2)
      rcases h1 with ⟨a, b⟩ | ⟨a, b, c⟩
      · exact Or.inl ⟨a, b⟩
      · exact Or.inr ⟨a, b, c⟩

/-! ## The byte format of the cache -/

theorem be_bytes_length (len v : Nat) : (be_bytes len v).length = len := by
  induction len generalizing v with
  | zero => rfl
  | succ len ih => simp [be_bytes, ih]

theorem bytes_to_long_snoc (xs : List Nat) (x : Nat) :
    bytes_to_long (xs ++ [x]) = bytes_to_long xs * 256 + x % 256 := by
  simp [bytes_to_long, List.foldl_append]

theorem bytes_to_long_be_bytes (len v : Nat) :
    bytes_to_long (be_bytes len v) = v % 256 ^ len := by
  induction len generalizing v with
  | zero => simp [be_bytes, bytes_to_long, Nat.mod_one]
  | succ len ih =>
      rw [be_bytes, bytes_to_long_snoc, ih, Nat.mod_mod, pow_succ,
        Nat.mul_comm (256 ^ len) 256, Nat.mod_mul]
      ring

theorem b_new_fixed_bytes_append (x rest : List Nat) :
    b_new_fixed_bytes (x ++ rest) x.length = some (x, rest) := by
  simp [b_new_fixed_bytes]

theorem b_read_int_append (v : Nat) (rest : List Nat) (h : v < 2 ^ 32) :
    b_read_int (be_bytes 4 v ++ rest) = some (v, rest) := by
  have := b_new_fixed_bytes_append (be_bytes 4 v) rest
  rw [be_bytes_length] at this
  simp only [b_read_int, this, Option.map_some', bytes_to_long_be_bytes]
  rw [Nat.mod_eq_of_lt (by norm_num at h ⊢; exact h)]

theorem b_read_long_append (v : Nat) (rest : List Nat) (h : v < 2 ^ 64) :
    b_read_long (be_bytes 8 v ++ rest) = some (v, rest) := by
  have := b_new_fixed_bytes_append (be_bytes 8 v) rest
  rw [be_bytes_length] at this
  simp only [b_read_long, this, Option.map_some', bytes_to_long_be_bytes]
  rw [Nat.mod_eq_of_lt (by norm_num at h ⊢; exact h)]

theorem le_bytes_length (len v : Nat) : (le_bytes len v).length = len := by
  induction len generalizing v with
  | zero => rfl
  | succ len ih => simp [le_bytes, ih]

theorem le_value_le_bytes (len v : Nat) : le_value (le_bytes len v) = v % 256 ^ len := by
  induction len generalizing v with
  | zero => simp [le_bytes, le_value, Nat.mod_one]
  | succ len ih =>
      rw [le_bytes, le_value, ih, Nat.mod_mod, pow_succ, Nat.mul_comm (256 ^ len) 256,
        Nat.mod_mul]

theorem weight_raw_length (e : in3_node_weight_t) :
    (weight_raw e).length = sizeof_in3_node_weight_t := by
  simp [weight_raw, le_bytes_length]

theorem weight_of_raw_weight_raw (e : in3_node_weight_t) (rest : List Nat)
    (h1 : e.response_count < 2 ^ 32) (h2 : e.total_response_time < 2 ^ 32)
    (h3 : e.blacklisted_until < 2 ^ 64) :
    weight_of_raw ((weight_raw e ++ rest).take sizeof_in3_node_weight_t) = e := by
  have ht : (weight_raw e ++ rest).take sizeof_in3_node_weight_t = weight_raw e := by
    rw [← weight_raw_length e, List.take_left']
    rfl
  rw [ht]
  have a1 : (weight_raw e).take 4 = le_bytes 4 e.response_count := by
    rw [weight_raw, List.append_assoc]
    exact List.take_left' (le_bytes_length 4 _)
  have a2 : ((weight_raw e).drop 4).take 4 = le_bytes 4 e.total_response_time := by
    rw [weight_raw, List.append_assoc, List.drop_left' (le_bytes_length 4 _)]
    exact List.take_left' (le_bytes_length 4 _)
  have a3 : ((weight_raw e).drop 8).take 8 = le_bytes 8 e.blacklisted_until := by
    rw [weight_raw, List.drop_left' (by simp [le_bytes_length])]
    exact List.take_of_length_le (by simp [le_bytes_length])
  cases e
  simp only [weight_of_raw, a1, a2, a3, le_value_le_bytes] at *
  congr 1
  · exact Nat.mod_eq_of_lt (by norm_num at h1 ⊢; exact h1)
  · exact Nat.mod_eq_of_lt (by norm_num at h2 ⊢; exact h2)
  · exact Nat.mod_eq_of_lt (by norm_num at h3 ⊢; exact h3)

theorem weights_raw_length (weights : List in3_node_weight_t) :
    (weights_raw weights).length = weights.length * sizeof_in3_node_weight_t := by
  induction weights with
  | nil => rfl
  | cons e rest ih =>
      simp only [weights_raw, List.flatMap_cons, List.length_append, List.length_cons] at ih ⊢
      rw [ih, weight_raw_length]
      ring

theorem weights_of_raw_weights_raw (weights : List in3_node_weight_t)
    (h : ∀ e ∈ weights, e.response_count < 2 ^ 32 ∧ e.total_response_time < 2 ^ 32
      ∧ e.blacklisted_until < 2 ^ 64) :
    weights_of_raw weights.length (weights_raw weights) = weights := by
  induction weights with
  | nil => rfl
  | cons e rest ih =>
      obtain ⟨h1, h2, h3⟩ := h e (List.mem_cons_self _ _)
      simp only [weights_raw, List.flatMap_cons, List.length_cons, weights_of_raw]
      rw [weight_of_raw_weight_raw e _ h1 h2 h3, List.drop_left' (weight_raw_length e)]
      exact congrArg _ (ih (fun x hx => h x (List.mem_cons_of_mem _ hx)))

theorem takeWhile_append_stop {α : Type} (p : α → Bool) (l : List α) (x : α) (rest : List α)
    (hl : ∀ y ∈ l, p y = true) (hx : p x = false) :
    (l ++ x :: rest).takeWhile p = l := by
  induction l with
  | nil => simp [List.takeWhile, hx]
  | cons y ys ih =>
      simp only [List.cons_append, List.takeWhile, hl y (List.mem_cons_self _ _)]
      exact congrArg _ (ih (fun z hz => hl z (List.mem_cons_of_mem _ hz)))

theorem strlen_of_no_nul (s : String) (h : ∀ ch ∈ s.data, ch.toNat ≠ 0) :
    strlen s = s.data.length := by
  unfold strlen
  rw [List.takeWhile_eq_self_iff.mpr (fun ch hch => by simp [h ch hch])]

theorem b_new_chars_append (s : String) (rest : List Nat)
    (h : ∀ ch ∈ s.data, ch.toNat ≠ 0) :
    b_new_chars (s.data.map Char.toNat ++ 0 :: rest) = some (s, rest) := by
  have ht : (s.data.map Char.toNat ++ 0 :: rest).takeWhile (fun x => x != 0)
      = s.data.map Char.toNat :=
    takeWhile_append_stop _ _ 0 rest
      (fun y hy => by
        obtain ⟨ch, hch, rfl⟩ := List.mem_map.mp hy
        simp [h ch hch])
      (by simp)
  unfold b_new_chars
  rw [ht, List.drop_left' rfl]
  simp only [List.map_map, Option.some.injEq, Prod.mk.injEq, and_true]
  have : (Char.ofNat ∘ Char.toNat) = id := by
    funext ch
    simp
  rw [this, List.map_id]

/-- The record of a node is appended to the builder. -/
theorem write_node_append (bb : List Nat) (n : in3_node_t) :
    write_node bb n = bb ++ write_node [] n := by
  simp [write_node, bb_write_int, bb_write_long, bb_write_fixed_bytes, bb_write_chars,
    bb_write_byte]

theorem foldl_write_node (nodes : List in3_node_t) (bb : List Nat) :
    nodes.foldl write_node bb = bb ++ nodes.flatMap (write_node []) := by
  induction nodes generalizing bb with
  | nil => simp
  | cons n rest ih =>
      rw [List.foldl_cons, ih, write_node_append, List.flatMap_cons, List.append_assoc]

theorem read_node_write_node (n : in3_node_t) (rest : List Nat)
    (h1 : n.capacity < 2 ^ 32) (h2 : n.index < 2 ^ 32) (h3 : n.deposit < 2 ^ 64)
    (h4 : n.props < 2 ^ 64) (h5 : n.address.length = 20)
    (h6 : ∀ ch ∈ n.url.data, ch.toNat ≠ 0) :
    read_node (write_node [] n ++ rest) = some (n, rest) := by
  have hw : write_node [] n ++ rest
      = be_bytes 4 n.capacity ++ (be_bytes 4 n.index ++ (be_bytes 8 n.deposit
          ++ (be_bytes 8 n.props ++ (n.address ++ (n.url.data.map Char.toNat
            ++ 0 :: ((if n.whitelisted then 1 else 0) :: rest)))))) := by
    have hl : (n.url.data.map Char.toNat).take (strlen n.url) = n.url.data.map Char.toNat := by
      rw [strlen_of_no_nul n.url h6]
      exact List.take_of_length_le (by simp)
    simp only [write_node, bb_write_int, bb_write_long, bb_write_fixed_bytes, bb_write_chars,
      bb_write_byte, hl, List.nil_append, List.append_assoc, List.singleton_append]
    cases n.whitelisted <;> rfl
  have ha := b_new_fixed_bytes_append n.address
    (n.url.data.map Char.toNat ++ 0 :: ((if n.whitelisted then 1 else 0) :: rest))
  rw [h5] at ha
  rw [hw]
  unfold read_node
  simp only [b_read_int_append _ _ h1, b_read_int_append _ _ h2, b_read_long_append _ _ h3,
    b_read_long_append _ _ h4, ha, b_new_chars_append n.url _ h6, b_read_byte,
    Option.some_bind, Option.map_some']
  cases n with
  | mk capacity index deposit props address url whitelisted => cases whitelisted <;> rfl

theorem read_nodes_write_nodes (nodes : List in3_node_t) (rest : List Nat)
    (h : ∀ n ∈ nodes, n.capacity < 2 ^ 32 ∧ n.index < 2 ^ 32 ∧ n.deposit < 2 ^ 64
      ∧ n.props < 2 ^ 64 ∧ n.address.length = 20 ∧ ∀ ch ∈ n.url.data, ch.toNat ≠ 0) :
    read_nodes nodes.length (nodes.flatMap (write_node []) ++ rest) = some (nodes, rest) := by
  induction nodes with
  | nil => rfl
  | cons n ns ih =>
      obtain ⟨h1, h2, h3, h4, h5, h6⟩ := h n (List.mem_cons_self _ _)
      rw [List.flatMap_cons, List.append_assoc, List.length_cons, read_nodes,
        read_node_write_node n _ h1 h2 h3 h4 h5 h6]
      simp only [Option.some_bind, ih (fun x hx => h x (List.mem_cons_of_mem _ hx)),
        Option.map_some']

/-- The bytes `in3_cache_store_nodelist` hands to `set_item` for a chain whose
node list and weights table have `nodelist_length` entries. -/
theorem in3_cache_store_nodelist_bytes (c : cache_client_t) (chain : cache_chain_t)
    (h : in3_storage_handler_t) (contract : List Nat) (hc : c.cache = some h)
    (hcontract : chain.contract = some contract)
    (hn : chain.nodelist.length = chain.nodelist_length)
    (hw : chain.weights.length = chain.nodelist_length) :
    in3_cache_store_nodelist c chain
      = some ⟨IN3_OK, some (write_cache_key chain.chain_id chain.contract,
          CACHE_VERSION :: (contract ++ (be_bytes 8 chain.last_block
            ++ (be_bytes 4 chain.nodelist_length ++ (weights_raw chain.weights
              ++ chain.nodelist.flatMap (write_node []))))))⟩ := by
  unfold in3_cache_store_nodelist
  simp only [hc, hcontract]
  rw [if_neg (by omega)]
  simp only [foldl_write_node, bb_write_byte, bb_write_fixed_bytes, bb_write_long,
    bb_write_int, bb_write_raw_bytes, ← hn, List.take_length, List.nil_append,
    List.append_assoc, List.singleton_append]
  rw [hn, ← hw, List.take_length]
  rfl

/-- Reading back the bytes of a stored node list. -/
theorem in3_cache_update_nodelist_bytes (c : cache_client_t) (target : cache_chain_t)
    (h : in3_storage_handler_t) (contract : List Nat) (last_block : Nat)
    (nodelist : List in3_node_t) (weights : List in3_node_weight_t)
    (hc : c.cache = some h) (hlen : contract.length = 20) (hlast : last_block < 2 ^ 64)
    (hcount : nodelist.length < 2 ^ 31) (hw : weights.length = nodelist.length)
    (hweights : ∀ e ∈ weights, e.response_count < 2 ^ 32 ∧ e.total_response_time < 2 ^ 32
      ∧ e.blacklisted_until < 2 ^ 64)
    (hnodes : ∀ n ∈ nodelist, n.capacity < 2 ^ 32 ∧ n.index < 2 ^ 32 ∧ n.deposit < 2 ^ 64
      ∧ n.props < 2 ^ 64 ∧ n.address.length = 20 ∧ ∀ ch ∈ n.url.data, ch.toNat ≠ 0)
    (hget : h.get_item (write_cache_key target.chain_id target.contract)
      = some (CACHE_VERSION :: (contract ++ (be_bytes 8 last_block
          ++ (be_bytes 4 nodelist.length ++ (weights_raw weights
            ++ nodelist.flatMap (write_node []))))))) :
    in3_cache_update_nodelist c target
      = some ({ target with
          contract := some contract, last_block := last_block,
          nodelist_length := nodelist.length, nodelist := nodelist, weights := weights,
          needs_update := UPDATE_NONE }, IN3_EVERS) := by
  have ha := b_new_fixed_bytes_append contract (be_bytes 8 last_block
    ++ (be_bytes 4 nodelist.length ++ (weights_raw weights
      ++ nodelist.flatMap (write_node []))))
  rw [hlen] at ha
  have hwr := b_new_fixed_bytes_append (weights_raw weights)
    (nodelist.flatMap (write_node []))
  rw [weights_raw_length, hw] at hwr
  have hrn := read_nodes_write_nodes nodelist [] hnodes
  rw [List.append_nil] at hrn
  unfold in3_cache_update_nodelist
  simp only [hc, hget, b_read_byte, Option.some_bind, ne_eq, not_true_eq_false, if_false, ha,
    b_read_long_append _ _ hlast,
    b_read_int_append _ _ (lt_trans hcount (by norm_num : (2 : Nat) ^ 31 < 2 ^ 32)),
    if_neg (Nat.not_le.mpr hcount), hwr, hrn, Option.map_some']
  rw [← hw, weights_of_raw_weights_raw weights hweights]

/-- A record with the wrong version byte leaves the chain as it is. -/
theorem in3_cache_update_nodelist_mismatch (c : cache_client_t) (chain : cache_chain_t)
    (h : in3_storage_handler_t) (v : Nat) (rest : List Nat) (hc : c.cache = some h)
    (hget : h.get_item (write_cache_key chain.chain_id chain.contract) = some (v :: rest))
    (hv : v ≠ CACHE_VERSION) :
    in3_cache_update_nodelist c chain = some (chain, IN3_EVERS) := by
  unfold in3_cache_update_nodelist
  simp only [hc, hget, b_read_byte, Option.some_bind]
  rw [if_pos hv]

/-- A whitelist record with the wrong version byte leaves the chain as it is. -/
theorem in3_cache_update_whitelist_mismatch (c : cache_client_t) (chain : cache_chain_t)
    (h : in3_storage_handler_t) (v : Nat) (rest : List Nat) (hc : c.cache = some h)
    (hget : h.get_item (write_cache_key chain.chain_id chain.whitelist_contract)
      = some (v :: rest))
    (hv : v ≠ CACHE_VERSION) :
    in3_cache_update_whitelist c chain = some (chain, IN3_EVERS) := by
  unfold in3_cache_update_whitelist
  simp only [hc, hget, b_read_byte, Option.some_bind]
  rw [if_pos hv]

/-- The loop of `in3_cache_init` on a storage whose records all have the wrong
version byte: every chain stays as it is. -/
theorem cache_init_loop_mismatch (c : cache_client_t) (h : in3_storage_handler_t)
    (hc : c.cache = some h)
    (hall : ∀ key b, h.get_item key = some b → ∃ v rest, b = v :: rest ∧ v ≠ CACHE_VERSION)
    (chains : List cache_chain_t) : cache_init_loop c chains = some chains := by
  have h1 : ∀ chain, ∃ ret, in3_cache_update_nodelist c chain = some (chain, ret) := by
    intro chain
    cases hg : h.get_item (write_cache_key chain.chain_id chain.contract) with
    | none => exact ⟨IN3_OK, by simp only [in3_cache_update_nodelist, hc, hg]⟩
    | some b =>
        obtain ⟨v, rest, rfl, hv⟩ := hall _ b hg
        exact ⟨_, in3_cache_update_nodelist_mismatch c chain h v rest hc hg hv⟩
  have h2 : ∀ chain, ∃ ret, in3_cache_update_whitelist c chain = some (chain, ret) := by
    intro chain
    cases hg : h.get_item (write_cache_key chain.chain_id chain.whitelist_contract) with
    | none => exact ⟨IN3_OK, by simp only [in3_cache_update_whitelist, hc, hg]⟩
    | some b =>
        obtain ⟨v, rest, rfl, hv⟩ := hall _ b hg
        exact ⟨_, in3_cache_update_whitelist_mismatch c chain h v rest hc hg hv⟩
  induction chains with
  | nil => rfl
  | cons chain rest ih =>
      obtain ⟨r1, e1⟩ := h1 chain
      obtain ⟨r2, e2⟩ := h2 chain
      simp only [cache_init_loop, e1, Option.some_bind, e2, ih, Option.map_some']

/-! ## Spinning search, context states, length bytes and cache statuses -/

/-- The loop of `ctx_find_required` never leaves a sub-context without a request
array: whatever the number of turns, it has not returned. -/
theorem ctx_find_required_stuck (c : in3_ctx_t) (rest : List in3_ctx_t)
    (search_method : String) (hc : c.requests = []) :
    ∀ fuel, ctx_find_required fuel (c :: rest) search_method = none := by
  intro fuel
  induction fuel with
  | zero => rfl
  | succ fuel ih =>
      rw [ctx_find_required]
      simp only [hc, List.isEmpty_nil, if_true]
      exact ih

/-- The loop of `ctx_find_required` reaches a sub-context without a request
array when the sub-contexts before it have one and are for another method. -/
theorem ctx_find_required_reaches (search_method : String) (c : in3_ctx_t)
    (rest : List in3_ctx_t) (hc : c.requests = []) :
    ∀ (pre : List in3_ctx_t),
      (∀ x ∈ pre, x.requests ≠ [] ∧ ctx_is_method x search_method = false) →
      ∀ fuel, ctx_find_required fuel (pre ++ c :: rest) search_method = none := by
  intro pre
  induction pre with
  | nil =>
      intro _ fuel
      exact ctx_find_required_stuck c rest search_method hc fuel
  | cons x xs ih =>
      intro hpre fuel
      cases fuel with
      | zero => rfl
      | succ fuel =>
          obtain ⟨h1, h2⟩ := hpre x (List.mem_cons_self _ _)
          have hx : x.requests.isEmpty = false := by
            cases hr : x.requests with
            | nil => exact absurd hr h1
            | cons _ _ => rfl
          rw [List.cons_append, ctx_find_required]
          simp only [hx, h2, Bool.false_eq_true, if_false]
          exact ih (fun y hy => hpre y (List.mem_cons_of_mem _ hy)) fuel

/-- The state of a chain is `CTX_ERROR` exactly when one of its contexts
carries an error. -/
theorem in3_ctx_state_error (chain : List in3_ctx_t) :
    in3_ctx_state chain = .CTX_ERROR ↔ ∃ c ∈ chain, c.error.isSome = true := by
  induction chain with
  | nil => simp [in3_ctx_state]
  | cons ctx required ih =>
      rw [in3_ctx_state]
      by_cases h1 : in3_ctx_state required = .CTX_ERROR
      · simp only [h1, if_true, true_iff]
        obtain ⟨c, hc, he⟩ := ih.mp h1
        exact ⟨c, List.mem_cons_of_mem _ hc, he⟩
      · have hnone : ¬ ∃ c ∈ required, c.error.isSome = true := fun h => h1 (ih.mpr h)
        rw [if_neg h1]
        by_cases h2 : ctx.error.isSome = true
        · simp only [h2, if_true, true_iff]
          exact ⟨ctx, List.mem_cons_self _ _, h2⟩
        · rw [if_neg h2]
          have hno : ¬ ∃ c ∈ ctx :: required, c.error.isSome = true := by
            rintro ⟨c, hc, he⟩
            rcases List.mem_cons.mp hc with rfl | hc
            · exact h2 he
            · exact hnone ⟨c, hc, he⟩
          simp only [hno, iff_false]
          split
          · exact fun h => by cases h
          · split
            · exact fun h => by cases h
            · split
              · exact fun h => by cases h
              · exact fun h => by cases h

/-- The state of a chain is `CTX_SUCCESS` exactly when none of its contexts
carries an error, all have a raw response, and the RPC contexts have a parsed
response. -/
theorem in3_ctx_state_success (chain : List in3_ctx_t) :
    in3_ctx_state chain = .CTX_SUCCESS
      ↔ ∀ c ∈ chain, c.error = none ∧ c.raw_response.isSome = true
          ∧ (c.type = .CT_RPC → c.response_context.isSome = true) := by
  induction chain with
  | nil => simp [in3_ctx_state]
  | cons ctx required ih =>
      rw [in3_ctx_state]
      simp only [List.mem_cons, forall_eq_or_imp]
      by_cases h1 : in3_ctx_state required = .CTX_ERROR
      · simp only [h1, if_true]
        constructor
        · exact fun h => by cases h
        · rintro ⟨_, hr⟩
          rw [ih.mpr hr] at h1
          cases h1
      · rw [if_neg h1]
        by_cases h2 : ctx.error.isSome = true
        · simp only [h2, if_true]
          constructor
          · exact fun h => by cases h
          · rintro ⟨⟨he, _⟩, _⟩
            rw [he] at h2
            cases h2
        · rw [if_neg h2]
          have he : ctx.error = none := by
            cases h : ctx.error with
            | none => rfl
            | some e => rw [h] at h2; exact absurd rfl h2
          by_cases h3 : in3_ctx_state required = .CTX_SUCCESS
          · have hr := ih.mp h3
            rw [if_neg (by simp [h3])]
            by_cases h4 : ctx.raw_response.isNone = true
            · rw [if_pos h4]
              constructor
              · exact fun h => by cases h
              · rintro ⟨⟨_, hraw, _⟩, _⟩
                cases hrr : ctx.raw_response with
                | none => rw [hrr] at hraw; cases hraw
                | some r => rw [hrr] at h4; cases h4
            · rw [if_neg h4]
              have hraw : ctx.raw_response.isSome = true := by
                cases hrr : ctx.raw_response with
                | none => rw [hrr] at h4; exact absurd rfl h4
                | some r => rfl
              by_cases h5 : ctx.type = .CT_RPC ∧ ctx.response_context.isNone = true
              · rw [if_pos h5]
                constructor
                · exact fun h => by cases h
                · rintro ⟨⟨_, _, hp⟩, _⟩
                  have := hp h5.1
                  cases hrc : ctx.response_context with
                  | none => rw [hrc] at this; cases this
                  | some r => rw [hrc] at h5; cases h5.2
              · rw [if_neg h5]
                refine ⟨fun _ => ⟨⟨he, hraw, fun ht => ?_⟩, hr⟩, fun _ => rfl⟩
                cases hrc : ctx.response_context with
                | none => exact absurd ⟨ht, by rw [hrc]; rfl⟩ h5
                | some r => rfl
          · have hne : required.isEmpty = false := by
              cases required with
              | nil => exact absurd rfl h3
              | cons _ _ => rfl
            rw [if_pos (by simp [hne, h3])]
            constructor
            · exact fun h => by cases h
            · rintro ⟨_, hr⟩
              exact absurd (ih.mpr hr) h3

/-- The decoder reads the two bytes of the encoder in the other order. -/
theorem bytes_to_len_len_to_bytes (x : Nat) (hx : x < 2 ^ 16) :
    bytes_to_len (len_to_bytes x).2 = x % 256 * 256 + x / 256 := by
  have h255 : (255 : Nat) = 2 ^ 8 - 1 := by norm_num
  have hx1 : x < 65536 := by norm_num at hx; exact hx
  have h1 : x / 256 < 256 := by omega
  have h2 : x % 256 < 256 := Nat.mod_lt _ (by norm_num)
  have h3 : x % 256 * 256 + x / 256 < 65536 := by omega
  simp only [bytes_to_len, len_to_bytes, List.getD_cons_succ, List.getD_cons_zero,
    Nat.mod_eq_of_lt hx, Nat.shiftRight_eq_div_pow, Nat.shiftLeft_eq, h255,
    Nat.and_pow_two_sub_one_eq_mod]
  norm_num
  rw [Nat.mod_eq_of_lt h1, Nat.mod_eq_of_lt h3]

/-- A version-3 whitelist record never leaves a contract that is not all zero
on the chain. -/
theorem in3_cache_update_whitelist_contract (c : cache_client_t) (chain : cache_chain_t)
    (h : in3_storage_handler_t) (rest : List Nat) (loaded : cache_chain_t) (ret : in3_ret_t)
    (hc : c.cache = some h)
    (hget : h.get_item (write_cache_key chain.chain_id chain.whitelist_contract)
      = some (CACHE_VERSION :: rest))
    (hload : in3_cache_update_whitelist c chain = some (loaded, ret)) :
    ret = IN3_OK
      ∧ ∀ contract, loaded.whitelist_contract = some contract →
          memiszero contract 20 = true := by
  unfold in3_cache_update_whitelist at hload
  simp only [hc, hget, b_read_byte, Option.some_bind, ne_eq, not_true_eq_false,
    if_false] at hload
  cases h1 : b_read_long rest with
  | none => rw [h1] at hload; cases hload
  | some last_block =>
      rw [h1] at hload
      simp only [Option.some_bind] at hload
      cases h2 : b_new_fixed_bytes last_block.2 20 with
      | none => rw [h2] at hload; cases hload
      | some contract =>
          rw [h2] at hload
          simp only [Option.some_bind] at hload
          cases h3 : b_read_int (contract.2.drop 20) with
          | none => rw [h3] at hload; cases hload
          | some count =>
              rw [h3] at hload
              simp only [Option.some_bind] at hload
              cases h4 : b_new_fixed_bytes count.2 (count.1 * 20 % 2 ^ 32) with
              | none => rw [h4] at hload; cases hload
              | some whitelist =>
                  rw [h4] at hload
                  simp only [Option.map_some', Option.some.injEq, Prod.mk.injEq] at hload
                  obtain ⟨hl, hr⟩ := hload
                  refine ⟨hr.symm, ?_⟩
                  intro wc hwc
                  rw [← hl] at hwc
                  simp only at hwc
                  cases hz : memiszero contract.1 20 with
                  | false => simp [hz] at hwc
                  | true =>
                      simp only [hz, Bool.not_true, Bool.false_eq_true, if_false,
                        Option.some.injEq] at hwc
                      rw [← hwc]
                      exact hz

/-- The record `in3_cache_store_whitelist` writes starts with the version byte. -/
theorem in3_cache_store_whitelist_version (c : cache_client_t) (chain : cache_chain_t)
    (ret : in3_ret_t) (key : String) (bytes : List Nat)
    (h : in3_cache_store_whitelist c chain = some ⟨ret, some (key, bytes)⟩) :
    key = write_cache_key chain.chain_id chain.whitelist_contract
      ∧ ∃ rest, bytes = CACHE_VERSION :: rest := by
  unfold in3_cache_store_whitelist at h
  cases hc : c.cache with
  | none => simp [hc] at h
  | some s =>
      simp only [hc, Option.some.injEq, cache_store_t.mk.injEq, Prod.mk.injEq] at h
      obtain ⟨_, hk, hb⟩ := h
      refine ⟨hk.symm, ?_⟩
      rw [← hb]
      cases chain.whitelist_contract <;> cases chain.whitelist <;>
        exact ⟨_, rfl⟩

/-- A version-3 record that is read to its end leaves `in3_cache_update_nodelist`
with the status `IN3_EVERS`. -/
theorem in3_cache_update_nodelist_loaded (c : cache_client_t) (chain : cache_chain_t)
    (h : in3_storage_handler_t) (rest : List Nat) (loaded : cache_chain_t) (ret : in3_ret_t)
    (hc : c.cache = some h)
    (hget : h.get_item (write_cache_key chain.chain_id chain.contract)
      = some (CACHE_VERSION :: rest))
    (hload : in3_cache_update_nodelist c chain = some (loaded, ret)) :
    ret = IN3_EVERS := by
  unfold in3_cache_update_nodelist at hload
  simp only [hc, hget, b_read_byte, Option.some_bind, ne_eq, not_true_eq_false,
    if_false] at hload
  cases h1 : b_new_fixed_bytes rest 20 with
  | none => rw [h1] at hload; cases hload
  | some contract =>
      rw [h1] at hload
      simp only [Option.some_bind] at hload
      cases h2 : b_read_long contract.2 with
      | none => rw [h2] at hload; cases hload
      | some last_block =>
          rw [h2] at hload
          simp only [Option.some_bind] at hload
          cases h3 : b_read_int last_block.2 with
          | none => rw [h3] at hload; cases hload
          | some count =>
              rw [h3] at hload
              simp only [Option.some_bind] at hload
              split at hload
              · cases hload
              · cases h4 : b_new_fixed_bytes count.2 (count.1 * sizeof_in3_node_weight_t) with
                | none => rw [h4] at hload; cases hload
                | some weights =>
                    rw [h4] at hload
                    simp only [Option.some_bind] at hload
                    cases h5 : read_nodes count.1 weights.2 with
                    | none => rw [h5] at hload; cases hload
                    | some nodes =>
                        rw [h5] at hload
                        simp only [Option.map_some', Option.some.injEq, Prod.mk.injEq] at hload
                        exact hload.2.symm

/-! ## The steps of the matcher, node by node -/

/-- C1: on a context that carries an error, `in3_ctx_execute` returns the
verification state when it is neither ok nor waiting and the `unknown` error
otherwise; the status is never ok or waiting, no collaborator is called (no
step is recorded) and the client, the context and its sub-context chain are
returned as they were. -/
theorem in3_ctx_execute_error_carried (env : environment) (fuel : Nat) (client : in3_t)
    (ctx : in3_ctx_t) (required : List in3_ctx_t) (herr : ctx.error.isSome = true) :
    ∃ ret : in3_ret_t,
      in3_ctx_execute env (fuel + 1) client ctx required
        = some ⟨ret, client, ctx, required, []⟩
      ∧ (ctx.verification_state ≠ IN3_OK ∧ ctx.verification_state ≠ IN3_WAITING →
          ret = ctx.verification_state)
      ∧ (ctx.verification_state = IN3_OK ∨ ctx.verification_state = IN3_WAITING →
          ret = IN3_EUNKNOWN)
      ∧ ret ≠ IN3_OK ∧ ret ≠ IN3_WAITING := by
  refine ⟨if ctx.verification_state ≠ 0 ∧ ctx.verification_state ≠ IN3_WAITING
              then ctx.verification_state else IN3_EUNKNOWN, ?_, ?_, ?_, ?_, ?_⟩
  · simp [in3_ctx_execute, herr]
  · intro h
    simp [h]
  · intro h
    rcases h with h | h <;> simp [h]
  · split_ifs with h
    · exact h.1
    · decide
  · split_ifs with h
    · exact h.2
    · decide

/-- C1, instance: a context whose error is set and whose verification state is
still `waiting`. -/
theorem in3_ctx_execute_error_carried_witness :
    ({ ex_ctx "eth_blockNumber" with error := some "boom" } : in3_ctx_t).error.isSome = true
    ∧ ∃ ret : in3_ret_t,
      in3_ctx_execute (ex_env none 0) (0 + 1) (ex_client 1)
          { ex_ctx "eth_blockNumber" with error := some "boom" } []
        = some ⟨ret, ex_client 1, { ex_ctx "eth_blockNumber" with error := some "boom" }, [], []⟩
      ∧ (({ ex_ctx "eth_blockNumber" with error := some "boom" } : in3_ctx_t).verification_state
            ≠ IN3_OK
          ∧ ({ ex_ctx "eth_blockNumber" with error := some "boom" } : in3_ctx_t).verification_state
            ≠ IN3_WAITING →
          ret = ({ ex_ctx "eth_blockNumber" with error := some "boom" }
            : in3_ctx_t).verification_state)
      ∧ (({ ex_ctx "eth_blockNumber" with error := some "boom" } : in3_ctx_t).verification_state
            = IN3_OK
          ∨ ({ ex_ctx "eth_blockNumber" with error := some "boom" } : in3_ctx_t).verification_state
            = IN3_WAITING →
          ret = IN3_EUNKNOWN)
      ∧ ret ≠ IN3_OK ∧ ret ≠ IN3_WAITING :=
  ⟨rfl, in3_ctx_execute_error_carried (ex_env none 0) 0 (ex_client 1)
    { ex_ctx "eth_blockNumber" with error := some "boom" } [] rfl⟩

/-! ## Retry and give-up after a failed round -/

/-- C2: when the matcher returns a status other than ok or waiting on an RPC
context, `in3_ctx_execute` counts one attempt and releases nodes and responses.
If the new count is below `max_attempts` it calls itself on the context with
the error cleared and the verification state `waiting`, and that call leaves
the count alone; otherwise it returns a terminal error, and after the steps
`tr` of the sub-context nothing but chain and verifier lookup, the matcher and
the cache store has happened: no node is picked again. -/
theorem in3_ctx_execute_matcher_failure (env : environment) (fuel : Nat)
    (client client1 : in3_t) (ctx : in3_ctx_t) (required required1 : List in3_ctx_t)
    (tr : List exec_event) (ci : Nat) (chain : in3_chain_t) (verifier : in3_verifier_t)
    (raw : List in3_response_t) (hrun : runnable ctx)
    (hsub : required_done env fuel client required client1 required1 tr)
    (hrpc : rpc_ready env client1 ctx ci chain verifier) (hraw : ctx.raw_response = some raw)
    (hfail : (find_valid_result env client1 ctx required1 (matcher_count ctx) raw chain
        (some verifier)).2 ≠ IN3_OK
      ∧ (find_valid_result env client1 ctx required1 (matcher_count ctx) raw chain
        (some verifier)).2 ≠ IN3_WAITING) :
    let m := find_valid_result env client1 ctx required1 (matcher_count ctx) raw chain
      (some verifier)
    let client2 : in3_t :=
      { client1 with chains := update_at client1.chains ci (fun _ => m.1.chain) }
    let freed : in3_ctx_t := { response_free m.1.ctx with attempt := ctx.attempt + 1 }
    let steps : List exec_event :=
      [exec_event.find_chain client1.chain_id, exec_event.get_verifier chain.type,
        exec_event.matcher (matcher_count ctx)] ++ m.1.trace ++ update_nodelist_cache client2
    (ctx.attempt + 1 < client1.max_attempts →
      in3_ctx_execute env (fuel + 1) client ctx required
        = (in3_ctx_execute env fuel client2
            { freed with error := none, verification_state := IN3_WAITING } m.1.required).map
            (fun r => { r with trace := tr ++ steps ++ r.trace })
      ∧ ∀ r, in3_ctx_execute env (fuel + 1) client ctx required = some r →
          r.ctx.attempt = ctx.attempt + 1)
    ∧ (¬ ctx.attempt + 1 < client1.max_attempts →
      ∃ r, in3_ctx_execute env (fuel + 1) client ctx required = some r
        ∧ r.ctx.attempt = ctx.attempt + 1 ∧ r.ctx.nodes = [] ∧ r.ctx.raw_response = none
        ∧ r.ctx.responses = none ∧ r.ctx.response_context = none
        ∧ r.ret < 0 ∧ r.ret ≠ IN3_WAITING
        ∧ r.trace = tr ++ steps ∧ ∀ c p, exec_event.pick_nodes c p ∉ steps) := by
  intro m client2 freed steps
  have hE := in3_ctx_execute_rpc env fuel client client1 ctx required required1 tr ci chain
    verifier raw hrun hsub hrpc hraw
  have hnp : ∀ c p, exec_event.pick_nodes c p ∉ steps := by
    intro c p hmem
    simp only [steps, List.mem_append, List.mem_cons, List.mem_singleton,
      List.not_mem_nil, or_false] at hmem
    rcases hmem with ((h | h | h) | h) | h
    · cases h
    · cases h
    · cases h
    · obtain ⟨n, i, hv⟩ := find_valid_result_trace env client1 ctx required1
        (matcher_count ctx) raw chain (some verifier) _ h
      cases hv
    · cases update_nodelist_cache_events client2 _ h
  constructor
  · intro hlt
    rw [execute_rpc_match_retry env client1 ci chain verifier ctx required1 _ raw hraw
      hfail.1 hfail.2 hlt] at hE
    have heq : in3_ctx_execute env (fuel + 1) client ctx required
        = (in3_ctx_execute env fuel client2
            { freed with error := none, verification_state := IN3_WAITING } m.1.required).map
            (fun r => { r with trace := tr ++ steps ++ r.trace }) := by
      rw [hE]
      simp [steps, client2, freed, m]
    refine ⟨heq, ?_⟩
    intro r hr
    rw [heq] at hr
    cases h2 : in3_ctx_execute env fuel client2
        { freed with error := none, verification_state := IN3_WAITING } m.1.required with
    | none => rw [h2] at hr; simp at hr
    | some r2 =>
        rw [h2] at hr
        simp only [Option.map_some', Option.some.injEq] at hr
        have := in3_ctx_execute_fresh env fuel client2 _ m.1.required r2 (by rfl) h2
        rw [← hr]
        exact this
  · intro hge
    rw [execute_rpc_match_exhausted env client1 ci chain verifier ctx required1 _ raw hraw
      hfail.1 hfail.2 hge] at hE
    have hf := give_up_frame { response_free m.1.ctx with attempt := ctx.attempt + 1 } IN3_EINVAL
    have hr := give_up_ret { response_free m.1.ctx with attempt := ctx.attempt + 1 } IN3_EINVAL
      (by decide) (by decide)
    refine ⟨_, hE, hf.1, hf.2.1, hf.2.2.1, hf.2.2.2.1, hf.2.2.2.2, hr.1, hr.2, ?_, hnp⟩
    simp [steps, client2, m]

/-- C2, instance: with `max_attempts = 1` a single node whose slot is in error
state ends the call with a terminal error, attempt 1, no nodes, and no node
selection among the steps. -/
theorem in3_ctx_execute_matcher_failure_witness :
    runnable (ex_ctx_answered "eth_blockNumber" [(IN3_ERPC, "boom")])
    ∧ rpc_ready (ex_env none 0) (ex_client 1)
        (ex_ctx_answered "eth_blockNumber" [(IN3_ERPC, "boom")]) 0 ex_chain (ex_verifier none)
    ∧ ¬ (ex_ctx_answered "eth_blockNumber" [(IN3_ERPC, "boom")]).attempt + 1
        < (ex_client 1).max_attempts
    ∧ ∃ r, in3_ctx_execute (ex_env none 0) (0 + 1) (ex_client 1)
          (ex_ctx_answered "eth_blockNumber" [(IN3_ERPC, "boom")]) [] = some r
        ∧ r.ctx.attempt = 1 ∧ r.ctx.nodes = [] ∧ r.ctx.raw_response = none
        ∧ r.ret < 0 ∧ r.ret ≠ IN3_WAITING
        ∧ ∀ c p, exec_event.pick_nodes c p ∉ r.trace := by
  have hrun : runnable (ex_ctx_answered "eth_blockNumber" [(IN3_ERPC, "boom")]) := by
    unfold runnable
    decide
  have hrpc : rpc_ready (ex_env none 0) (ex_client 1)
      (ex_ctx_answered "eth_blockNumber" [(IN3_ERPC, "boom")]) 0 ex_chain (ex_verifier none) :=
    ⟨rfl, rfl, rfl, rfl⟩
  have hge : ¬ (ex_ctx_answered "eth_blockNumber" [(IN3_ERPC, "boom")]).attempt + 1
      < (ex_client 1).max_attempts := by decide
  have h := in3_ctx_execute_matcher_failure (ex_env none 0) 0 (ex_client 1) (ex_client 1)
    (ex_ctx_answered "eth_blockNumber" [(IN3_ERPC, "boom")]) [] [] [] 0 ex_chain
    (ex_verifier none) [⟨IN3_ERPC, some "boom"⟩] hrun ⟨rfl, rfl, rfl⟩ hrpc rfl
    ⟨by decide, by decide⟩
  obtain ⟨r, hr, h1, h2, h3, _, _, h6, h7, h8, h9⟩ := h.2 hge
  refine ⟨hrun, hrpc, hge, r, hr, h1, h2, h3, h6, h7, ?_⟩
  intro c p
  rw [h8]
  simpa using h9 c p

/-- C3, counterexample: the method is not `in3_nodeList`, the only node's slot is
in error state (so the matcher fails with `IN3_EINVAL` and leaves the error
"boom"), the incremented counter reaches `max_attempts = 1`, and the status
returned is `IN3_EINVAL`, not `IN3_ELIMIT`. -/
theorem in3_ctx_execute_limit_counterexample :
    ctx_is_method (ex_ctx_answered "eth_blockNumber" [(IN3_ERPC, "boom")]) "in3_nodeList" = false
    ∧ (find_valid_result (ex_env none 0) (ex_client 1)
        (ex_ctx_answered "eth_blockNumber" [(IN3_ERPC, "boom")]) []
        (matcher_count (ex_ctx_answered "eth_blockNumber" [(IN3_ERPC, "boom")]))
        [⟨IN3_ERPC, some "boom"⟩] ex_chain (some (ex_verifier none))).2 = IN3_EINVAL
    ∧ (ex_ctx_answered "eth_blockNumber" [(IN3_ERPC, "boom")]).attempt + 1
        = (ex_client 1).max_attempts
    ∧ (in3_ctx_execute (ex_env none 0) 1 (ex_client 1)
        (ex_ctx_answered "eth_blockNumber" [(IN3_ERPC, "boom")]) []).map
          (fun r => (r.ret, r.ctx.error)) = some (IN3_EINVAL, some "boom")
    ∧ IN3_EINVAL ≠ IN3_ELIMIT := by
  decide

/-- C3, amended: for an RPC context whose method is not `in3_nodeList`, when the
matcher fails and the incremented attempt counter reaches `max_attempts`,
`in3_ctx_execute` returns `IN3_ELIMIT` if the matcher left no error on the
context, and the matcher's status `IN3_EINVAL`, keeping that error, if it left
one. -/
theorem in3_ctx_execute_budget_exhausted (env : environment) (fuel : Nat)
    (client client1 : in3_t) (ctx : in3_ctx_t) (required required1 : List in3_ctx_t)
    (tr : List exec_event) (ci : Nat) (chain : in3_chain_t) (verifier : in3_verifier_t)
    (raw : List in3_response_t) (hrun : runnable ctx)
    (hsub : required_done env fuel client required client1 required1 tr)
    (hrpc : rpc_ready env client1 ctx ci chain verifier) (hraw : ctx.raw_response = some raw)
    (hfail : (find_valid_result env client1 ctx required1 (matcher_count ctx) raw chain
        (some verifier)).2 ≠ IN3_OK
      ∧ (find_valid_result env client1 ctx required1 (matcher_count ctx) raw chain
        (some verifier)).2 ≠ IN3_WAITING)
    (hmethod : ctx_is_method ctx "in3_nodeList" = false)
    (hge : ¬ ctx.attempt + 1 < client1.max_attempts) :
    ∃ r, in3_ctx_execute env (fuel + 1) client ctx required = some r
      ∧ ((find_valid_result env client1 ctx required1 (matcher_count ctx) raw chain
            (some verifier)).1.ctx.error = none → r.ret = IN3_ELIMIT)
      ∧ ((find_valid_result env client1 ctx required1 (matcher_count ctx) raw chain
            (some verifier)).1.ctx.error.isSome = true →
          r.ret = IN3_EINVAL
          ∧ r.ctx.error = (find_valid_result env client1 ctx required1 (matcher_count ctx) raw
              chain (some verifier)).1.ctx.error) := by
  have hE := in3_ctx_execute_rpc env fuel client client1 ctx required required1 tr ci chain
    verifier raw hrun hsub hrpc hraw
  rw [execute_rpc_match_exhausted env client1 ci chain verifier ctx required1 _ raw hraw
    hfail.1 hfail.2 hge] at hE
  have hreq := (find_valid_result_same env client1 ctx required1 (matcher_count ctx) raw chain
    (some verifier)).2.2.1
  have hallow : ctx_is_allowed_to_fail
      { response_free (find_valid_result env client1 ctx required1 (matcher_count ctx) raw
          chain (some verifier)).1.ctx with attempt := ctx.attempt + 1 } = false := by
    exact (ctx_is_allowed_to_fail_congr
      { response_free (find_valid_result env client1 ctx required1 (matcher_count ctx) raw
          chain (some verifier)).1.ctx with attempt := ctx.attempt + 1 } ctx hreq).trans hmethod
  have hg := give_up_not_allowed _ IN3_EINVAL hallow
  refine ⟨_, hE, ?_, ?_⟩
  · intro hnone
    exact hg.1 hnone
  · intro hsome
    have h2 := hg.2 hsome
    constructor
    · show (give_up _ IN3_EINVAL).2 = IN3_EINVAL
      rw [h2]
      rfl
    · show (give_up _ IN3_EINVAL).1.error = _
      rw [h2]
      rfl

/-- C3, amended, instance: the refusal of a verifier that records no message
ends in `IN3_ELIMIT`. -/
theorem in3_ctx_execute_budget_exhausted_witness :
    ctx_is_method (ex_ctx_answered "eth_blockNumber" [(0, "bad")]) "in3_nodeList" = false
    ∧ ∃ r, in3_ctx_execute (ex_env none 0) (0 + 1) (ex_client 1)
          (ex_ctx_answered "eth_blockNumber" [(0, "bad")]) [] = some r
        ∧ r.ret = IN3_ELIMIT := by
  have h := in3_ctx_execute_budget_exhausted (ex_env none 0) 0 (ex_client 1) (ex_client 1)
    (ex_ctx_answered "eth_blockNumber" [(0, "bad")]) [] [] [] 0 ex_chain
    (ex_verifier none) [⟨0, some "bad"⟩] (by unfold runnable; decide) ⟨rfl, rfl, rfl⟩
    ⟨rfl, rfl, rfl, rfl⟩ rfl ⟨by decide, by decide⟩ (by decide) (by decide)
  obtain ⟨r, hr, h1, _⟩ := h
  exact ⟨by decide, r, hr, h1 (by decide)⟩

/-- C4, the defect: a node-list request with `max_attempts = 1` whose only
node answers with a body the verifier refuses.  When the verifier records a
message the call returns `IN3_EIGNORE`; when it records none the call returns
`IN3_ELIMIT`, although the verification state has been set to `IN3_EIGNORE`. -/
theorem in3_ctx_execute_nodelist_exhausted :
    ctx_is_method (ex_ctx_answered "in3_nodeList" [(0, "bad")]) "in3_nodeList" = true
    ∧ (in3_ctx_execute (ex_env (some "wrong proof") 0) 1 (ex_client 1)
        (ex_ctx_answered "in3_nodeList" [(0, "bad")]) []).map
          (fun r => (r.ret, r.ctx.verification_state, r.ctx.attempt))
        = some (IN3_EIGNORE, IN3_EIGNORE, 1)
    ∧ (in3_ctx_execute (ex_env none 0) 1 (ex_client 1)
        (ex_ctx_answered "in3_nodeList" [(0, "bad")]) []).map
          (fun r => (r.ret, r.ctx.verification_state, r.ctx.attempt))
        = some (IN3_ELIMIT, IN3_EIGNORE, 1) := by
  decide

/-! ## The attempt budget -/

/-- C5: for a client with `max_attempts ≥ 1` and a context that starts with
`attempt = 0`, after any sequence of `in3_ctx_execute` calls, interleaved with
updates of the response slots (and with progress of the sub-contexts), the
attempt counter is at most `max_attempts`. -/
theorem attempt_never_exceeds_max_attempts (client0 : in3_t) (ctx0 : in3_ctx_t)
    (required0 : List in3_ctx_t) (hmax : 1 ≤ client0.max_attempts) (h0 : ctx0.attempt = 0)
    (cl : in3_t) (c : in3_ctx_t) (rq : List in3_ctx_t)
    (h : execution_history client0 ctx0 required0 cl c rq) :
    c.attempt ≤ cl.max_attempts := by
  have key : cl.max_attempts = client0.max_attempts ∧ attempt_bounded cl c := by
    induction h with
    | start =>
        refine ⟨rfl, ?_, ?_⟩
        · rw [h0]
          exact Nat.zero_le _
        · intro he
          rw [h0] at he
          rw [← he] at hmax
          exact absurd hmax (by decide)
    | execute env fuel cl c rq r _ hr ih =>
        obtain ⟨h1, h2⟩ := in3_ctx_execute_bounded env fuel cl c rq r hr
        exact ⟨h1.trans ih.1, h2 ih.2⟩
    | respond cl c rq raw times _ ih => exact ⟨ih.1, ih.2⟩
    | advance cl c rq rq1 chains _ ih => exact ⟨ih.1, ih.2⟩
  exact key.2.1

/-- C5, instance: a budget of one attempt; the first call picks a node and
waits, the transport reports an error, and the second call gives up with the
counter at 1. -/
theorem attempt_never_exceeds_max_attempts_witness :
    1 ≤ (ex_client 1).max_attempts ∧ (ex_ctx "eth_blockNumber").attempt = 0
    ∧ execution_history (ex_client 1) (ex_ctx "eth_blockNumber") [] (ex_client 1)
        (ex_ctx_answered "eth_blockNumber" [(IN3_ERPC, "boom")]) []
    ∧ ∃ r2 : exec_result,
        in3_ctx_execute (ex_env none 0) 1 (ex_client 1)
          (ex_ctx_answered "eth_blockNumber" [(IN3_ERPC, "boom")]) [] = some r2
        ∧ r2.ctx.attempt = 1 ∧ r2.ctx.attempt ≤ r2.client.max_attempts := by
  have e1 : in3_ctx_execute (ex_env none 0) 1 (ex_client 1) (ex_ctx "eth_blockNumber") []
      = some ⟨IN3_WAITING, ex_client 1,
          { ex_ctx "eth_blockNumber" with nodes := [⟨ex_node 0, some 0⟩] }, [],
          [exec_event.find_chain 1, exec_event.get_verifier 0, exec_event.pick_nodes 3 129]⟩ :=
    rfl
  have hist : execution_history (ex_client 1) (ex_ctx "eth_blockNumber") [] (ex_client 1)
      (ex_ctx_answered "eth_blockNumber" [(IN3_ERPC, "boom")]) [] :=
    execution_history.respond _ _ _ (some [⟨IN3_ERPC, some "boom"⟩]) none
      (execution_history.execute (ex_env none 0) 1 _ _ _ _ execution_history.start e1)
  obtain ⟨r2, hr2⟩ : ∃ r2, in3_ctx_execute (ex_env none 0) 1 (ex_client 1)
      (ex_ctx_answered "eth_blockNumber" [(IN3_ERPC, "boom")]) [] = some r2 :=
    Option.isSome_iff_exists.mp (by decide)
  have ha : r2.ctx.attempt = 1 := by
    have : (in3_ctx_execute (ex_env none 0) 1 (ex_client 1)
        (ex_ctx_answered "eth_blockNumber" [(IN3_ERPC, "boom")]) []).map
          (fun r => r.ctx.attempt) = some 1 := by decide
    rw [hr2] at this
    simpa using this
  exact ⟨by decide, rfl, hist, r2, hr2, ha,
    attempt_never_exceeds_max_attempts (ex_client 1) (ex_ctx "eth_blockNumber") []
      (by decide) rfl r2.client r2.ctx r2.required
      (execution_history.execute (ex_env none 0) 1 _ _ _ r2 hist hr2)⟩

/-! ## Sub-contexts first -/

/-- C6, counterexample: the parent is error-free, has a method and a
sub-context; Execute on the sub-context returns `IN3_WAITING`; but the parent
already holds a parsed response with verification state ok, and
`in3_ctx_execute` on the parent returns `IN3_OK` without running the
sub-context. -/
theorem in3_ctx_execute_required_counterexample :
    ({ ex_ctx "eth_call" with
        response_context := some ⟨.object [("result", .integer 1)], false⟩
        verification_state := IN3_OK } : in3_ctx_t).error = none
    ∧ (d_get ({ ex_ctx "eth_call" with
        response_context := some ⟨.object [("result", .integer 1)], false⟩
        verification_state := IN3_OK } : in3_ctx_t).requests.head? K_METHOD).isSome = true
    ∧ (in3_ctx_execute (ex_env none 0) 1 (ex_client 1) (ex_ctx "eth_getBlockByNumber") []).map
        (fun r => r.ret) = some IN3_WAITING
    ∧ (in3_ctx_execute (ex_env none 0) 2 (ex_client 1)
        { ex_ctx "eth_call" with
          response_context := some ⟨.object [("result", .integer 1)], false⟩
          verification_state := IN3_OK }
        [ex_ctx "eth_getBlockByNumber"]).map (fun r => (r.ret, r.trace)) = some (IN3_OK, [])
    ∧ IN3_OK ≠ IN3_WAITING := by
  decide

/-- C6, amended: for an error-free context with a method that has not already
completed (no parsed response with verification state ok) and a sub-context
chain, if Execute on the required sub-context returns a status other than ok,
`in3_ctx_execute` on the parent returns that status, hands the parent context
back unchanged (attempt counter, nodes and responses included), and takes no
step of its own: the steps recorded are those of the sub-context. -/
theorem in3_ctx_execute_required_first (env : environment) (fuel : Nat) (client : in3_t)
    (ctx sub_ctx : in3_ctx_t) (rest : List in3_ctx_t) (sub : exec_result)
    (hrun : runnable ctx)
    (hsub : in3_ctx_execute env fuel client sub_ctx rest = some sub)
    (hret : sub.ret ≠ IN3_OK) :
    in3_ctx_execute env (fuel + 1) client ctx (sub_ctx :: rest)
      = some ⟨sub.ret, sub.client, ctx, sub.ctx :: sub.required, sub.trace⟩ := by
  obtain ⟨h1, h2, h3, h4⟩ := hrun
  have h2' : ctx.request_context.isNone = false := by
    cases hc : ctx.request_context <;> simp_all
  have h3' : (d_get ctx.requests.head? K_METHOD).isNone = false := by
    cases hc : d_get ctx.requests.head? K_METHOD <;> simp_all
  rw [in3_ctx_execute]
  simp [h1, h2', h3', h4, hsub, hret]

/-- C6, amended, instance: a fresh parent whose sub-context is waiting for its
transport. -/
theorem in3_ctx_execute_required_first_witness :
    runnable (ex_ctx "eth_call")
    ∧ ∃ sub : exec_result,
        in3_ctx_execute (ex_env none 0) 1 (ex_client 1) (ex_ctx "eth_getBlockByNumber") []
          = some sub
        ∧ sub.ret = IN3_WAITING
        ∧ in3_ctx_execute (ex_env none 0) (1 + 1) (ex_client 1) (ex_ctx "eth_call")
            [ex_ctx "eth_getBlockByNumber"]
          = some ⟨sub.ret, sub.client, ex_ctx "eth_call", sub.ctx :: sub.required, sub.trace⟩ := by
  have hrun : runnable (ex_ctx "eth_call") := by
    unfold runnable
    decide
  obtain ⟨sub, hsub⟩ : ∃ sub, in3_ctx_execute (ex_env none 0) 1 (ex_client 1)
      (ex_ctx "eth_getBlockByNumber") [] = some sub :=
    Option.isSome_iff_exists.mp (by decide)
  have hret : sub.ret = IN3_WAITING := by
    have : (in3_ctx_execute (ex_env none 0) 1 (ex_client 1) (ex_ctx "eth_getBlockByNumber")
        []).map (fun r => r.ret) = some IN3_WAITING := by decide
    rw [hsub] at this
    simpa using this
  exact ⟨hrun, sub, hsub, hret,
    in3_ctx_execute_required_first (ex_env none 0) 1 (ex_client 1) (ex_ctx "eth_call")
      (ex_ctx "eth_getBlockByNumber") [] sub hrun hsub (by rw [hret]; decide)⟩

/-! ## Signing contexts -/

/-- C7, counterexample: a signing context that is error-free, has a method and
no sub-context, and whose signer has not answered (no raw response), so that the
claim promises waiting; it holds a parsed response with verification state ok,
and `in3_ctx_execute` returns `IN3_OK` from its third `return`, before it looks
at the type. -/
theorem in3_ctx_execute_sign_counterexample :
    ({ ex_ctx "sign_ec_hash" with
        type := .CT_SIGN
        response_context := some ⟨.object [("result", .integer 1)], false⟩
        verification_state := IN3_OK } : in3_ctx_t).error = none
    ∧ (d_get ({ ex_ctx "sign_ec_hash" with
        type := .CT_SIGN
        response_context := some ⟨.object [("result", .integer 1)], false⟩
        verification_state := IN3_OK } : in3_ctx_t).requests.head? K_METHOD).isSome = true
    ∧ ({ ex_ctx "sign_ec_hash" with
        type := .CT_SIGN
        response_context := some ⟨.object [("result", .integer 1)], false⟩
        verification_state := IN3_OK } : in3_ctx_t).raw_response = none
    ∧ (in3_ctx_execute (ex_env none 0) 1 (ex_client 1)
        { ex_ctx "sign_ec_hash" with
          type := .CT_SIGN
          response_context := some ⟨.object [("result", .integer 1)], false⟩
          verification_state := IN3_OK } []).map (fun r => (r.ret, r.trace))
        = some (IN3_OK, [])
    ∧ IN3_OK ≠ IN3_WAITING := by
  decide

/-- C7, amended: for an error-free `CT_SIGN` context with a method that has not
already completed (no parsed response with verification state ok) and whose
sub-context chain is out of the way, `in3_ctx_execute` returns waiting when
there is no raw response or the slot is waiting, the RPC error when the slot's
state is an error, and ok when it is ok.  The context is handed back unchanged
and the call takes no step of its own (no chain lookup, no node pick, no
verifier): the steps recorded are those `tr` of the sub-context. -/
theorem in3_ctx_execute_sign (env : environment) (fuel : Nat) (client client1 : in3_t)
    (ctx : in3_ctx_t) (required required1 : List in3_ctx_t) (tr : List exec_event)
    (herr : ctx.error = none) (hreq : ctx.request_context.isSome = true)
    (hmethod : (d_get ctx.requests.head? K_METHOD).isSome = true)
    (hdone : ¬(ctx.response_context.isSome = true ∧ ctx.verification_state = IN3_OK))
    (htype : ctx.type = .CT_SIGN)
    (hsub : required_done env fuel client required client1 required1 tr) :
    ∃ ret : in3_ret_t,
      in3_ctx_execute env (fuel + 1) client ctx required
        = some ⟨ret, client1, ctx, required1, tr⟩
      ∧ (ctx.raw_response = none → ret = IN3_WAITING)
      ∧ ∀ slot rest, ctx.raw_response = some (slot :: rest) →
          (slot.state = IN3_WAITING → ret = IN3_WAITING)
          ∧ (slot.state ≠ IN3_WAITING → slot.state ≠ IN3_OK → ret = IN3_ERPC)
          ∧ (slot.state = IN3_OK → ret = IN3_OK) := by
  have hrun : runnable ctx := ⟨herr, hreq, hmethod, hdone⟩
  refine ⟨execute_sign ctx, ?_, ?_, ?_⟩
  · rw [in3_ctx_execute_dispatch env fuel client ctx required client1 required1 tr hrun hsub]
    unfold execute_dispatch
    rw [htype]
  · intro h
    simp [execute_sign, h]
  · intro slot rest h
    refine ⟨?_, ?_, ?_⟩
    · intro hs
      simp [execute_sign, h, hs]
    · intro hs1 hs2
      simp [execute_sign, h, hs1, hs2]
    · intro hs
      simp [execute_sign, h, hs]

/-- C7, amended, instance: a signing context whose slot the signer has filled. -/
theorem in3_ctx_execute_sign_witness :
    ∃ ret : in3_ret_t,
      in3_ctx_execute (ex_env none 0) (0 + 1) (ex_client 1)
          { ex_ctx "sign_ec_hash" with
            type := .CT_SIGN, raw_response := some [⟨IN3_OK, some "signature"⟩] } []
        = some ⟨ret, ex_client 1,
            { ex_ctx "sign_ec_hash" with
              type := .CT_SIGN, raw_response := some [⟨IN3_OK, some "signature"⟩] }, [], []⟩
      ∧ ret = IN3_OK := by
  obtain ⟨ret, h1, _, h3⟩ := in3_ctx_execute_sign (ex_env none 0) 0 (ex_client 1) (ex_client 1)
    { ex_ctx "sign_ec_hash" with
      type := .CT_SIGN, raw_response := some [⟨IN3_OK, some "signature"⟩] } [] [] []
    rfl rfl (by decide) (by decide) rfl ⟨rfl, rfl, rfl⟩
  exact ⟨ret, h1, (h3 ⟨IN3_OK, some "signature"⟩ [] rfl).2.2 rfl⟩

/-! ## Node selection -/

/-- C8, counterexample: a fresh RPC context (no raw response, no picked nodes)
and a Node Selector that fails with `IN3_EFIND`: the status returned is
`IN3_EFIND`, not `IN3_ECONFIG` (an error is recorded). -/
theorem in3_ctx_execute_selection_counterexample :
    (ex_ctx "eth_blockNumber").raw_response = none ∧ (ex_ctx "eth_blockNumber").nodes = []
    ∧ ((ex_env none IN3_EFIND).in3_node_list_pick_nodes (ex_client 1)
        (ex_ctx "eth_blockNumber") [] 3
        (data_node_filter (ex_env none IN3_EFIND) (ex_client 1)
          (ex_ctx "eth_blockNumber"))).ret = IN3_EFIND
    ∧ (in3_ctx_execute (ex_env none IN3_EFIND) 1 (ex_client 1) (ex_ctx "eth_blockNumber")
        []).map (fun r => (r.ret, r.ctx.error))
        = some (IN3_EFIND, some "could not find any node")
    ∧ IN3_EFIND ≠ IN3_ECONFIG := by
  decide

/-- C8, amended: for an RPC context that, after the `pre_handle` stage, has
neither a raw response nor picked nodes, if the Node Selector returns a status
other than ok then `in3_ctx_execute` returns that very status; it records the
error "could not find any node" on the context unless the status is `waiting`,
in which case the error is the one the selector left. -/
theorem in3_ctx_execute_selection_failed (env : environment) (fuel : Nat)
    (client client1 : in3_t) (ctx : in3_ctx_t) (required required1 : List in3_ctx_t)
    (tr : List exec_event) (ci : Nat) (chain : in3_chain_t) (verifier : in3_verifier_t)
    (hrun : runnable ctx)
    (hsub : required_done env fuel client required client1 required1 tr)
    (hrpc : rpc_ready env client1 ctx ci chain verifier)
    (hph : ¬ (internal_handling verifier client1 ctx required1).1 < 0)
    (hraw : (internal_handling verifier client1 ctx required1).2.1.raw_response = none)
    (hnodes : ctx.nodes = [])
    (hpick : (env.in3_node_list_pick_nodes client1
        (internal_handling verifier client1 ctx required1).2.1
        (internal_handling verifier client1 ctx required1).2.2.1 client1.request_count
        (data_node_filter env client1
          (internal_handling verifier client1 ctx required1).2.1)).ret ≠ IN3_OK) :
    let p := env.in3_node_list_pick_nodes client1
      (internal_handling verifier client1 ctx required1).2.1
      (internal_handling verifier client1 ctx required1).2.2.1 client1.request_count
      (data_node_filter env client1 (internal_handling verifier client1 ctx required1).2.1)
    ∃ r, in3_ctx_execute env (fuel + 1) client ctx required = some r
      ∧ r.ret = p.ret
      ∧ (p.ret ≠ IN3_WAITING → r.ctx.error = some "could not find any node")
      ∧ (p.ret = IN3_WAITING → r.ctx.error = p.error) := by
  intro p
  have hn : (internal_handling verifier client1 ctx required1).2.1.nodes = [] :=
    (internal_handling_frame verifier client1 ctx required1).2.1.trans hnodes
  rw [in3_ctx_execute_dispatch env fuel client ctx required client1 required1 tr hrun hsub]
  unfold execute_dispatch
  rw [hrpc.1]
  simp only
  have hE : execute_rpc env client1 ctx required1
      = .finished ⟨(ctx_set_error { (internal_handling verifier client1 ctx required1).2.1 with
            nodes := p.nodes, error := p.error } "could not find any node" p.ret).2,
          client1,
          (ctx_set_error { (internal_handling verifier client1 ctx required1).2.1 with
            nodes := p.nodes, error := p.error } "could not find any node" p.ret).1,
          p.required,
          [exec_event.find_chain client1.chain_id] ++ [exec_event.get_verifier chain.type]
            ++ (internal_handling verifier client1 ctx required1).2.2.2
            ++ [exec_event.pick_nodes client1.request_count
              (data_node_filter env client1
                (internal_handling verifier client1 ctx required1).2.1).props]⟩ := by
    rw [execute_rpc_resolved env client1 ctx required1 ci chain verifier hrpc hph]
    unfold execute_rpc_pick
    simp only [hraw, hn, Option.isNone_none, List.isEmpty_nil, and_self, if_true]
    rw [if_neg hpick]
  rw [hE]
  refine ⟨_, rfl, ctx_set_error_ret _ _ _, ?_, ?_⟩
  · intro hw
    simp [ctx_set_error, hw]
  · intro hw
    simp [ctx_set_error, hw]

/-- C8, amended, instance: the selector fails with `IN3_EFIND`. -/
theorem in3_ctx_execute_selection_failed_witness :
    ∃ r, in3_ctx_execute (ex_env none IN3_EFIND) (0 + 1) (ex_client 1)
        (ex_ctx "eth_blockNumber") [] = some r
      ∧ r.ret = IN3_EFIND ∧ r.ctx.error = some "could not find any node" := by
  obtain ⟨r, h1, h2, h3, _⟩ := in3_ctx_execute_selection_failed (ex_env none IN3_EFIND) 0
    (ex_client 1) (ex_client 1) (ex_ctx "eth_blockNumber") [] [] [] 0 ex_chain
    (ex_verifier none) (by unfold runnable; decide) ⟨rfl, rfl, rfl⟩ ⟨rfl, rfl, rfl, rfl⟩
    (by decide) rfl rfl (by decide)
  exact ⟨r, h1, h2, h3 (by decide)⟩

/-- C14: for `lastNodeList ≤ currentBlock`, an 8-bit `replace_latest_block` and a
16-bit `avg_block_time`, `update_waittime` returns 0 when
`currentBlock − lastNodeList ≥ replace_latest_block`, and otherwise
`min((replace_latest_block − (currentBlock − lastNodeList)) × avg_block_time, 3600)`;
the product is below `2^64` and the result below `2^16`, so neither the 64-bit
multiplication nor the 16-bit return value loses anything. -/
theorem update_waittime_value (nodelist_block current_blk repl_latest avg_blktime : Nat)
    (hle : nodelist_block ≤ current_blk) (hrepl : repl_latest < 2 ^ 8)
    (havg : avg_blktime < 2 ^ 16) :
    (current_blk - nodelist_block ≥ repl_latest →
        update_waittime nodelist_block current_blk repl_latest avg_blktime = 0)
      ∧ (current_blk - nodelist_block < repl_latest →
        update_waittime nodelist_block current_blk repl_latest avg_blktime
            = min ((repl_latest - (current_blk - nodelist_block)) * avg_blktime) 3600
          ∧ (repl_latest - (current_blk - nodelist_block)) * avg_blktime < 2 ^ 64
          ∧ min ((repl_latest - (current_blk - nodelist_block)) * avg_blktime) 3600
              < 2 ^ 16) := by
  have hgt : ¬ nodelist_block > current_blk := by omega
  constructor
  · intro hge
    unfold update_waittime
    rw [if_neg hgt]
    simp only
    rw [if_pos hge]
  · intro hlt
    have hprod : (repl_latest - (current_blk - nodelist_block)) * avg_blktime < 2 ^ 64 := by
      have h1 : repl_latest - (current_blk - nodelist_block) ≤ 2 ^ 8 := by omega
      calc (repl_latest - (current_blk - nodelist_block)) * avg_blktime
          ≤ 2 ^ 8 * 2 ^ 16 := Nat.mul_le_mul h1 (Nat.le_of_lt havg)
        _ < 2 ^ 64 := by norm_num
    have hmin : min ((repl_latest - (current_blk - nodelist_block)) * avg_blktime) 3600
        < 2 ^ 16 :=
      lt_of_le_of_lt (Nat.min_le_right _ _) (by norm_num)
    refine ⟨?_, hprod, hmin⟩
    unfold update_waittime
    rw [if_neg hgt]
    simp only
    rw [if_neg (by omega), Nat.mod_eq_of_lt hprod]
    exact Nat.mod_eq_of_lt hmin

/-- C14, instance: five blocks behind a depth of six, twelve seconds a block. -/
theorem update_waittime_value_witness :
    update_waittime 95 100 6 12 = min ((6 - (100 - 95)) * 12) 3600
      ∧ update_waittime 95 100 6 12 = 12 :=
  ⟨((update_waittime_value 95 100 6 12 (by decide) (by decide) (by decide)).2
    (by decide)).1, by decide⟩

/-! ## The auto-update descriptor -/
/-- C15: a call of `check_autoupdate` writes a descriptor exactly when the
auto-update flag is set and `chain.last_block < lastNodeList ≤ currentBlock`.
The descriptor it writes has `exp_last_block = lastNodeList`, which is at most
the `currentBlock` of the same response, and a timestamp that lies at most 3600
seconds after the current time (the clock being at least 3600 seconds away from
the end of the 64-bit range); in every other case the descriptor stays as it
was. -/
theorem check_autoupdate_descriptor_bounds (env : environment) (client : in3_t)
    (chain : in3_chain_t) (response_in3 : Option d_token_t) (node : Option node_match_t)
    (hnow : env.now + 3600 < 2 ^ 64) :
    (client.flags &&& FLAGS_AUTO_UPDATE_LIST ≠ 0
        ∧ ¬ d_get_longk response_in3 K_LAST_NODE_LIST > d_get_longk response_in3 K_CURRENT_BLOCK
        ∧ d_get_longk response_in3 K_LAST_NODE_LIST > chain.last_block →
      ∃ d, (check_autoupdate env client chain response_in3 node).nodelist_upd8_params = some d
        ∧ d.exp_last_block = d_get_longk response_in3 K_LAST_NODE_LIST
        ∧ d.exp_last_block ≤ d_get_longk response_in3 K_CURRENT_BLOCK
        ∧ env.now ≤ d.timestamp ∧ d.timestamp - env.now ≤ 3600)
      ∧ (¬ (client.flags &&& FLAGS_AUTO_UPDATE_LIST ≠ 0
        ∧ ¬ d_get_longk response_in3 K_LAST_NODE_LIST > d_get_longk response_in3 K_CURRENT_BLOCK
        ∧ d_get_longk response_in3 K_LAST_NODE_LIST > chain.last_block) →
      (check_autoupdate env client chain response_in3 node).nodelist_upd8_params
        = chain.nodelist_upd8_params) := by
  have hd := check_autoupdate_descriptor env client chain response_in3 node
  constructor
  · intro hg
    rw [if_pos hg] at hd
    have hw := update_waittime_le_cap (d_get_longk response_in3 K_LAST_NODE_LIST)
      (d_get_longk response_in3 K_CURRENT_BLOCK) client.replace_latest_block
      chain.avg_block_time
    refine ⟨_, hd, rfl, Nat.le_of_not_lt hg.2.1, ?_, ?_⟩
    · show env.now ≤ (env.now + _) % 2 ^ 64
      rw [Nat.mod_eq_of_lt (by omega)]
      exact Nat.le_add_right _ _
    · show (env.now + _) % 2 ^ 64 - env.now ≤ 3600
      rw [Nat.mod_eq_of_lt (by omega)]
      omega
  · intro hg
    rw [if_neg hg] at hd
    exact hd

/-- C15, instance: a response that announces node list 95 at block 100 to a
chain whose list is of block 0; the clock reads 1000. -/
theorem check_autoupdate_descriptor_bounds_witness :
    ∃ d, (check_autoupdate (ex_env none 0) { ex_client 1 with flags := FLAGS_AUTO_UPDATE_LIST }
        ex_chain (some (.object [("lastNodeList", .integer 95), ("currentBlock", .integer 100)]))
        (some ⟨ex_node 0, some 0⟩)).nodelist_upd8_params = some d
      ∧ d.exp_last_block = 95 ∧ d.exp_last_block ≤ 100
      ∧ 1000 ≤ d.timestamp ∧ d.timestamp - 1000 ≤ 3600 :=
  (check_autoupdate_descriptor_bounds (ex_env none 0)
    { ex_client 1 with flags := FLAGS_AUTO_UPDATE_LIST } ex_chain
    (some (.object [("lastNodeList", .integer 95), ("currentBlock", .integer 100)]))
    (some ⟨ex_node 0, some 0⟩) (by decide)).1 ⟨by decide, by decide, by decide⟩

/-- C16, counterexample: with `lastNodeList = 100` and `currentBlock = 95` the
announced list is newer than the announced block; `check_autoupdate` returns at
its second `return` and the chain has no descriptor afterwards (and
`update_waittime` itself yields 0, not 12, for these two values). -/
theorem check_autoupdate_schedule_counterexample :
    ({ ex_client 1 with flags := FLAGS_AUTO_UPDATE_LIST } : in3_t).replace_latest_block = 6
      ∧ ex_chain.avg_block_time = 12 ∧ ex_chain.last_block < 100
      ∧ (check_autoupdate (ex_env none 0) { ex_client 1 with flags := FLAGS_AUTO_UPDATE_LIST }
          ex_chain
          (some (.object [("lastNodeList", .integer 100), ("currentBlock", .integer 95)]))
          (some ⟨ex_node 0, some 0⟩)).nodelist_upd8_params = none
      ∧ update_waittime 100 95 6 12 = 0 := by
  decide

/-- C16, amended: with auto-update enabled, a response carrying
`lastNodeList = 95` and `currentBlock = 100` on a client with
`replace_latest_block = 6` and a chain with `avg_block_time = 12` and
`last_block < 95` makes `check_autoupdate` write the descriptor with
`exp_last_block = 95`, timestamp `now + 12` and the 20-byte address of the
announcing node. -/
theorem check_autoupdate_schedules (env : environment) (client : in3_t) (chain : in3_chain_t)
    (response_in3 : Option d_token_t) (m : node_match_t)
    (hflag : client.flags &&& FLAGS_AUTO_UPDATE_LIST ≠ 0)
    (hlist : d_get_longk response_in3 K_LAST_NODE_LIST = 95)
    (hblock : d_get_longk response_in3 K_CURRENT_BLOCK = 100)
    (hrepl : client.replace_latest_block = 6) (havg : chain.avg_block_time = 12)
    (hlast : chain.last_block < 95) (hadr : m.node.address.length = 20)
    (hold : ∀ p, chain.nodelist_upd8_params = some p → p.node.length = 20)
    (hnow : env.now + 12 < 2 ^ 64) :
    (check_autoupdate env client chain response_in3 (some m)).nodelist_upd8_params
      = some { node := m.node.address, exp_last_block := 95, timestamp := env.now + 12 } := by
  rw [check_autoupdate_descriptor, hlist, hblock, hrepl, havg,
    if_pos ⟨hflag, by decide, hlast⟩]
  have hw : update_waittime 95 100 6 12 = 12 := by decide
  have hc : copy_node_address chain.nodelist_upd8_params m.node.address = m.node.address := by
    unfold copy_node_address
    cases hp : chain.nodelist_upd8_params with
    | none => simp [hadr]
    | some p => simp [hadr, hold p hp]
  simp only [hw, hc, Nat.mod_eq_of_lt hnow]

/-- C16, amended, instance: node 0 of the example chain announces the list; the
clock reads 1000. -/
theorem check_autoupdate_schedules_witness :
    (check_autoupdate (ex_env none 0) { ex_client 1 with flags := FLAGS_AUTO_UPDATE_LIST }
        ex_chain (some (.object [("lastNodeList", .integer 95), ("currentBlock", .integer 100)]))
        (some ⟨ex_node 0, some 0⟩)).nodelist_upd8_params
      = some { node := (ex_node 0).address, exp_last_block := 95, timestamp := 1000 + 12 } :=
  check_autoupdate_schedules (ex_env none 0) { ex_client 1 with flags := FLAGS_AUTO_UPDATE_LIST }
    ex_chain (some (.object [("lastNodeList", .integer 95), ("currentBlock", .integer 100)]))
    ⟨ex_node 0, some 0⟩ (by decide) (by decide) (by decide) rfl rfl (by decide) (by decide)
    (by intro p hp; cases hp) (by decide)

/-! ## The in3 member of a composed request -/

/-- C17: `ctx_create_payload` adds one object for each request of the batch when
it returns `IN3_OK`; every object it adds is the one composed for the request at
its position, it has an `in3` member if and only if a proof is requested or the
client holds a signing key, and inside that member `verification` is "never"
exactly when no proof is requested and "proof" otherwise, and `sig` is present
exactly when the client holds a key. -/
theorem ctx_create_payload_in3 (env : environment) (cenv : composer_t) (client : in3_t)
    (ctx : in3_ctx_t) (multichain : Bool) (rpc_id_counter : Nat) :
    ((ctx_create_payload env cenv client ctx multichain rpc_id_counter).ret = IN3_OK →
        (ctx_create_payload env cenv client ctx multichain rpc_id_counter).payload.length
          = ctx.len)
      ∧ ∀ (i : Nat) (obj : payload_request),
          (ctx_create_payload env cenv client ctx multichain rpc_id_counter).payload[i]?
            = some obj →
          (∃ c c1 : Nat, payload_object cenv client ctx multichain
              (env.in3_ctx_get_proof client ctx) c ctx.requests[i]? = .composed obj c1)
          ∧ (obj.in3.isSome = true
              ↔ (env.in3_ctx_get_proof client ctx ≠ .PROOF_NONE ∨ client.key.isSome = true))
          ∧ ∀ in3, obj.in3 = some in3 →
              (∀ v, ("verification", v) ∈ in3
                  ↔ v = .quoted (if env.in3_ctx_get_proof client ctx = .PROOF_NONE
                      then "never" else "proof"))
              ∧ ((∃ v, ("sig", v) ∈ in3) ↔ client.key.isSome = true) := by
  obtain ⟨objs, h1, h2, h3⟩ := payload_loop_objects cenv client multichain
    (env.in3_ctx_get_proof client ctx) ctx.len 0 ctx rpc_id_counter []
  unfold ctx_create_payload
  rw [h1, List.nil_append]
  refine ⟨h2, ?_⟩
  intro i obj hobj
  obtain ⟨c, c1, hc⟩ := h3 i obj hobj
  rw [Nat.zero_add] at hc
  obtain ⟨t, params, _, _, _, hyes, hno⟩ := payload_object_composed cenv client ctx multichain
    (env.in3_ctx_get_proof client ctx) c ctx.requests[i]? obj c1 hc
  have hkey := payload_object_hashed_isSome cenv client ctx multichain
    (env.in3_ctx_get_proof client ctx) c ctx.requests[i]? obj c1 hc
  rw [hkey] at hyes hno
  refine ⟨⟨c, c1, hc⟩, ⟨?_, fun h => (hyes h).2⟩, ?_⟩
  · intro hsome
    by_contra hcon
    rw [hno hcon] at hsome
    cases hsome
  · intro in3 hin3
    have hcond : env.in3_ctx_get_proof client ctx ≠ .PROOF_NONE ∨ client.key.isSome = true := by
      by_contra hcon
      rw [hno hcon] at hin3
      cases hin3
    have hm := payload_in3_members cenv client ctx multichain
      (env.in3_ctx_get_proof client ctx) obj.hashed ctx.requests[i]? in3
      ((hyes hcond).1.symm.trans hin3)
    rw [hkey] at hm
    exact hm

/-- C17, instance: a client with a key and no proof composes for the request
without id an object whose `in3` member says "never" and carries a signature. -/
theorem ctx_create_payload_in3_witness :
    ∃ obj in3,
      (ctx_create_payload (ex_env none 0) ex_composer (ex_client_key .PROOF_NONE)
        (ex_ctx_of [ex_request_call, ex_request_block] false) true 1).payload[1]? = some obj
      ∧ obj.in3 = some in3
      ∧ ("verification", sb_value.quoted "never") ∈ in3
      ∧ ∃ v, ("sig", v) ∈ in3 := by
  have h := (ctx_create_payload_in3 (ex_env none 0) ex_composer (ex_client_key .PROOF_NONE)
    (ex_ctx_of [ex_request_call, ex_request_block] false) true 1).2 1 _ rfl
  exact ⟨_, _, rfl, rfl, ((h.2.2 _ rfl).1 _).2 rfl, (h.2.2 _ rfl).2.2 rfl⟩

/-! ## The bytes of the request-signing digest -/

/-- C18: when the client holds a signing key, the bytes `ctx_create_payload`
hashes for request `i` are the id as rendered, then the method string, then the
bytes of every non-null leaf scalar of `params` in document order; the stream
starts anew at every request, so two requests with the same rendered id, method
and params have the same stream and the same digest, wherever they stand in a
batch and whatever came before them. -/
theorem ctx_create_payload_digest (env : environment) (cenv : composer_t) (client : in3_t)
    (ctx : in3_ctx_t) (multichain : Bool) (rpc_id_counter : Nat)
    (hkey : client.key.isSome = true) :
    (∀ (i : Nat) (obj : payload_request),
        (ctx_create_payload env cenv client ctx multichain rpc_id_counter).payload[i]?
          = some obj →
        ∃ idv, obj.members.head? = some ("id", idv)
          ∧ obj.hashed = some (digest_stream cenv (sb_text idv)
              ((d_get_stringk ctx.requests[i]? K_METHOD).getD "")
              (d_get ctx.requests[i]? K_PARAMS)))
      ∧ ∀ (env2 : environment) (client2 : in3_t) (ctx2 : in3_ctx_t) (multichain2 : Bool)
          (counter2 i j : Nat) (obj1 obj2 : payload_request),
          client2.key.isSome = true →
          (ctx_create_payload env cenv client ctx multichain rpc_id_counter).payload[i]?
            = some obj1 →
          (ctx_create_payload env2 cenv client2 ctx2 multichain2 counter2).payload[j]?
            = some obj2 →
          obj1.members.head?.map (fun m => sb_text m.2)
            = obj2.members.head?.map (fun m => sb_text m.2) →
          d_get_stringk ctx.requests[i]? K_METHOD = d_get_stringk ctx2.requests[j]? K_METHOD →
          d_get ctx.requests[i]? K_PARAMS = d_get ctx2.requests[j]? K_PARAMS →
          obj1.hashed = obj2.hashed
            ∧ obj1.hashed.map cenv.keccak = obj2.hashed.map cenv.keccak := by
  refine ⟨fun i obj hobj => ctx_create_payload_hashed env cenv client ctx multichain
    rpc_id_counter hkey i obj hobj, ?_⟩
  intro env2 client2 ctx2 multichain2 counter2 i j obj1 obj2 hkey2 h1 h2 hid hmethod hparams
  obtain ⟨id1, a1, b1⟩ := ctx_create_payload_hashed env cenv client ctx multichain
    rpc_id_counter hkey i obj1 h1
  obtain ⟨id2, a2, b2⟩ := ctx_create_payload_hashed env2 cenv client2 ctx2 multichain2
    counter2 hkey2 j obj2 h2
  rw [a1, a2] at hid
  simp only [Option.map_some', Option.some.injEq] at hid
  have : obj1.hashed = obj2.hashed := by rw [b1, b2, hid, hmethod, hparams]
  exact ⟨this, by rw [this]⟩

/-- C18, instance: the request with id 7, method `eth_call` and a params tree
with a nested object, a null and a nested array. -/
theorem ctx_create_payload_digest_witness :
    ∃ obj idv,
      (ctx_create_payload (ex_env none 0) ex_composer (ex_client_key .PROOF_STANDARD)
        (ex_ctx_of [ex_request_block, ex_request_call] false) false 1).payload[1]? = some obj
      ∧ obj.members.head? = some ("id", idv)
      ∧ obj.hashed = some (digest_stream ex_composer (sb_text idv) "eth_call"
          (some (.array [.integer 1, .object [("to", .string "ab"), ("x", .null)],
            .array [.integer 3]])))
      ∧ obj.hashed = some [55, 101, 116, 104, 95, 99, 97, 108, 108, 1, 97, 98, 3] := by
  obtain ⟨idv, h1, h2⟩ := (ctx_create_payload_digest (ex_env none 0) ex_composer
    (ex_client_key .PROOF_STANDARD) (ex_ctx_of [ex_request_block, ex_request_call] false)
    false 1 rfl).1 1 _ rfl
  exact ⟨_, idv, rfl, h1, h2, by decide⟩

/-! ## A binary request document -/

/-- C19 as stated fails: the request document is binary and the request has no
`params` member; the composer returns `IN3_OK` with one object and
`in3_create_request` returns a request. -/
theorem ctx_create_payload_binary_counterexample :
    ((ex_ctx_of [ex_request_block] true).request_context.map (fun d => d.is_binary))
        = some true
      ∧ (ctx_create_payload (ex_env none 0) ex_composer (ex_client 1)
          (ex_ctx_of [ex_request_block] true) false 1).ret = IN3_OK
      ∧ (ctx_create_payload (ex_env none 0) ex_composer (ex_client 1)
          (ex_ctx_of [ex_request_block] true) false 1).payload.length = 1
      ∧ (in3_create_request (ex_env none 0) ex_composer (ex_client 1)
          (ex_ctx_of [ex_request_block] true) 1).1.isSome = true
      ∧ (in3_create_request (ex_env none 0) ex_composer (ex_client 1)
          (ex_ctx_of [ex_request_block] true) 1).2.1.error = none := by
  refine ⟨rfl, by decide, by decide, by decide, by decide⟩

/-- C19, amended: when the request document is binary and a request of the batch
has a `params` member, `ctx_create_payload` returns `IN3_EINVAL` with the error
set on the context, and `in3_create_request` returns no request and leaves an
error on the context. -/
theorem ctx_create_payload_binary (env : environment) (cenv : composer_t) (client : in3_t)
    (ctx : in3_ctx_t) (multichain : Bool) (rpc_id_counter : Nat) (k : Nat)
    (hk : k < ctx.len)
    (hbin : (ctx.request_context.map (fun d => d.is_binary)).getD false = true)
    (hp : (d_get ctx.requests[k]? K_PARAMS).isSome = true) :
    (ctx_create_payload env cenv client ctx multichain rpc_id_counter).ret = IN3_EINVAL
      ∧ (ctx_create_payload env cenv client ctx multichain rpc_id_counter).ctx.error.isSome
          = true
      ∧ (in3_create_request env cenv client ctx rpc_id_counter).1 = none
      ∧ (in3_create_request env cenv client ctx rpc_id_counter).2.1.error.isSome = true := by
  have hloop : ∀ m, (ctx_create_payload env cenv client ctx m rpc_id_counter).ret = IN3_EINVAL
      ∧ (ctx_create_payload env cenv client ctx m rpc_id_counter).ctx.error.isSome = true :=
    fun m => payload_loop_binary cenv client m (env.in3_ctx_get_proof client ctx) ctx k hbin hp
      ctx.len 0 rpc_id_counter [] (Nat.zero_le k) (by omega)
  refine ⟨(hloop multichain).1, (hloop multichain).2, ?_, ?_⟩
  · unfold in3_create_request
    simp only [(hloop _).1]
    rfl
  · unfold in3_create_request
    simp only [(hloop _).1]
    rfl

/-- C19, amended, instance: a binary document whose second request has params. -/
theorem ctx_create_payload_binary_witness :
    (ctx_create_payload (ex_env none 0) ex_composer (ex_client 1)
        (ex_ctx_of [ex_request_block, ex_request_call] true) false 1).ret = IN3_EINVAL
      ∧ (in3_create_request (ex_env none 0) ex_composer (ex_client 1)
        (ex_ctx_of [ex_request_block, ex_request_call] true) 1).1 = none := by
  have h := ctx_create_payload_binary (ex_env none 0) ex_composer (ex_client 1)
    (ex_ctx_of [ex_request_block, ex_request_call] true) false 1 1 (by decide) rfl rfl
  exact ⟨h.1, h.2.2.1⟩

/-! ## Asking for signatures -/

/-- C20, counterexample: the client wants two signatures, but no proof is
requested and the method is not `in3_nodeList`; `pick_signers` returns at its
first `return` without asking the node selector, and the context has no
signers. -/
theorem pick_signers_counterexample :
    ({ ex_client 1 with signature_count := 2, proof := .PROOF_NONE } : in3_t).signature_count > 0
      ∧ (pick_signers (ex_env none 0)
          { ex_client 1 with signature_count := 2, proof := .PROOF_NONE }
          (ex_ctx "eth_blockNumber") [] (ex_ctx "eth_blockNumber").requests.head?).2.1 = IN3_OK
      ∧ (pick_signers (ex_env none 0)
          { ex_client 1 with signature_count := 2, proof := .PROOF_NONE }
          (ex_ctx "eth_blockNumber") [] (ex_ctx "eth_blockNumber").requests.head?).2.2 = []
      ∧ (pick_signers (ex_env none 0)
          { ex_client 1 with signature_count := 2, proof := .PROOF_NONE }
          (ex_ctx "eth_blockNumber") [] (ex_ctx "eth_blockNumber").requests.head?).1.1.signers
          = none := by
  decide

/-- C20, amended: `pick_signers` asks the node selector for signer nodes if and
only if the request is a node-list request that asks for signatures by itself
(`auto_ask_sig`), or a proof is requested and `signature_count > 0`.  It then
requests `signature_count` nodes (1 when `signature_count` is 0) with the signer
capability added to the client's node properties and the hinted signer nodes of
the request; when the selector does not fail, the signers of the context are
the addresses of the returned nodes, in order, and `signers_length` is their
number.  `signature_count` is an 8-bit field. -/
theorem pick_signers_asks (env : environment) (client : in3_t) (ctx : in3_ctx_t)
    (required : List in3_ctx_t) (request : Option d_token_t)
    (hcount : client.signature_count < 2 ^ 8) :
    let cnt := if client.signature_count ≠ 0 then client.signature_count else 1
    let filter : in3_node_filter_t :=
      { nodes := d_get (d_get request K_IN3) K_SIGNER_NODES
        props := client.node_props ||| NODE_PROP_SIGNER }
    let p := env.in3_node_list_pick_nodes client ctx required cnt filter
    (auto_ask_sig client ctx = true
        ∨ (env.in3_ctx_get_proof client ctx ≠ .PROOF_NONE ∧ client.signature_count > 0) →
      (pick_signers env client ctx required request).2.2
          = [exec_event.pick_nodes cnt (client.node_props ||| NODE_PROP_SIGNER)]
        ∧ (¬ p.ret < 0 →
            (pick_signers env client ctx required request).2.1 = IN3_OK
            ∧ (pick_signers env client ctx required request).1.1.signers
                = some (p.nodes.map (fun m => m.node.address))
            ∧ (pick_signers env client ctx required request).1.1.signers_length
                = p.nodes.length))
      ∧ (¬ (auto_ask_sig client ctx = true
        ∨ (env.in3_ctx_get_proof client ctx ≠ .PROOF_NONE ∧ client.signature_count > 0)) →
      (pick_signers env client ctx required request).2.2 = []
        ∧ (pick_signers env client ctx required request).2.1 = IN3_OK
        ∧ (pick_signers env client ctx required request).1.1.signers = ctx.signers
        ∧ (pick_signers env client ctx required request).1.1.signers_length
            = ctx.signers_length) := by
  intro cnt filter p
  constructor
  · intro hask
    have hguard : ¬ (env.in3_ctx_get_proof client ctx = .PROOF_NONE
        ∧ auto_ask_sig client ctx = false) := by
      rintro ⟨h1, h2⟩
      rcases hask with h | ⟨h, _⟩
      · rw [h2] at h
        cases h
      · exact h h1
    have htotal : (if client.signature_count ≠ 0 then client.signature_count
        else if auto_ask_sig client ctx then 1 else 0) % 2 ^ 8 = cnt := by
      by_cases hs : client.signature_count ≠ 0
      · simp only [hs, if_true, cnt, ne_eq, not_false_eq_true]
        exact Nat.mod_eq_of_lt hcount
      · have ha : auto_ask_sig client ctx = true := by
          rcases hask with h | ⟨_, h⟩
          · exact h
          · omega
        simp only [hs, ha, if_true, if_false, cnt]
        rfl
    have hne : cnt ≠ 0 := by
      by_cases hs : client.signature_count ≠ 0
      · simp only [hs, if_true, cnt, ne_eq, not_false_eq_true]
      · have hs0 : client.signature_count = 0 := by omega
        simp [hs0, cnt]
    unfold pick_signers
    rw [if_neg hguard]
    simp only [htotal]
    rw [if_pos hne]
    by_cases hret : p.ret < 0
    · rw [if_pos hret]
      exact ⟨rfl, fun h => absurd hret h⟩
    · rw [if_neg hret]
      exact ⟨rfl, fun _ => ⟨rfl, rfl, rfl⟩⟩
  · intro hask
    have hauto : auto_ask_sig client ctx = false := by
      cases h : auto_ask_sig client ctx with
      | false => rfl
      | true => exact absurd (Or.inl h) hask
    unfold pick_signers
    by_cases hproof : env.in3_ctx_get_proof client ctx = .PROOF_NONE
    · rw [if_pos ⟨hproof, hauto⟩]
      exact ⟨rfl, rfl, rfl, rfl⟩
    · have hs : client.signature_count = 0 := by
        by_contra h
        exact hask (Or.inr ⟨hproof, Nat.pos_of_ne_zero h⟩)
      rw [if_neg (fun h => hproof h.1)]
      simp [hs, hauto]

/-- C20, amended, instance: a proof is requested and two signatures are wanted;
the selector of the example returns its first node. -/
theorem pick_signers_asks_witness :
    (pick_signers (ex_env none 0) { ex_client 1 with signature_count := 2 }
        (ex_ctx "eth_blockNumber") [] (ex_ctx "eth_blockNumber").requests.head?).2.2
        = [exec_event.pick_nodes 2 NODE_PROP_SIGNER]
      ∧ (pick_signers (ex_env none 0) { ex_client 1 with signature_count := 2 }
        (ex_ctx "eth_blockNumber") [] (ex_ctx "eth_blockNumber").requests.head?).1.1.signers
        = some [(ex_node 0).address] := by
  have h := (pick_signers_asks (ex_env none 0) { ex_client 1 with signature_count := 2 }
    (ex_ctx "eth_blockNumber") [] (ex_ctx "eth_blockNumber").requests.head? (by decide)).1
    (Or.inr ⟨by decide, by decide⟩)
  exact ⟨h.1, (h.2 (by decide)).2.1⟩

/-! ## The cached node list -/

/-- C21: a chain with a 20-byte contract, 20-byte node addresses and URLs
without NUL, whose fields fit their widths (64-bit last block, deposit, props
and blacklist timestamp, 32-bit capacity, index and counters, a node count
below `2^31`) and whose node list and weights table have `nodelist_length`
entries.  When a storage returns, under the key of the target chain, the bytes
`in3_cache_store_nodelist` handed to `set_item`, `in3_cache_update_nodelist`
loads exactly the contract, the last block, the node count, the weights table
and the node list (every field of every node) of the stored chain. -/
theorem in3_cache_nodelist_round_trip (c0 c : cache_client_t) (chain target : cache_chain_t)
    (h0 h : in3_storage_handler_t) (contract : List Nat) (ret0 : in3_ret_t) (key : String)
    (bytes : List Nat) (hc0 : c0.cache = some h0) (hc : c.cache = some h)
    (hcontract : chain.contract = some contract) (hlen : contract.length = 20)
    (hlast : chain.last_block < 2 ^ 64)
    (hn : chain.nodelist.length = chain.nodelist_length)
    (hw : chain.weights.length = chain.nodelist_length)
    (hcount : chain.nodelist_length < 2 ^ 31)
    (hweights : ∀ e ∈ chain.weights, e.response_count < 2 ^ 32
      ∧ e.total_response_time < 2 ^ 32 ∧ e.blacklisted_until < 2 ^ 64)
    (hnodes : ∀ n ∈ chain.nodelist, n.capacity < 2 ^ 32 ∧ n.index < 2 ^ 32
      ∧ n.deposit < 2 ^ 64 ∧ n.props < 2 ^ 64 ∧ n.address.length = 20
      ∧ ∀ ch ∈ n.url.data, ch.toNat ≠ 0)
    (hstore : in3_cache_store_nodelist c0 chain = some ⟨ret0, some (key, bytes)⟩)
    (hget : h.get_item (write_cache_key target.chain_id target.contract) = some bytes) :
    key = write_cache_key chain.chain_id chain.contract
      ∧ ∃ loaded ret, in3_cache_update_nodelist c target = some (loaded, ret)
        ∧ loaded.contract = chain.contract
        ∧ loaded.last_block = chain.last_block
        ∧ loaded.nodelist_length = chain.nodelist_length
        ∧ loaded.weights = chain.weights
        ∧ loaded.nodelist = chain.nodelist := by
  rw [in3_cache_store_nodelist_bytes c0 chain h0 contract hc0 hcontract hn hw] at hstore
  simp only [Option.some.injEq, cache_store_t.mk.injEq, Prod.mk.injEq] at hstore
  obtain ⟨_, hkey, hbytes⟩ := hstore
  refine ⟨hkey.symm, ?_⟩
  rw [← hbytes, ← hn] at hget
  have := in3_cache_update_nodelist_bytes c target h contract chain.last_block
    chain.nodelist chain.weights hc hlen hlast (by omega) (by omega) hweights hnodes hget
  exact ⟨_, _, this, hcontract.symm, rfl, hn, rfl, rfl⟩

/-- C21, instance: the chain `ex_cache_chain` with its two nodes, loaded into a
chain that has the same id and contract and nothing else. -/
theorem in3_cache_nodelist_round_trip_witness :
    ∃ bytes loaded ret,
      (in3_cache_store_nodelist ⟨some (ex_storage []), []⟩ ex_cache_chain).bind
          (fun r => r.set_item) = some (write_cache_key 1 ex_cache_chain.contract, bytes)
        ∧ in3_cache_update_nodelist ⟨some (ex_storage bytes), []⟩
            { ex_cache_chain with
              last_block := 0, nodelist_length := 0, nodelist := [], weights := [] }
          = some (loaded, ret)
        ∧ loaded.nodelist = ex_cache_chain.nodelist
        ∧ loaded.weights = ex_cache_chain.weights
        ∧ loaded.last_block = 1000 := by
  obtain ⟨bytes, hb⟩ : ∃ bytes,
      in3_cache_store_nodelist ⟨some (ex_storage []), []⟩ ex_cache_chain
        = some ⟨IN3_OK, some (write_cache_key 1 ex_cache_chain.contract, bytes)⟩ := ⟨_, rfl⟩
  obtain ⟨_, loaded, ret, h1, _, h3, _, h5, h6⟩ := in3_cache_nodelist_round_trip
    ⟨some (ex_storage []), []⟩ ⟨some (ex_storage bytes), []⟩ ex_cache_chain
    { ex_cache_chain with
      last_block := 0, nodelist_length := 0, nodelist := [], weights := [] }
    (ex_storage []) (ex_storage bytes) (List.replicate 20 171) IN3_OK _ bytes rfl rfl rfl
    (by decide) (by decide) rfl rfl (by decide) (by decide) (by decide) hb rfl
  exact ⟨bytes, loaded, ret, by rw [hb]; rfl, h1, h6, h5, h3⟩

/-! ## A cached record of another version -/

/-- C22: a cached record whose first byte is not the cache version 3 makes
`in3_cache_update_nodelist` and `in3_cache_update_whitelist` return with the
chain as it was (node list, weights, last block and whitelist included); and
`in3_cache_init` returns ok, with every chain as it was when all the records of
the storage are of that kind. -/
theorem in3_cache_version_mismatch (c : cache_client_t) (chain : cache_chain_t)
    (h : in3_storage_handler_t) (hc : c.cache = some h) :
    (∀ v rest, h.get_item (write_cache_key chain.chain_id chain.contract) = some (v :: rest) →
        v ≠ CACHE_VERSION → in3_cache_update_nodelist c chain = some (chain, IN3_EVERS))
      ∧ (∀ v rest,
          h.get_item (write_cache_key chain.chain_id chain.whitelist_contract)
            = some (v :: rest) →
          v ≠ CACHE_VERSION → in3_cache_update_whitelist c chain = some (chain, IN3_EVERS))
      ∧ ((∀ key b, h.get_item key = some b → ∃ v rest, b = v :: rest ∧ v ≠ CACHE_VERSION) →
          in3_cache_init c = some (c, IN3_OK))
      ∧ ∀ r, in3_cache_init c = some r → r.2 = IN3_OK := by
  refine ⟨fun v rest hg hv => in3_cache_update_nodelist_mismatch c chain h v rest hc hg hv,
    fun v rest hg hv => in3_cache_update_whitelist_mismatch c chain h v rest hc hg hv,
    fun hall => ?_, fun r hr => ?_⟩
  · simp only [in3_cache_init, cache_init_loop_mismatch c h hc hall, Option.map_some']
  · unfold in3_cache_init at hr
    cases hl : cache_init_loop c c.chains with
    | none => rw [hl] at hr; cases hr
    | some chains =>
        rw [hl] at hr
        simp only [Option.map_some', Option.some.injEq] at hr
        rw [← hr]

/-- C22, instance: the storage holds a record of version 2 for the chain
`ex_cache_chain`. -/
theorem in3_cache_version_mismatch_witness :
    in3_cache_update_nodelist ⟨some (ex_storage [2, 1, 1]), [ex_cache_chain]⟩ ex_cache_chain
        = some (ex_cache_chain, IN3_EVERS)
      ∧ in3_cache_init ⟨some (ex_storage [2, 1, 1]), [ex_cache_chain]⟩
        = some (⟨some (ex_storage [2, 1, 1]), [ex_cache_chain]⟩, IN3_OK) := by
  have h := in3_cache_version_mismatch ⟨some (ex_storage [2, 1, 1]), [ex_cache_chain]⟩
    ex_cache_chain (ex_storage [2, 1, 1]) rfl
  refine ⟨h.1 2 [1, 1] rfl (by decide), h.2.2.1 ?_⟩
  intro key b hb
  cases hb
  exact ⟨2, [1, 1], rfl, by decide⟩

/-! ## Hash mode and raw mode of the signer -/

/-- C23: when the library's hash-then-sign of a message under a key is its
`ecdsa_sign_digest` of the Keccak-256 hash of the message, signing the message
in hash mode gives the same status and the same signature buffer as signing
its hash in raw mode, for `ec_sign_pk` and for `eth_sign_pk_ctx`. -/
theorem ec_sign_pk_hash_is_raw_of_keccak (lib : ecdsa_t) (pk message dst : List Nat)
    (sctx : in3_sign_ctx_t)
    (hlib : ∀ k m, lib.ecdsa_sign k m = lib.ecdsa_sign_digest k (lib.keccak m)) :
    ec_sign_pk lib .SIGN_EC_HASH message pk dst
        = ec_sign_pk lib .SIGN_EC_RAW (lib.keccak message) pk dst
      ∧ (eth_sign_pk_ctx lib { sctx with type := .SIGN_EC_HASH }).1
          = (eth_sign_pk_ctx lib
              { sctx with type := .SIGN_EC_RAW, message := lib.keccak sctx.message }).1
      ∧ (eth_sign_pk_ctx lib { sctx with type := .SIGN_EC_HASH }).2.signature
          = (eth_sign_pk_ctx lib
              { sctx with type := .SIGN_EC_RAW, message := lib.keccak sctx.message }).2.signature := by
  have h : ∀ m k d, ec_sign_pk_hash lib m k .hasher_sha3k d
      = ec_sign_pk_raw lib (lib.keccak m) k d := by
    intro m k d
    simp only [ec_sign_pk_hash, ec_sign_pk_raw, hlib, if_true]
  refine ⟨h message pk dst, ?_, ?_⟩
  · simp only [eth_sign_pk_ctx, h]
  · simp only [eth_sign_pk_ctx, h]

/-- C23, instance: a key of two bytes, a message of three, a buffer of 65
zeros; then a library whose calls fail. -/
theorem ec_sign_pk_hash_is_raw_of_keccak_witness :
    ec_sign_pk ex_ecdsa .SIGN_EC_HASH [1, 2, 3] [7, 7] (List.replicate 65 0)
        = (IN3_OK, [7, 7, 3, 6] ++ List.replicate 61 0)
      ∧ ec_sign_pk ex_ecdsa .SIGN_EC_RAW (ex_ecdsa.keccak [1, 2, 3]) [7, 7]
          (List.replicate 65 0) = (IN3_OK, [7, 7, 3, 6] ++ List.replicate 61 0)
      ∧ ec_sign_pk ex_ecdsa_failing .SIGN_EC_HASH [1, 2, 3] [7, 7] [0]
          = ec_sign_pk ex_ecdsa_failing .SIGN_EC_RAW (ex_ecdsa_failing.keccak [1, 2, 3])
              [7, 7] [0] := by
  have h := (ec_sign_pk_hash_is_raw_of_keccak ex_ecdsa [7, 7] [1, 2, 3]
    (List.replicate 65 0) ⟨.SIGN_EC_HASH, [], [], []⟩ (fun _ _ => rfl)).1
  have hraw : ec_sign_pk ex_ecdsa .SIGN_EC_RAW (ex_ecdsa.keccak [1, 2, 3]) [7, 7]
      (List.replicate 65 0) = (IN3_OK, [7, 7, 3, 6] ++ List.replicate 61 0) := by decide
  exact ⟨h.trans hraw, hraw,
    (ec_sign_pk_hash_is_raw_of_keccak ex_ecdsa_failing [7, 7] [1, 2, 3] [0]
      ⟨.SIGN_EC_HASH, [], [], []⟩ (fun _ _ => rfl)).1⟩

/-! ## The HTTP-only option -/

/-- C24: `convert_to_http_url` returns `http://` followed by the rest of the URL
when the URL starts with `https://`, and the URL itself otherwise; applying it
twice is applying it once; and the request `in3_create_request` returns has the
converted URL of every picked node when the flag `FLAGS_HTTP` is set, and the
URL of every picked node as it is when the flag is clear. -/
theorem convert_to_http_url_rewrites (u : String) (env : environment) (cenv : composer_t)
    (client : in3_t) (ctx : in3_ctx_t) (rpc_id_counter : Nat) :
    ("https://".data.isPrefixOf u.data = true →
        convert_to_http_url u = String.mk ("http://".data ++ u.data.drop 8))
      ∧ ("https://".data.isPrefixOf u.data = false → convert_to_http_url u = u)
      ∧ convert_to_http_url (convert_to_http_url u) = convert_to_http_url u
      ∧ ∀ req, (in3_create_request env cenv client ctx rpc_id_counter).1 = some req →
          req.urls.length = ctx_nodes_len ctx.nodes
          ∧ (client.flags &&& FLAGS_HTTP ≠ 0 →
              req.urls = ctx.nodes.map (fun n => convert_to_http_url n.node.url))
          ∧ (client.flags &&& FLAGS_HTTP = 0 →
              req.urls = ctx.nodes.map (fun n => n.node.url)) := by
  refine ⟨convert_to_http_url_https u, convert_to_http_url_other u,
    convert_to_http_url_other _ (convert_to_http_url_no_https u), ?_⟩
  intro req hreq
  have h := in3_create_request_urls env cenv client ctx rpc_id_counter req hreq
  refine ⟨by rw [h, List.length_map, ctx_nodes_len], fun hf => ?_, fun hf => ?_⟩
  · rw [h]
    simp only [if_pos hf]
  · rw [h]
    simp only [hf, ne_eq, not_true_eq_false, if_false]

/-- C24, instance: an `https` URL, and a request for one picked node on a client
with the flag `FLAGS_HTTP`. -/
theorem convert_to_http_url_rewrites_witness :
    convert_to_http_url "https://node.io/x" = "http://node.io/x"
      ∧ ((in3_create_request (ex_env none 0) ex_composer
          { ex_client 1 with flags := FLAGS_HTTP }
          { ex_ctx_of [ex_request_block] false with
            nodes := [⟨{ ex_node 0 with url := "https://in3.io/n0" }, some 0⟩] } 1).1.map
          (fun r => r.urls)) = some ["http://in3.io/n0"] := by
  have h := convert_to_http_url_rewrites "https://node.io/x" (ex_env none 0) ex_composer
    { ex_client 1 with flags := FLAGS_HTTP }
    { ex_ctx_of [ex_request_block] false with
      nodes := [⟨{ ex_node 0 with url := "https://in3.io/n0" }, some 0⟩] } 1
  refine ⟨(h.1 (by decide)).trans (by decide), ?_⟩
  have h2 := (h.2.2.2 _ rfl).2.1 (by decide)
  exact congrArg some (h2.trans (by decide))

/-! ## Finding a sub-context -/

/-- C25: on a chain whose sub-contexts all carry a request array,
`ctx_find_required` returns (with more loop turns than the chain has contexts)
the first sub-context in chain order whose first request has the searched
method, and NULL when no sub-context has it.  The function only reads the
chain: the pointer it returns is into the chain as it is. -/
theorem ctx_find_required_first (required : List in3_ctx_t) (search_method : String)
    (fuel : Nat) (hreq : ∀ c ∈ required, c.requests ≠ []) (hfuel : required.length < fuel) :
    (∀ pre c rest, required = pre ++ c :: rest →
        (∀ x ∈ pre, ctx_is_method x search_method = false) →
        ctx_is_method c search_method = true →
        ctx_find_required fuel required search_method = some (c :: rest))
      ∧ ((∀ c ∈ required, ctx_is_method c search_method = false) →
          ctx_find_required fuel required search_method = some [])
      ∧ ∃ pre found, ctx_find_required fuel required search_method = some found
          ∧ required = pre ++ found := by
  have h := ctx_find_required_dropWhile search_method required fuel hreq hfuel
  refine ⟨?_, ?_, ?_⟩
  · intro pre c rest heq hpre hc
    rw [h, heq]
    exact congrArg some (dropWhile_append_found _ pre c rest
      (fun x hx => by simp [hpre x hx]) (by simp [hc]))
  · intro hall
    rw [h]
    exact congrArg some (dropWhile_all _ required (fun x hx => by simp [hall x hx]))
  · exact ⟨required.takeWhile (fun c => !ctx_is_method c search_method), _, h,
      (List.takeWhile_append_dropWhile _ required).symm⟩

/-- C25, instance: the second of three sub-contexts is the first one for
`eth_getCode`; two turns of fuel per context are more than enough. -/
theorem ctx_find_required_first_witness :
    ctx_find_required 4 [ex_ctx "eth_call", ex_ctx "eth_getCode", ex_ctx "eth_getCode"]
        "eth_getCode" = some [ex_ctx "eth_getCode", ex_ctx "eth_getCode"] :=
  (ctx_find_required_first [ex_ctx "eth_call", ex_ctx "eth_getCode", ex_ctx "eth_getCode"]
    "eth_getCode" 4
    (by
      intro c hc
      simp only [List.mem_cons, List.mem_singleton, List.not_mem_nil, or_false] at hc
      rcases hc with rfl | rfl | rfl <;> exact List.cons_ne_nil _ _)
    (by decide)).1 [ex_ctx "eth_call"] (ex_ctx "eth_getCode") [ex_ctx "eth_getCode"] rfl
    (by
      intro x hx
      simp only [List.mem_singleton] at hx
      subst hx
      rfl)
    rfl

/-! ## Removing a sub-context -/

/-- C26 as stated fails: the child at address 2 is the second of three
sub-contexts; `ctx_remove_required` returns ok, the chain of the parent holds
only the first sub-context afterwards, and the third one is freed with the
child. -/
theorem ctx_remove_required_counterexample :
    ex_chain_of_three.map Prod.fst = [1, 2, 3]
      ∧ (ctx_remove_required ex_chain_of_three (some 2)).ret = IN3_OK
      ∧ (ctx_remove_required ex_chain_of_three (some 2)).required.map Prod.fst = [1]
      ∧ (ctx_remove_required ex_chain_of_three (some 2)).freed = [3, 2] := by
  decide

/-- C26, amended: for a non-null child, `ctx_remove_required` returns ok if and
only if the child is in the chain of the parent; the chain is then cut in front
of the child (the link to it is set to NULL), so the sub-contexts before it
remain in their order, and the child and every sub-context after it are freed.
When the child is not in the chain it returns `IN3_EFIND` and changes nothing,
and a null child returns ok and changes nothing. -/
theorem ctx_remove_required_cuts (required : ctx_chain_t) (a : Nat) :
    ((ctx_remove_required required (some a)).ret = IN3_OK ↔ a ∈ required.map Prod.fst)
      ∧ (a ∈ required.map Prod.fst →
          (ctx_remove_required required (some a)).required
              = required.takeWhile (fun c => c.1 != a)
            ∧ (ctx_remove_required required (some a)).freed
              = ((required.dropWhile (fun c => c.1 != a)).map Prod.fst).reverse
            ∧ ∃ child rest, required.dropWhile (fun c => c.1 != a) = child :: rest
              ∧ child.1 = a
              ∧ required = (ctx_remove_required required (some a)).required ++ child :: rest)
      ∧ (a ∉ required.map Prod.fst →
          (ctx_remove_required required (some a)).ret = IN3_EFIND
            ∧ (ctx_remove_required required (some a)).required = required
            ∧ (ctx_remove_required required (some a)).freed = [])
      ∧ (ctx_remove_required required none).ret = IN3_OK
      ∧ (ctx_remove_required required none).required = required
      ∧ (ctx_remove_required required none).freed = [] := by
  have hw := remove_walk_spec a required
  have hin : a ∈ required.map Prod.fst →
      (ctx_remove_required required (some a)).ret = IN3_OK
        ∧ (ctx_remove_required required (some a)).required
          = required.takeWhile (fun c => c.1 != a)
        ∧ (ctx_remove_required required (some a)).freed
          = ((required.dropWhile (fun c => c.1 != a)).map Prod.fst).reverse := by
    intro h
    simp only [ctx_remove_required, hw.1 h]
    refine ⟨?_, ?_, ?_⟩ <;> trivial
  have hout : a ∉ required.map Prod.fst →
      (ctx_remove_required required (some a)).ret = IN3_EFIND
        ∧ (ctx_remove_required required (some a)).required = required
        ∧ (ctx_remove_required required (some a)).freed = [] := by
    intro h
    simp only [ctx_remove_required, hw.2 h]
    refine ⟨?_, ?_, ?_⟩ <;> trivial
  refine ⟨⟨fun h => ?_, fun h => (hin h).1⟩, fun h => ⟨(hin h).2.1, (hin h).2.2, ?_⟩, hout,
    rfl, rfl, rfl⟩
  · by_contra hn
    rw [(hout hn).1] at h
    exact absurd h (by decide)
  · have hsplit := List.takeWhile_append_dropWhile (fun c : Nat × in3_ctx_t => c.1 != a) required
    cases hd : required.dropWhile (fun c => c.1 != a) with
    | nil =>
        rw [hd, List.append_nil] at hsplit
        obtain ⟨c, hc, hca⟩ := List.mem_map.mp h
        have := List.mem_takeWhile_imp (hsplit ▸ hc)
        simp [hca] at this
    | cons child rest =>
        refine ⟨child, rest, rfl, ?_, ?_⟩
        · have := List.head_dropWhile_not (fun c : Nat × in3_ctx_t => c.1 != a) required
            (by rw [hd]; exact List.cons_ne_nil _ _)
          simp only [hd, List.head_cons] at this
          simpa using this
        · rw [(hin h).2.1, ← hd]
          exact hsplit.symm

/-- C26, amended, instance: removing the last of three sub-contexts frees only
that one. -/
theorem ctx_remove_required_cuts_witness :
    (ctx_remove_required ex_chain_of_three (some 3)).required.map Prod.fst = [1, 2]
      ∧ (ctx_remove_required ex_chain_of_three (some 3)).freed = [3]
      ∧ (ctx_remove_required ex_chain_of_three (some 4)).ret = IN3_EFIND := by
  have h := ctx_remove_required_cuts ex_chain_of_three 3
  have h4 := ctx_remove_required_cuts ex_chain_of_three 4
  refine ⟨?_, (h.2.1 (by decide)).2.1.trans (by decide), (h4.2.2.1 (by decide)).1⟩
  rw [(h.2.1 (by decide)).1]
  decide

/-! ## No valid response -/

/-- C29: for a response that parses into a document, `ctx_parse_response`
returns ok exactly when the document is an object and there is one request, or
an array with as many elements as there are requests; on ok the parsed
responses are as many as the requests, and response `i` is element `i` of the
document (the document itself for an object); in every other case it returns
`IN3_EINVALDT` and sets the error of the context. -/
theorem ctx_parse_response_shape (env : environment) (ctx : in3_ctx_t)
    (response_data : String) (len : Nat) (doc : json_ctx_t)
    (hdoc : (if response_data.data.head? = some (Char.ofNat 123)
          ∨ response_data.data.head? = some (Char.ofNat 91)
        then env.parse_json response_data
        else env.parse_binary_str response_data len) = some doc) :
    ((ctx_parse_response env ctx response_data len).2 = IN3_OK
        ↔ ((∃ props, doc.result = .object props) ∧ ctx.len = 1)
          ∨ ∃ items, doc.result = .array items ∧ items.length = ctx.len)
      ∧ ((ctx_parse_response env ctx response_data len).2 = IN3_OK →
          ∃ rs, (ctx_parse_response env ctx response_data len).1.responses = some rs
            ∧ rs.length = ctx.len
            ∧ ((∃ props, doc.result = .object props) → rs = [doc.result])
            ∧ (∀ items, doc.result = .array items → ∀ i : Nat, rs[i]? = items[i]?))
      ∧ ((ctx_parse_response env ctx response_data len).2 ≠ IN3_OK →
          (ctx_parse_response env ctx response_data len).2 = IN3_EINVALDT
            ∧ (ctx_parse_response env ctx response_data len).1.error.isSome = true) := by
  unfold ctx_parse_response
  simp only [hdoc]
  cases hr : doc.result with
  | object props =>
      by_cases hl : ctx.len = 1
      · simp [hl, hr]
      · simp [hl, hr, ctx_set_error]
  | array items =>
      by_cases hl : items.length = ctx.len
      · simp [hl, hr]
      · simp [hl, hr, ctx_set_error]
  | null => simp [hr, ctx_set_error]
  | boolean b => simp [hr, ctx_set_error]
  | integer n => simp [hr, ctx_set_error]
  | string s => simp [hr, ctx_set_error]
  | bytes b => simp [hr, ctx_set_error]

/-- C29, instance: a body that parses into an array of two results, for a
context with two requests. -/
theorem ctx_parse_response_shape_witness :
    (ctx_parse_response
        { ex_env none 0 with
          parse_json := fun _ => some ⟨.array [.integer 1, .integer 2], false⟩ }
        (ex_ctx_of [ex_request_block, ex_request_block] false) "[1,2]" 5).2 = IN3_OK := by
  have h := ctx_parse_response_shape
    { ex_env none 0 with
      parse_json := fun _ => some ⟨.array [.integer 1, .integer 2], false⟩ }
    (ex_ctx_of [ex_request_block, ex_request_block] false) "[1,2]" 5
    ⟨.array [.integer 1, .integer 2], false⟩ rfl
  exact h.1.mpr (Or.inr ⟨_, rfl, rfl⟩)

/-! ## A latency sample is counted once -/

/-- C30: the "handle times" block of `find_valid_result` for slot `n`.  With a
non-zero sample and a node that holds its weight, the entry gets one more
response and the sample added to its total response time (32-bit counters:
exactly `+ 1` and `+ sample` when they do not wrap), and the sample is set
to 0.  With a zero sample, or a node rejected in this context, nothing is
written; so running the block again changes nothing.  Across any number of runs
of `find_valid_result` over the same context and slots, the sample of a node
that is the only one to point to its entry is folded into the entry at most
once (`folded_at_most_once`). -/
theorem find_valid_result_folds_once (env : environment) (client : in3_t)
    (nodes_count : Nat) (v : Option in3_verifier_t) (runs n j w : Nat) (st : fvr_state) :
    (∀ ts m e, st.ctx.times = some ts → st.ctx.nodes[n]? = some m → m.weight = some w →
        ts.getD n 0 ≠ 0 → st.chain.weights[w]? = some e →
        (∃ e1, (fvr_times n st).chain.weights[w]? = some e1
            ∧ e1.response_count = (e.response_count + 1) % 2 ^ 32
            ∧ e1.total_response_time = (e.total_response_time + ts.getD n 0) % 2 ^ 32
            ∧ (e.response_count + 1 < 2 ^ 32 → e1.response_count = e.response_count + 1)
            ∧ (e.total_response_time + ts.getD n 0 < 2 ^ 32 →
                e1.total_response_time = e.total_response_time + ts.getD n 0)
            ∧ e1.blacklisted_until = e.blacklisted_until)
          ∧ latency_sample (fvr_times n st) n = 0)
      ∧ ((latency_sample st n = 0 ∨ ∃ m, st.ctx.nodes[n]? = some m ∧ m.weight = none) →
          fvr_times n st = st)
      ∧ fvr_times n (fvr_times n st) = fvr_times n st
      ∧ (owns_weight j w st.ctx.nodes →
          folded_at_most_once j w st (fvr_runs env client nodes_count v runs st)) := by
  have hzero : ∀ s : fvr_state, latency_sample s n = 0 → fvr_times n s = s := by
    intro s hs
    rcases fvr_times_cases n s with ⟨ts, _, _, ht, _, _, hne, _⟩ | ⟨_, h⟩
    · simp only [latency_sample, ht, Option.getD_some] at hs
      exact absurd hs hne
    · exact h
  have hfold : ∀ ts m w1, st.ctx.times = some ts → st.ctx.nodes[n]? = some m →
      m.weight = some w1 → ts.getD n 0 ≠ 0 → latency_sample (fvr_times n st) n = 0 := by
    intro ts m w1 ht hm hw hs
    unfold fvr_times
    simp only [ht, hm, hw]
    rw [if_neg hs]
    simp only [latency_sample, Option.getD_some, List.getD_eq_getElem?_getD,
      update_at_getElem?_self]
    cases ts[n]? <;> rfl
  refine ⟨?_, ?_, ?_, fvr_runs_fold_once env client nodes_count v j w runs st⟩
  · intro ts m e ht hm hw hs he
    refine ⟨?_, hfold ts m w ht hm hw hs⟩
    unfold fvr_times
    simp only [ht, hm, hw]
    rw [if_neg hs]
    simp only [update_at_getElem?_self, he, Option.map_some']
    exact ⟨_, rfl, rfl, rfl, fun h => Nat.mod_eq_of_lt h, fun h => Nat.mod_eq_of_lt h, rfl⟩
  · rintro (h | ⟨m, hm, hw⟩)
    · exact hzero st h
    · rcases fvr_times_cases n st with ⟨_, m1, _, _, h2, h3, _, _⟩ | ⟨_, h⟩
      · rw [hm] at h2
        cases h2
        rw [hw] at h3
        cases h3
      · exact h
  · rcases fvr_times_cases n st with ⟨ts, m, w1, ht, hm, hw, hs, _⟩ | ⟨_, h⟩
    · exact hzero _ (hfold ts m w1 ht hm hw hs)
    · rw [h, h]

/-- C30, instance: one node with the sample 10 and a valid body; after two runs
of the matcher its entry counts one response and 10 units of time. -/
theorem find_valid_result_folds_once_witness :
    folded_at_most_once 0 0
        { ex_state "eth_blockNumber" [(IN3_OK, "good")] none with
          ctx := { ex_ctx_answered "eth_blockNumber" [(IN3_OK, "good")] with
            times := some [10] } }
        (fvr_runs (ex_env none 0) (ex_client 3) 1 (some (ex_verifier none)) 2
          { ex_state "eth_blockNumber" [(IN3_OK, "good")] none with
            ctx := { ex_ctx_answered "eth_blockNumber" [(IN3_OK, "good")] with
              times := some [10] } })
      ∧ latency_counters
          (fvr_runs (ex_env none 0) (ex_client 3) 1 (some (ex_verifier none)) 2
            { ex_state "eth_blockNumber" [(IN3_OK, "good")] none with
              ctx := { ex_ctx_answered "eth_blockNumber" [(IN3_OK, "good")] with
                times := some [10] } }) 0 = some (1, 10) := by
  refine ⟨(find_valid_result_folds_once (ex_env none 0) (ex_client 3) 1
    (some (ex_verifier none)) 2 0 0 0 _).2.2.2 ⟨?_, ?_⟩, by decide⟩
  · intro j1 m1 hj hm
    cases j1 with
    | zero => exact absurd rfl hj
    | succ k => simp [ex_ctx_answered, show List.range 1 = [0] from rfl] at hm
  · intro m hm
    simp only [ex_ctx_answered] at hm
    cases hm
    exact Or.inl rfl

/-! ## What an ok of the executor stands for -/

/-- C31, the defect: an RPC context without picked nodes whose request the
verifier answers itself (`pre_handle` fills the one slot).  When the body of
the slot does not parse, or the slot is in error state, `find_valid_result` sets
the error of the context and still returns ok (a context without a node is
always kept), and so does `in3_ctx_execute`: the context carries an error, has
no parsed response, and its verification state is not ok.  With a body that
verifies, the call returns ok with no error, a parsed response and the
verification state ok. -/
theorem in3_ctx_execute_ok_with_error :
    (ex_ctx "eth_blockNumber").type = .CT_RPC ∧ (ex_ctx "eth_blockNumber").nodes = []
    ∧ (in3_ctx_execute (ex_env_internal ⟨IN3_OK, some "junk"⟩) 1 (ex_client 3)
        (ex_ctx "eth_blockNumber") []).map
          (fun r => (r.ret, r.ctx.error, r.ctx.response_context.isSome,
            r.ctx.verification_state))
        = some (IN3_OK, some "Error in JSON-response : ", false, IN3_WAITING)
    ∧ (in3_ctx_execute (ex_env_internal ⟨IN3_ERPC, some "boom"⟩) 1 (ex_client 3)
        (ex_ctx "eth_blockNumber") []).map
          (fun r => (r.ret, r.ctx.error, r.ctx.response_context.isSome,
            r.ctx.verification_state))
        = some (IN3_OK, some "boom", false, IN3_WAITING)
    ∧ (in3_ctx_execute (ex_env_internal ⟨IN3_OK, some "good"⟩) 1 (ex_client 3)
        (ex_ctx "eth_blockNumber") []).map
          (fun r => (r.ret, r.ctx.error, r.ctx.response_context.isSome,
            r.ctx.verification_state))
        = some (IN3_OK, none, true, IN3_OK) := by
  decide

/-! ## Termination of the search for a sub-context -/

/-- C32, the defect: when the first sub-context of the chain that is either
without a request array or for the searched method is one without a request
array, the loop of `ctx_find_required` stays at that sub-context: for every
number of turns the function has not returned. -/
theorem ctx_find_required_spins (pre : List in3_ctx_t) (c : in3_ctx_t)
    (rest : List in3_ctx_t) (search_method : String)
    (hpre : ∀ x ∈ pre, x.requests ≠ [] ∧ ctx_is_method x search_method = false)
    (hc : c.requests = []) :
    ∀ fuel, ctx_find_required fuel (pre ++ c :: rest) search_method = none :=
  ctx_find_required_reaches search_method c rest hc pre hpre

/-- C32, instance: the second of three sub-contexts has no request array and
the third is the one searched for; a million turns of the loop are not enough. -/
theorem ctx_find_required_spins_witness :
    ctx_find_required 1000000
      [ex_ctx "eth_call", { ex_ctx "eth_getCode" with requests := [] }, ex_ctx "eth_getCode"]
      "eth_getCode" = none :=
  ctx_find_required_spins [ex_ctx "eth_call"] { ex_ctx "eth_getCode" with requests := [] }
    [ex_ctx "eth_getCode"] "eth_getCode"
    (by
      intro x hx
      simp only [List.mem_singleton] at hx
      subst hx
      exact ⟨List.cons_ne_nil _ _, rfl⟩)
    rfl 1000000

/-! ## The state of a context and its sub-contexts -/

/-- C33: `in3_ctx_state` returns `CTX_SUCCESS` for a null context; for a context
with its chain of sub-contexts it returns `CTX_ERROR` if and only if the context
or one of the sub-contexts carries an error, and `CTX_SUCCESS` if and only if no
context of the chain carries an error, every context of the chain has a raw
response, and every RPC context of the chain has a parsed response. -/
theorem in3_ctx_state_chain (ctx : in3_ctx_t) (required : List in3_ctx_t) :
    in3_ctx_state [] = .CTX_SUCCESS
      ∧ (in3_ctx_state (ctx :: required) = .CTX_ERROR
          ↔ ∃ c ∈ ctx :: required, c.error.isSome = true)
      ∧ (in3_ctx_state (ctx :: required) = .CTX_SUCCESS
          ↔ ∀ c ∈ ctx :: required, c.error = none ∧ c.raw_response.isSome = true
              ∧ (c.type = .CT_RPC → c.response_context.isSome = true)) :=
  ⟨rfl, in3_ctx_state_error (ctx :: required), in3_ctx_state_success (ctx :: required)⟩

/-- C33, instance: the sub-context of the sub-context carries an error. -/
theorem in3_ctx_state_chain_witness :
    in3_ctx_state
      [ex_ctx "eth_call", ex_ctx "eth_getCode", { ex_ctx "eth_call" with error := some "x" }]
      = .CTX_ERROR :=
  (in3_ctx_state_chain (ex_ctx "eth_call")
    [ex_ctx "eth_getCode", { ex_ctx "eth_call" with error := some "x" }]).2.1.mpr
    ⟨{ ex_ctx "eth_call" with error := some "x" }, by simp, rfl⟩

/-! ## The length bytes of a wrapped APDU -/

/-- C34, the defect: `len_to_bytes` writes the high byte first, `bytes_to_len`
reads the low byte first.  For a 16-bit `x` the decoder gives the value with
its two bytes swapped, which is `x` only when the two bytes are equal. -/
theorem bytes_to_len_swaps_bytes (x : Nat) (hx : x < 2 ^ 16) :
    (len_to_bytes x).1 = 2
      ∧ (len_to_bytes x).2 = [x / 256, x % 256]
      ∧ bytes_to_len (len_to_bytes x).2 = x % 256 * 256 + x / 256
      ∧ (bytes_to_len (len_to_bytes x).2 = x ↔ x / 256 = x % 256) := by
  have h := bytes_to_len_len_to_bytes x hx
  have hx1 : x < 65536 := by norm_num at hx; exact hx
  have h255 : (255 : Nat) = 2 ^ 8 - 1 := by norm_num
  refine ⟨rfl, ?_, h, ?_⟩
  · simp only [len_to_bytes, Nat.mod_eq_of_lt hx, Nat.shiftRight_eq_div_pow, h255,
      Nat.and_pow_two_sub_one_eq_mod]
    norm_num
    omega
  · rw [h]
    omega

/-- C34, instance: the length 1 is written as the bytes 0 and 1 and read back
as 256; so is the length of an APDU of one byte that `wrap_apdu` puts into a
packet of 64 bytes and `unwrap_apdu` takes out of it. -/
theorem bytes_to_len_swaps_bytes_witness :
    (len_to_bytes 1).2 = [0, 1] ∧ bytes_to_len (len_to_bytes 1).2 = 256
      ∧ (wrap_apdu 64 [170] 0).map unwrap_apdu = some 256 := by
  have h := bytes_to_len_swaps_bytes 1 (by norm_num)
  exact ⟨h.2.1, h.2.2.1, by decide⟩

/-! ## The statuses of the private-key signer -/

/-- C35: `ec_sign_pk_hash` returns a status other than ok only for the hasher
`hasher_sha3k` and a failing `ecdsa_sign` (the status is then `IN3_EUNKNOWN`);
for every other hasher it returns ok and the buffer as it was, whatever the
library is; `ec_sign_pk` and `eth_sign_pk_ctx` return `IN3_ENOTSUP`, and leave
the buffer alone, for every signature type other than raw and hash. -/
theorem ec_sign_pk_hash_statuses (lib : ecdsa_t) (message pk dst : List Nat)
    (hasher : hasher_t) (type : d_signature_type_t) (sctx : in3_sign_ctx_t) :
    ((ec_sign_pk_hash lib message pk hasher dst).1 ≠ IN3_OK
        ↔ hasher = .hasher_sha3k ∧ lib.ecdsa_sign pk message = none)
      ∧ ((ec_sign_pk_hash lib message pk hasher dst).1 ≠ IN3_OK →
          ec_sign_pk_hash lib message pk hasher dst = (IN3_EUNKNOWN, dst))
      ∧ (hasher ≠ .hasher_sha3k →
          ∀ other : ecdsa_t, ec_sign_pk_hash other message pk hasher dst = (IN3_OK, dst))
      ∧ (type ≠ .SIGN_EC_RAW → type ≠ .SIGN_EC_HASH →
          ec_sign_pk lib type message pk dst = (IN3_ENOTSUP, dst))
      ∧ (sctx.type ≠ .SIGN_EC_RAW → sctx.type ≠ .SIGN_EC_HASH →
          eth_sign_pk_ctx lib sctx = (IN3_ENOTSUP, sctx)) := by
  refine ⟨?_, ?_, ?_, ?_, ?_⟩
  · unfold ec_sign_pk_hash
    cases hasher <;> cases h : lib.ecdsa_sign pk message <;> simp [h]
  · unfold ec_sign_pk_hash
    cases hasher <;> cases h : lib.ecdsa_sign pk message <;> simp [h]
  · intro hh other
    unfold ec_sign_pk_hash
    rw [if_neg hh]
  · intro h1 h2
    cases type
    · exact absurd rfl h1
    · exact absurd rfl h2
    · rfl
  · intro h1 h2
    unfold eth_sign_pk_ctx
    cases ht : sctx.type
    · exact absurd ht h1
    · exact absurd ht h2
    · rfl

/-- C35, instance: a library whose calls fail, asked with `hasher_sha3k`, with
another hasher, and with a signature type outside the enum. -/
theorem ec_sign_pk_hash_statuses_witness :
    ec_sign_pk_hash ex_ecdsa_failing [1, 2, 3] [7, 7] .hasher_sha3k [0, 0]
        = (IN3_EUNKNOWN, [0, 0])
      ∧ ec_sign_pk_hash ex_ecdsa_failing [1, 2, 3] [7, 7] .hasher_other [0, 0]
        = (IN3_OK, [0, 0])
      ∧ ec_sign_pk ex_ecdsa .SIGN_OTHER [1, 2, 3] [7, 7] [0, 0] = (IN3_ENOTSUP, [0, 0]) := by
  have h := ec_sign_pk_hash_statuses ex_ecdsa_failing [1, 2, 3] [7, 7] [0, 0] .hasher_sha3k
    .SIGN_OTHER ⟨.SIGN_OTHER, [], [], []⟩
  have h2 := ec_sign_pk_hash_statuses ex_ecdsa_failing [1, 2, 3] [7, 7] [0, 0] .hasher_other
    .SIGN_OTHER ⟨.SIGN_OTHER, [], [], []⟩
  have h3 := ec_sign_pk_hash_statuses ex_ecdsa [1, 2, 3] [7, 7] [0, 0] .hasher_other
    .SIGN_OTHER ⟨.SIGN_OTHER, [], [], []⟩
  exact ⟨h.2.1 (h.1.mpr ⟨rfl, rfl⟩), h2.2.2.1 (by decide) ex_ecdsa_failing,
    h3.2.2.2.1 (by decide) (by decide)⟩

/-! ## The cached whitelist -/

/-- C36, the defect: `in3_cache_update_whitelist` never hands back a whitelist
contract that is not all zero.  When a storage returns, under the key of the
target chain, the bytes `in3_cache_store_whitelist` handed to `set_item` for a
chain whose whitelist contract has a non-zero byte, then every result of
`in3_cache_update_whitelist` has a whitelist contract other than the stored
one (the bytes read as contract are dropped unless they are all zero). -/
theorem in3_cache_whitelist_contract_lost (c0 c : cache_client_t)
    (chain target : cache_chain_t) (h : in3_storage_handler_t) (contract : List Nat)
    (ret0 : in3_ret_t) (key : String) (bytes : List Nat) (hc : c.cache = some h)
    (hcontract : chain.whitelist_contract = some contract)
    (hnz : memiszero contract 20 = false)
    (hstore : in3_cache_store_whitelist c0 chain = some ⟨ret0, some (key, bytes)⟩)
    (hget : h.get_item (write_cache_key target.chain_id target.whitelist_contract)
      = some bytes) :
    ∀ loaded ret, in3_cache_update_whitelist c target = some (loaded, ret) →
      loaded.whitelist_contract ≠ chain.whitelist_contract := by
  intro loaded ret hload heq
  obtain ⟨_, rest, hb⟩ := in3_cache_store_whitelist_version c0 chain ret0 key bytes hstore
  rw [hb] at hget
  have hz := (in3_cache_update_whitelist_contract c target h rest loaded ret hc hget hload).2
    contract (heq.trans hcontract)
  rw [hz] at hnz
  cases hnz

/-- C36, instance: a whitelist contract of 20 bytes `0xab` and a whitelist of
two addresses.  The record is read to its end, and the chain is left without
whitelist contract and with an empty whitelist. -/
theorem in3_cache_whitelist_contract_lost_witness :
    ∃ bytes loaded,
      (in3_cache_store_whitelist ⟨some (ex_storage []), []⟩ ex_whitelist_chain).bind
          (fun r => r.set_item)
        = some (write_cache_key 1 ex_whitelist_chain.whitelist_contract, bytes)
      ∧ in3_cache_update_whitelist ⟨some (ex_storage bytes), []⟩ ex_whitelist_chain
        = some (loaded, IN3_OK)
      ∧ loaded.whitelist_contract = none ∧ loaded.whitelist = some []
      ∧ loaded.whitelist_contract ≠ ex_whitelist_chain.whitelist_contract := by
  obtain ⟨bytes, hb⟩ : ∃ bytes,
      in3_cache_store_whitelist ⟨some (ex_storage []), []⟩ ex_whitelist_chain
        = some ⟨IN3_OK, some (write_cache_key 1 ex_whitelist_chain.whitelist_contract,
            bytes)⟩ := ⟨_, rfl⟩
  obtain ⟨loaded, hl, h1, h2⟩ : ∃ loaded,
      in3_cache_update_whitelist ⟨some (ex_storage bytes), []⟩ ex_whitelist_chain
        = some (loaded, IN3_OK)
      ∧ loaded.whitelist_contract = none ∧ loaded.whitelist = some [] := by
    have hbytes : bytes = 3 :: (List.replicate 20 171 ++ (be_bytes 4 2
        ++ (List.replicate 20 1
          ++ [2, 2, 2, 2, 0, 0, 0, 0, 2, 2, 2, 2, 2, 2, 2, 2, 2, 2, 2, 2]))) := by
      simp only [in3_cache_store_whitelist, Option.some.injEq, cache_store_t.mk.injEq,
        Prod.mk.injEq] at hb
      rw [← hb.2.2]
      decide
    rw [hbytes]
    exact ⟨{ ex_whitelist_chain with
        whitelist_last_block := 12370169555311111083, whitelist_contract := none,
        whitelist := some [] }, by decide, rfl, rfl⟩
  exact ⟨bytes, loaded, by rw [hb]; rfl, hl, h1, h2,
    in3_cache_whitelist_contract_lost ⟨some (ex_storage []), []⟩
      ⟨some (ex_storage bytes), []⟩ ex_whitelist_chain ex_whitelist_chain
      (ex_storage bytes) (List.replicate 20 171) IN3_OK _ bytes rfl rfl (by decide) hb rfl
      loaded IN3_OK hl⟩

/-! ## The status of loading the node list -/

/-- C37, the defect: `in3_cache_update_nodelist` returns ok without a cache and
without a record, and `IN3_EVERS` for a record of another version; but it also
returns `IN3_EVERS`, never ok, when a record of version 3 has been loaded into
the chain. -/
theorem in3_cache_update_nodelist_status (c : cache_client_t) (chain : cache_chain_t) :
    (c.cache = none → in3_cache_update_nodelist c chain = some (chain, IN3_OK))
      ∧ (∀ h, c.cache = some h →
          h.get_item (write_cache_key chain.chain_id chain.contract) = none →
          in3_cache_update_nodelist c chain = some (chain, IN3_OK))
      ∧ (∀ h v rest, c.cache = some h →
          h.get_item (write_cache_key chain.chain_id chain.contract) = some (v :: rest) →
          v ≠ CACHE_VERSION → in3_cache_update_nodelist c chain = some (chain, IN3_EVERS))
      ∧ (∀ h rest loaded ret, c.cache = some h →
          h.get_item (write_cache_key chain.chain_id chain.contract)
            = some (CACHE_VERSION :: rest) →
          in3_cache_update_nodelist c chain = some (loaded, ret) → ret = IN3_EVERS) := by
  refine ⟨fun hc => ?_, fun h hc hg => ?_, fun h v rest hc hg hv => ?_,
    fun h rest loaded ret hc hg hl => ?_⟩
  · simp only [in3_cache_update_nodelist, hc]
  · simp only [in3_cache_update_nodelist, hc, hg]
  · exact in3_cache_update_nodelist_mismatch c chain h v rest hc hg hv
  · exact in3_cache_update_nodelist_loaded c chain h rest loaded ret hc hg hl

/-- C37, instance: the record `in3_cache_store_nodelist` writes for the chain
`ex_cache_chain` is loaded into a chain with the same id and contract; the node
list arrives and the status is `IN3_EVERS`. -/
theorem in3_cache_update_nodelist_status_witness :
    ∃ bytes loaded,
      (in3_cache_store_nodelist ⟨some (ex_storage []), []⟩ ex_cache_chain).bind
          (fun r => r.set_item) = some (write_cache_key 1 ex_cache_chain.contract, bytes)
        ∧ in3_cache_update_nodelist ⟨some (ex_storage bytes), []⟩
            { ex_cache_chain with
              last_block := 0, nodelist_length := 0, nodelist := [], weights := [] }
          = some (loaded, IN3_EVERS)
        ∧ loaded.nodelist = ex_cache_chain.nodelist := by
  obtain ⟨bytes, hb⟩ : ∃ bytes,
      in3_cache_store_nodelist ⟨some (ex_storage []), []⟩ ex_cache_chain
        = some ⟨IN3_OK, some (write_cache_key 1 ex_cache_chain.contract, bytes)⟩ := ⟨_, rfl⟩
  have hstore := in3_cache_store_nodelist_bytes ⟨some (ex_storage []), []⟩ ex_cache_chain
    (ex_storage []) (List.replicate 20 171) rfl rfl rfl rfl
  rw [hb] at hstore
  simp only [Option.some.injEq, cache_store_t.mk.injEq, Prod.mk.injEq, true_and] at hstore
  have hload := in3_cache_update_nodelist_bytes ⟨some (ex_storage bytes), []⟩
    { ex_cache_chain with
      last_block := 0, nodelist_length := 0, nodelist := [], weights := [] }
    (ex_storage bytes) (List.replicate 20 171) 1000 ex_cache_chain.nodelist
    ex_cache_chain.weights rfl (by decide) (by decide) (by decide) rfl (by decide)
    (by decide) (by rw [hstore.2]; rfl)
  have hs := (in3_cache_update_nodelist_status ⟨some (ex_storage bytes), []⟩
    { ex_cache_chain with
      last_block := 0, nodelist_length := 0, nodelist := [], weights := [] }).2.2.2
    (ex_storage bytes) _ _ _ rfl (by rw [hstore.2]; rfl) hload
  exact ⟨bytes, _, by rw [hb]; rfl, hload, rfl⟩
